import Mathlib

/-!
# Shuffle workflow execution engine

A shallow embedding of the execution engine of `backend/go-app/walkoff.go`:
the graph model (`Workflow`, `Action`, `Branch`, `ActionResult`,
`WorkflowExecution`), `findChildNodes`, the result sink
(`handleGetStreamResults`, `handleWorkflowQueue`), the queue
(`handleGetWorkflowqueue`, `handleGetWorkflowqueueConfirm`), `abortExecution`,
the planner (`handleExecution`, `executeWorkflow`), the schedules
(`createSchedule`, `scheduleWorkflow`, `stopSchedule`) and
`getWorkflowExecutions`.

Conventions of the embedding.

* Go strings are `String`; `len(s) > 0` is `0 < s.length`. Status values stay
  strings, as in the source, so that a posting may carry any status text.
* Struct fields that no modelled function reads (images, positions, labels,
  sharing flags, and so on) are left out of the records.
* The datastore is a map from entity name to entity. `Get` fails exactly when
  the name is absent, `Put` always succeeds; the only refusal to write is the
  guard inside `setWorkflowExecution`.
* Statistics counters (`increaseStatisticsField`) live under another entity
  kind and their errors are only logged, so they are not part of the state.
* A Go slice is a window on a backing array. The post-merge cleanup deletes
  from `Results` while an outer `range` still walks the original window, so
  the cleanup is modelled on the pair (current window, cells behind it).
* `findChildNodes` is recursive without a visited set; it is embedded with a
  fuel argument bounding the recursion depth.
* `handleCors` and `handleApiAuthentication` are declared outside `walkoff.go`.
  The handlers are taken from the point where `handleCors` has returned false;
  the result of `handleApiAuthentication` is an argument (`none` when it
  fails).
* The handlers are taken from the point where the request body has been read
  and decoded into an `ActionResult`; `time.Now().Unix()` is the argument
  `now`.
* `len(s) == 36` is about bytes (`byteLen`). The values `handleExecution` draws
  with `uuid.NewV4()`, and the functions it calls that are declared outside
  `walkoff.go`, are the fields of `Host`. Its three return values are an
  `ExecutionReturn`, whose `err = none` is Go's `nil`.
-/

namespace Shuffle

/-! ## Graph model -/

/-- The anonymous struct `{Description, ID, Name, Value}` used for workflow and
execution variables and for `Action.ExecutionVariable`. -/
structure Variable where
  Description : String := ""
  ID : String := ""
  Name : String := ""
  Value : String := ""
deriving DecidableEq

/-- The fields of `WorkflowAppActionParameter` read by the engine. -/
structure WorkflowAppActionParameter where
  Name : String := ""
  Value : String := ""
  Variant : String := ""
  Required : Bool := false
  Configuration : Bool := false
deriving DecidableEq

/-- A node of a workflow (`type Action struct`). The default value is Go's zero
value of the struct. -/
structure Action where
  AppName : String := ""
  AppVersion : String := ""
  AppID : String := ""
  ID : String := ""
  Environment : String := ""
  Name : String := ""
  Parameters : List WorkflowAppActionParameter := []
  ExecutionVariable : Variable := {}
  AuthenticationId : String := ""
deriving DecidableEq

/-- A directed edge `SourceID → DestinationID` (`type Branch struct`). -/
structure Branch where
  DestinationID : String := ""
  ID : String := ""
  SourceID : String := ""
deriving DecidableEq

/-- The struct `Workflow.Configuration`. -/
structure Configuration where
  ExitOnError : Bool := false
  StartFromTop : Bool := false
deriving DecidableEq

/-- An entry of `Workflow.Schedules` and the body of a schedule request
(`type Schedule struct`). -/
structure Schedule where
  Name : String := ""
  Frequency : String := ""
  ExecutionArgument : String := ""
  Id : String := ""
deriving DecidableEq

/-- The fields of `type Workflow struct` read by the engine. -/
structure Workflow where
  Actions : List Action := []
  Branches : List Branch := []
  Schedules : List Schedule := []
  Configuration : Configuration := {}
  ID : String := ""
  IsValid : Bool := false
  Start : String := ""
  Owner : String := ""
  ExecutionVariables : List Variable := []
deriving DecidableEq

/-- A node result (`type ActionResult struct`). -/
structure ActionResult where
  Action : Action := {}
  ExecutionId : String := ""
  Authorization : String := ""
  Result : String := ""
  StartedAt : Int := 0
  CompletedAt : Int := 0
  Status : String := ""
deriving DecidableEq

/-- The per-run object (`type WorkflowExecution struct`). -/
structure WorkflowExecution where
  Status : String := ""
  Start : String := ""
  ExecutionArgument : String := ""
  ExecutionId : String := ""
  ExecutionSource : String := ""
  WorkflowId : String := ""
  LastNode : String := ""
  Authorization : String := ""
  Result : String := ""
  StartedAt : Int := 0
  CompletedAt : Int := 0
  Workflow : Workflow := {}
  Results : List ActionResult := []
  ExecutionVariables : List Variable := []
deriving DecidableEq

/-- A queue item (`type ExecutionRequest struct`), without its `Type` field. -/
structure ExecutionRequest where
  ExecutionId : String := ""
  ExecutionArgument : String := ""
  ExecutionSource : String := ""
  WorkflowId : String := ""
  Environments : List String := []
  Authorization : String := ""
  Status : String := ""
  Start : String := ""
deriving DecidableEq

/-- The queue of one environment (`type ExecutionRequestWrapper struct`). -/
structure ExecutionRequestWrapper where
  Data : List ExecutionRequest := []
deriving DecidableEq

/-- A stored authentication value (`type AuthenticationStore struct`). -/
structure AuthenticationStore where
  Key : String := ""
  Value : String := ""
deriving DecidableEq

/-- The fields of `type AppAuthenticationStorage struct` read by the engine. -/
structure AppAuthenticationStorage where
  Label : String := ""
  Id : String := ""
  Fields : List AuthenticationStore := []
deriving DecidableEq

/-- The fields of the `User` record (declared outside `walkoff.go`) that the
execution handlers read from the result of `handleApiAuthentication`. -/
structure User where
  Id : String := ""
  Role : String := ""
  Username : String := ""
deriving DecidableEq

/-! ## Datastore -/

/-- The entities of the kinds "workflowexecution", "workflow" and
"workflowqueue", by entity name, and all entities of kind "workflowappauth" in
the order in which `GetAll` returns them. -/
structure Datastore where
  workflowexecution : String → Option WorkflowExecution
  workflow : String → Option Workflow := fun _ => none
  workflowqueue : String → Option ExecutionRequestWrapper := fun _ => none
  workflowappauth : List AppAuthenticationStorage := []

/-- Go's `len` of a string: its number of bytes. -/
def byteLen (s : String) : Nat := s.utf8ByteSize

/-- Go's `strings.ToLower`, on the characters Lean lowers (the ASCII letters;
execution ids are uuids). -/
def toLower (s : String) : String := ⟨s.data.map Char.toLower⟩

/-- `getWorkflowExecution`: the entity named `strings.ToLower(id)`. -/
def getWorkflowExecution (db : Datastore) (id : String) : Option WorkflowExecution :=
  db.workflowexecution (toLower id)

/-- `setWorkflowExecution`: refuses an empty `ExecutionId`, otherwise puts the
execution under the name `ExecutionId`. -/
def setWorkflowExecution (db : Datastore) (workflowExecution : WorkflowExecution) :
    Option Datastore :=
  if workflowExecution.ExecutionId.length = 0 then none
  else some { db with workflowexecution := fun name =>
    if name = workflowExecution.ExecutionId then some workflowExecution
    else db.workflowexecution name }

/-- `getWorkflow`: the workflow named `strings.ToLower(id)`. -/
def getWorkflow (db : Datastore) (id : String) : Option Workflow :=
  db.workflow (toLower id)

/-- `getWorkflowQueue`: the queue wrapper named `id`. -/
def getWorkflowQueue (db : Datastore) (id : String) : Option ExecutionRequestWrapper :=
  db.workflowqueue id

/-- `setWorkflowQueue`: puts the wrapper under the name `id`. -/
def setWorkflowQueue (db : Datastore) (executionRequests : ExecutionRequestWrapper)
    (id : String) : Datastore :=
  { db with workflowqueue := fun name =>
    if name = id then some executionRequests else db.workflowqueue name }

/-- `getAllWorkflowAppAuth`: every stored authentication. -/
def getAllWorkflowAppAuth (db : Datastore) : List AppAuthenticationStorage :=
  db.workflowappauth

/-! ## HTTP replies -/

/-- The JSON body of a reply. -/
inductive Body where
  /-- The body with success false and a reason. -/
  | failure (reason : String)
  /-- The body with success true. -/
  | ok
  /-- The marshalled execution. -/
  | execution (workflowExecution : WorkflowExecution)
  /-- A body that is plain text. -/
  | plain (text : String)
  /-- The marshalled queue wrapper. -/
  | queue (executionRequests : ExecutionRequestWrapper)
  /-- The body with success true, `execution_id` and `authorization`. -/
  | started (executionId authorization : String)
  /-- The marshalled list of executions. -/
  | executions (workflowExecutions : List WorkflowExecution)
deriving DecidableEq

/-- Status code and body written to the response. -/
structure Response where
  code : Nat
  body : Body
deriving DecidableEq

/-- Why a handler run produced no reply. -/
inductive Fault where
  /-- A run-time panic "slice bounds out of range". -/
  | sliceBounds
  /-- The recursion of `findChildNodes` went deeper than the fuel. -/
  | outOfFuel
  /-- A run-time panic "index out of range". -/
  | indexOutOfRange
deriving DecidableEq

/-- What one run of a handler leaves behind: a reply and the datastore after
it, or a fault, in which case nothing was written. -/
inductive Outcome where
  | replied (resp : Response) (db : Datastore)
  | faulted (fault : Fault)

/-! ## handleGetStreamResults -/

/-- `handleGetStreamResults`, lines 697-722. -/
def handleGetStreamResults (db : Datastore) (actionResult : ActionResult) : Outcome :=
  match getWorkflowExecution db actionResult.ExecutionId with
  | none =>
    .replied ⟨401, .failure "Bad authorization key or execution_id might not exist."⟩ db
  | some workflowExecution =>
    if workflowExecution.Authorization ≠ actionResult.Authorization then
      .replied ⟨401, .failure "Bad authorization key or execution_id might not exist."⟩ db
    else
      .replied ⟨200, .execution workflowExecution⟩ db

/-! ## findChildNodes -/

/-- The loop of lines 740-752 and of lines 758-770: append every node of
`nodes` that is not yet in the accumulator. -/
def appendMissing (acc nodes : List String) : List String :=
  nodes.foldl (fun acc node => if node ∈ acc then acc else acc ++ [node]) acc

/-- `findChildNodes`, lines 728-773. `none` when the recursion is deeper than
`fuel`. -/
def findChildNodes : Nat → WorkflowExecution → String → Option (List String)
  | 0, _, _ => none
  | fuel + 1, workflowExecution, nodeId =>
    (workflowExecution.Workflow.Branches.foldlM (fun allChildren branch =>
      if branch.SourceID = nodeId then
        (findChildNodes fuel workflowExecution branch.DestinationID).map
          (fun childNodes => appendMissing (allChildren ++ [branch.DestinationID]) childNodes)
      else some allChildren) [nodeId]).map (appendMissing [])

/-! ## handleWorkflowQueue: the failure block, lines 842-944 -/

/-- The body of the loop of lines 856-911 for one node of `childNodes`: the
synthetic result, unless the node is the failing node, is not the ID of a
workflow action, or has an incoming branch whose source is outside
`childNodes`. -/
def skippedResult (workflowExecution : WorkflowExecution) (actionResult : ActionResult)
    (childNodes : List String) (nodeId : String) : Option ActionResult :=
  if nodeId = actionResult.Action.ID then none
  else
    let curAction : Action :=
      (workflowExecution.Workflow.Actions.find? fun action => action.ID = nodeId).getD { ID := "" }
    if curAction.ID.length = 0 then none
    else
      let skipNodeAdd := workflowExecution.Workflow.Branches.any fun branch =>
        decide (branch.DestinationID = nodeId) && !decide (branch.SourceID ∈ childNodes)
      if skipNodeAdd then none
      else some
        { Action := curAction
          ExecutionId := actionResult.ExecutionId
          Authorization := actionResult.Authorization
          Result := "Skipped because of previous node"
          StartedAt := 0
          CompletedAt := 0
          Status := "SKIPPED" }

/-- The synthetic results of lines 856-911, in the order of `childNodes`. -/
def skippedResults (workflowExecution : WorkflowExecution) (actionResult : ActionResult)
    (childNodes : List String) : List ActionResult :=
  childNodes.filterMap (skippedResult workflowExecution actionResult childNodes)

/-- The body of the loop of lines 917-928 on one result: a result still
EXECUTING takes the posted status and a fixed message. -/
def convertExecuting (status : String) (result : ActionResult) : ActionResult :=
  if result.Status = "EXECUTING" then
    { result with Status := status, Result := "Aborted because of an unknown error" }
  else result

/-- The variable `lastResult` of lines 915-928 (and of `abortExecution`): the
`Result` of the last entry whose `Result` is not empty, or the empty string. -/
def lastNonEmptyResult (results : List ActionResult) : String :=
  results.foldl (fun lastResult result =>
    if 0 < result.Result.length then result.Result else lastResult) ""

/-- Lines 842-944. With a posted status other than ABORTED and FAILURE the
execution is untouched. `none` when `findChildNodes` runs out of fuel. -/
def failureBlock (fuel : Nat) (workflowExecution : WorkflowExecution)
    (actionResult : ActionResult) : Option WorkflowExecution :=
  if actionResult.Status = "ABORTED" ∨ actionResult.Status = "FAILURE" then
    let converted := workflowExecution.Results.map (convertExecuting actionResult.Status)
    if workflowExecution.Workflow.Configuration.ExitOnError then
      some { workflowExecution with
        Status := actionResult.Status
        LastNode := actionResult.Action.ID
        Result := lastNonEmptyResult converted
        Results := converted }
    else
      (findChildNodes fuel workflowExecution actionResult.Action.ID).map fun childNodes =>
        { workflowExecution with
          Result := lastNonEmptyResult converted
          Results := skippedResults workflowExecution actionResult childNodes ++ converted }
  else some workflowExecution

/-! ## handleWorkflowQueue: the merge, lines 949-986 -/

/-- The search of lines 953-959: the index of the first result whose
`Action.ID` is `id`. -/
def findResult (id : String) : List ActionResult → Option Nat
  | [] => none
  | item :: rest =>
    if item.Action.ID = id then some 0 else (findResult id rest).map (· + 1)

/-- The loop of lines 968-974: the first execution variable named `name` gets
the value `value`. -/
def setExecutionVariable (name value : String) : List Variable → List Variable
  | [] => []
  | execvar :: rest =>
    if execvar.Name = name then { execvar with Value := value } :: rest
    else execvar :: setExecutionVariable name value rest

/-- Lines 949-986. -/
def mergeResult (workflowExecution : WorkflowExecution) (actionResult : ActionResult) :
    WorkflowExecution :=
  if 0 < workflowExecution.Results.length then
    match findResult actionResult.Action.ID workflowExecution.Results with
    | some outerindex =>
      let actionVarName :=
        ((workflowExecution.Results.get? outerindex).getD {}).Action.ExecutionVariable.Name
      { workflowExecution with
        ExecutionVariables :=
          if 0 < actionVarName.length then
            setExecutionVariable actionVarName actionResult.Result
              workflowExecution.ExecutionVariables
          else workflowExecution.ExecutionVariables
        Results := workflowExecution.Results.set outerindex actionResult }
    | none =>
      { workflowExecution with Results := workflowExecution.Results ++ [actionResult] }
  else
    { workflowExecution with Results := workflowExecution.Results ++ [actionResult] }

/-! ## handleWorkflowQueue: the cleanup of skipped results, lines 988-1011 -/

/-- The test of lines 997-999 (and 1041-1043) for one branch: some result of
`results` belongs to the source of the branch and is neither SKIPPED nor
FAILURE. -/
def liveParent (results : List ActionResult) (branch : Branch) : Bool :=
  results.any fun subresult =>
    decide (subresult.Action.ID = branch.SourceID) &&
      (decide (subresult.Status ≠ "SKIPPED") && decide (subresult.Status ≠ "FAILURE"))

/-- The slice `workflowExecution.Results` during the cleanup: `live` is the
slice itself, `stale` the cells of the backing array behind it, which the
outer `range` (started on the longer, original slice) still reads. -/
structure ResultsSlice where
  live : List ActionResult
  stale : List ActionResult
deriving DecidableEq

/-- Line 1003, `Results = append(Results[:resultIndex], Results[resultIndex+1:]...)`.
`Results[resultIndex+1:]` panics unless `resultIndex+1 ≤ len(Results)`
(`none`). Otherwise the cells behind `resultIndex` move one place down inside
the same backing array and the slice gets one shorter; the cell that held the
last entry keeps its content and is now behind the slice. -/
def deleteAt (resultIndex : Nat) (s : ResultsSlice) : Option ResultsSlice :=
  if resultIndex + 1 ≤ s.live.length then
    some { live := s.live.eraseIdx resultIndex, stale := s.live.getLast?.toList ++ s.stale }
  else none

/-- The loop over the branches, lines 995-1010, for the outer entry `result` at
`resultIndex`. The `break` of line 1005 leaves only the loop over the results,
so the later branches are still examined, against the slice as it is then. -/
def cleanupBranches (resultIndex : Nat) (result : ActionResult) :
    List Branch → ResultsSlice → Option ResultsSlice
  | [], s => some s
  | branch :: rest, s =>
    if branch.DestinationID = result.Action.ID ∧ liveParent s.live branch = true then
      match deleteAt resultIndex s with
      | none => none
      | some s' => cleanupBranches resultIndex result rest s'
    else cleanupBranches resultIndex result rest s

/-- The outer loop of lines 989-1011: `remaining` iterations starting at
`resultIndex`, each reading cell `resultIndex` of the backing array. A deletion
keeps the number of cells, so the cell is always there and the first case of
the match is never taken. -/
def cleanupLoop (branches : List Branch) : Nat → Nat → ResultsSlice → Option ResultsSlice
  | 0, _, s => some s
  | remaining + 1, resultIndex, s =>
    match (s.live ++ s.stale).get? resultIndex with
    | none => some s
    | some result =>
      if result.Status ≠ "SKIPPED" then cleanupLoop branches remaining (resultIndex + 1) s
      else
        match cleanupBranches resultIndex result branches s with
        | none => none
        | some s' => cleanupLoop branches remaining (resultIndex + 1) s'

/-- Lines 988-1011: the range runs over the length `Results` has when the loop
starts. `none` when a slice expression panics. -/
def cleanupSkipped (workflowExecution : WorkflowExecution) : Option WorkflowExecution :=
  (cleanupLoop workflowExecution.Workflow.Branches workflowExecution.Results.length 0
    { live := workflowExecution.Results, stale := [] }).map fun s =>
      { workflowExecution with Results := s.live }

/-- No SKIPPED result of `results` has an incoming branch whose source has a
result in `results` that is neither SKIPPED nor FAILURE: the test of lines
997-1000 never succeeds, so the cleanup has nothing to remove. -/
def nothingToRemove (branches : List Branch) (results : List ActionResult) : Prop :=
  ∀ result ∈ results, result.Status = "SKIPPED" →
    ∀ branch ∈ branches, branch.DestinationID = result.Action.ID →
      ∀ subresult ∈ results, subresult.Action.ID = branch.SourceID →
        subresult.Status = "SKIPPED" ∨ subresult.Status = "FAILURE"

/-! ## handleWorkflowQueue: the termination check, lines 1013-1081 -/

/-- The counter `extraInputs`, lines 1013-1018. -/
def extraInputs (results : List ActionResult) : Nat :=
  results.countP fun result =>
    decide (result.Action.Name = "User Input") && decide (result.Action.AppName = "User Input")

/-- The loop over the branches of lines 1039-1056 for one SKIPPED result, with
the current value of `finished`. -/
def skippedParentsLoop (results : List ActionResult) (result : ActionResult) :
    List Branch → Bool → Bool
  | [], finished => finished
  | branch :: rest, finished =>
    let finished :=
      if branch.DestinationID = result.Action.ID ∧ liveParent results branch = true then false
      else finished
    if !finished then finished else skippedParentsLoop results result rest finished

/-- The loop of lines 1028-1060 on the remaining results, carrying
`(finished, lastResult)`. -/
def finishLoop (branches : List Branch) (results : List ActionResult) :
    List ActionResult → Bool × String → Bool × String
  | [], state => state
  | result :: rest, (finished, lastResult) =>
    if result.Status = "EXECUTING" then (false, lastResult)
    else
      let finished :=
        if result.Status = "SKIPPED" then skippedParentsLoop results result branches finished
        else finished
      finishLoop branches results rest (finished, result.Result)

/-- Lines 1013-1081. -/
def terminationCheck (now : Int) (workflowExecution : WorkflowExecution)
    (actionResult : ActionResult) : WorkflowExecution :=
  if workflowExecution.Results.length =
      workflowExecution.Workflow.Actions.length + extraInputs workflowExecution.Results then
    let state := finishLoop workflowExecution.Workflow.Branches workflowExecution.Results
      workflowExecution.Results (true, "")
    if state.1 then
      { workflowExecution with
        Result := state.2
        Status := "FINISHED"
        CompletedAt := now
        LastNode :=
          if workflowExecution.LastNode = "" then actionResult.Action.ID
          else workflowExecution.LastNode }
    else workflowExecution
  else workflowExecution

/-- The condition of lines 1022 and 1065 under which the execution is completed. -/
def completes (workflowExecution : WorkflowExecution) : Prop :=
  workflowExecution.Results.length =
      workflowExecution.Workflow.Actions.length + extraInputs workflowExecution.Results ∧
    (finishLoop workflowExecution.Workflow.Branches workflowExecution.Results
      workflowExecution.Results (true, "")).1 = true

/-- The condition `completes` read off the results: the number of results is
the number of actions plus the number of results of a "User Input" action, no
result is EXECUTING, and for every SKIPPED result every result that belongs to
a parent (the source of a branch into its action) is SKIPPED or FAILURE. Only
results that exist are examined, as in lines 1041-1051: a parent without any
result passes. -/
def resultsComplete (workflowExecution : WorkflowExecution) : Prop :=
  workflowExecution.Results.length =
      workflowExecution.Workflow.Actions.length +
        (workflowExecution.Results.filter fun result =>
          decide (result.Action.Name = "User Input" ∧ result.Action.AppName = "User Input")).length ∧
    (∀ result ∈ workflowExecution.Results, result.Status ≠ "EXECUTING") ∧
    ∀ result ∈ workflowExecution.Results, result.Status = "SKIPPED" →
      ∀ branch ∈ workflowExecution.Workflow.Branches,
        branch.DestinationID = result.Action.ID →
        ∀ parent ∈ workflowExecution.Results, parent.Action.ID = branch.SourceID →
          parent.Status = "SKIPPED" ∨ parent.Status = "FAILURE"

/-- The completion condition in the words of the specification (§4.3, step 7):
the number of results is the number of actions plus the number of results of a
"User Input" action, no result is EXECUTING, and for every SKIPPED result all
of its parents (the sources of the branches into its action) have Status
SKIPPED or FAILURE: every parent has a result, and every result it has is
SKIPPED or FAILURE. To be compared with `completes`, which is the code. -/
def specComplete (workflowExecution : WorkflowExecution) : Prop :=
  workflowExecution.Results.length =
      workflowExecution.Workflow.Actions.length +
        (workflowExecution.Results.filter fun result =>
          decide (result.Action.Name = "User Input" ∧ result.Action.AppName = "User Input")).length ∧
    (∀ result ∈ workflowExecution.Results, result.Status ≠ "EXECUTING") ∧
    ∀ result ∈ workflowExecution.Results, result.Status = "SKIPPED" →
      ∀ branch ∈ workflowExecution.Workflow.Branches,
        branch.DestinationID = result.Action.ID →
        (∃ parent ∈ workflowExecution.Results, parent.Action.ID = branch.SourceID) ∧
          ∀ parent ∈ workflowExecution.Results, parent.Action.ID = branch.SourceID →
            parent.Status = "SKIPPED" ∨ parent.Status = "FAILURE"

/-! ## handleWorkflowQueue -/

/-- Lines 842-1081: everything between the gate and the commit. -/
def processResult (fuel : Nat) (now : Int) (workflowExecution : WorkflowExecution)
    (actionResult : ActionResult) : Except Fault WorkflowExecution :=
  match failureBlock fuel workflowExecution actionResult with
  | none => .error .outOfFuel
  | some failed =>
    match cleanupSkipped (mergeResult failed actionResult) with
    | none => .error .sliceBounds
    | some cleaned => .ok (terminationCheck now cleaned actionResult)

/-- The rejections of lines 813-840 for a loaded execution: the reply, or
`none` when the posting goes on to be processed. -/
def sinkGate (workflowExecution : WorkflowExecution) (actionResult : ActionResult) :
    Option Response :=
  if workflowExecution.Authorization ≠ actionResult.Authorization then
    some ⟨401, .failure "Bad authorization key"⟩
  else if workflowExecution.Status = "FINISHED" then
    some ⟨401, .failure ("Workflowexecution is already finished because of " ++
      workflowExecution.LastNode ++ " with status " ++ workflowExecution.Status)⟩
  else if (workflowExecution.Status = "ABORTED" ∨ workflowExecution.Status = "FAILURE") ∧
      workflowExecution.Workflow.Configuration.ExitOnError = true then
    some ⟨401, .failure ("Workflowexecution is aborted because of " ++
      workflowExecution.LastNode ++ " with result " ++ workflowExecution.Result ++
      " and status " ++ workflowExecution.Status)⟩
  else none

/-- `handleWorkflowQueue`, lines 804-1100. -/
def handleWorkflowQueue (fuel : Nat) (now : Int) (db : Datastore)
    (actionResult : ActionResult) : Outcome :=
  match getWorkflowExecution db actionResult.ExecutionId with
  | none =>
    .replied ⟨401, .failure ("Failed getting execution ID " ++ actionResult.ExecutionId ++
      " because it doesn't exist.")⟩ db
  | some workflowExecution =>
    match sinkGate workflowExecution actionResult with
    | some resp => .replied resp db
    | none =>
      match processResult fuel now workflowExecution actionResult with
      | .error fault => .faulted fault
      | .ok updated =>
        match setWorkflowExecution db updated with
        | none =>
          .replied ⟨401, .failure
            "Failed setting workflowexecution actionresult: ExecutionId can't be empty."⟩ db
        | some db' => .replied ⟨200, .ok⟩ db'

/-! ## handleGetWorkflowqueueConfirm -/

/-- The parts of the request `handleGetWorkflowqueueConfirm` reads: the header
`Org-Id` (empty when absent) and the body decoded into a wrapper (`none` when
`json.Unmarshal` fails). -/
structure ConfirmRequest where
  OrgId : String := ""
  remove : Option ExecutionRequestWrapper := none

/-- The test of lines 599-605: some entry of the confirm list has the
ExecutionId and the WorkflowId of `execution`. -/
def confirmed (removeExecutionRequests : ExecutionRequestWrapper)
    (execution : ExecutionRequest) : Bool :=
  removeExecutionRequests.Data.any fun removeExecution =>
    decide (removeExecution.ExecutionId = execution.ExecutionId) &&
      decide (removeExecution.WorkflowId = execution.WorkflowId)

/-- `handleGetWorkflowqueueConfirm`, lines 545-628. -/
def handleGetWorkflowqueueConfirm (db : Datastore) (request : ConfirmRequest) : Outcome :=
  if request.OrgId.length = 0 then
    .replied ⟨401, .failure "Specify the org-id header."⟩ db
  else
    match getWorkflowQueue db request.OrgId with
    | none => .replied ⟨401, .failure "Entity parsing error - confirm"⟩ db
    | some executionRequests =>
      if executionRequests.Data.length = 0 then
        .replied ⟨401, .failure "Some error"⟩ db
      else
        match request.remove with
        | none => .replied ⟨401, .failure "json: cannot unmarshal"⟩ db
        | some removeExecutionRequests =>
          if removeExecutionRequests.Data.length = 0 then
            .replied ⟨401, .failure "Some removal error"⟩ db
          else
            let newExecutionRequests : ExecutionRequestWrapper :=
              { Data := executionRequests.Data.filter fun execution =>
                  !confirmed removeExecutionRequests execution }
            if executionRequests.Data.length ≠ newExecutionRequests.Data.length then
              .replied ⟨200, .plain "OK"⟩
                (setWorkflowQueue db newExecutionRequests request.OrgId)
            else .replied ⟨200, .plain "OK"⟩ db

/-! ## abortExecution -/

/-- `abortExecution`, lines 1919-2018. `user` is the result of
`handleApiAuthentication` (`none` when it fails) and `location` the request URL
split at "/". A failure body without a reason has the empty reason. -/
def abortExecution (now : Int) (db : Datastore) (user : Option User)
    (location : List String) : Outcome :=
  match user with
  | none => .replied ⟨401, .failure ""⟩ db
  | some user =>
    match location.get? 1 with
    | none => .faulted .indexOutOfRange
    | some root =>
      if root = "api" ∧ location.length ≤ 4 then .replied ⟨401, .failure ""⟩ db
      else
        let fileId := if root = "api" then (location.get? 4).getD "" else ""
        if byteLen fileId ≠ 36 then
          .replied ⟨401, .failure "Workflow ID to abort is not valid"⟩ db
        else
          match location.get? 6 with
          | none => .faulted .indexOutOfRange
          | some executionId =>
            if byteLen executionId ≠ 36 then
              .replied ⟨401, .failure "ExecutionID not valid"⟩ db
            else
              match getWorkflowExecution db executionId with
              | none =>
                .replied ⟨401, .failure ("Failed getting execution ID " ++ executionId ++
                  " because it doesn't exist (abort).")⟩ db
              | some workflowExecution =>
                if user.Id ≠ workflowExecution.Workflow.Owner ∧ user.Role ≠ "admin" then
                  .replied ⟨401, .failure ""⟩ db
                else if workflowExecution.Status = "ABORTED" ∨
                    workflowExecution.Status = "FAILURE" ∨
                    workflowExecution.Status = "FINISHED" then
                  .replied ⟨401, .failure ("Status for " ++ executionId ++ " is " ++
                    workflowExecution.Status ++ ", which can't be aborted.")⟩ db
                else
                  let newResults := workflowExecution.Results.map (convertExecuting "ABORTED")
                  let aborted : WorkflowExecution :=
                    { workflowExecution with
                      CompletedAt := now
                      Status := "ABORTED"
                      Results := newResults
                      Result :=
                        if workflowExecution.Result.length = 0 then lastNonEmptyResult newResults
                        else workflowExecution.Result }
                  match setWorkflowExecution db aborted with
                  | none =>
                    .replied ⟨401, .failure
                      "Failed setting workflowexecution status to abort"⟩ db
                  | some db' => .replied ⟨200, .ok⟩ db'

/-! ## handleExecution: the request, lines 2118-2260 -/

/-- The value of `var cloudname` (line 44). -/
def cloudname : String := "cloud"

/-- What `handleExecution` reads of the request: the method, the body and its
decoding into a zero `ExecutionRequest` (a decoding error is only logged), and
the first value of the query parameters `start`, `answer`,
`reference_execution` and `note` (`none` when the parameter is absent). -/
structure ExecutionCall where
  Method : String := "GET"
  body : String := ""
  execution : ExecutionRequest := {}
  start : Option String := none
  answer : Option String := none
  reference_execution : Option String := none
  note : Option String := none

/-- What the planner takes from outside the datastore: the two values
`uuid.NewV4().String()` it may draw (for an ExecutionId and for an
Authorization), the clock, and `baseDockerName` and `imageCheckBuilder`, which
are declared outside `walkoff.go` (`true` when the builder returns no error). -/
structure Host where
  sessionToken : String
  authorization : String
  now : Int := 0
  baseDockerName : String := ""
  imageCheckBuilder : List String → Bool := fun _ => true

/-- The three values `handleExecution` returns; `err = none` is Go's `nil`. -/
structure ExecutionReturn where
  execution : WorkflowExecution := {}
  reason : String := ""
  err : Option String := none
deriving DecidableEq

/-- A return with an empty execution and an error. -/
def failWith (reason err : String) : ExecutionReturn :=
  { reason := reason, err := some err }

/-- The outcome of lines 2118-2260: an early return, with the datastore after
it, or the execution to go on with and the flag `makeNew`. -/
inductive Resolved where
  | returned (ret : ExecutionReturn) (db : Datastore)
  | proceed (workflowExecution : WorkflowExecution) (makeNew : Bool)

/-- The POST branch, lines 2119-2175. -/
def resolvePost (host : Host) (workflow : Workflow) (workflowExecution : WorkflowExecution)
    (request : ExecutionCall) : Except ExecutionReturn WorkflowExecution :=
  let execution : ExecutionRequest :=
    if request.execution.Start = "" ∧ 0 < request.body.length then
      { request.execution with ExecutionArgument := request.body }
    else request.execution
  let workflowExecution : WorkflowExecution :=
    if 0 < execution.ExecutionArgument.length then
      { workflowExecution with ExecutionArgument := execution.ExecutionArgument }
    else workflowExecution
  let workflowExecution : WorkflowExecution :=
    if 0 < execution.ExecutionSource.length then
      { workflowExecution with ExecutionSource := execution.ExecutionSource }
    else workflowExecution
  let executionId : String :=
    if byteLen execution.ExecutionId = 36 then execution.ExecutionId else host.sessionToken
  if byteLen execution.Start = 36 then
    if workflow.Actions.any (fun action => decide (action.ID = workflow.Start)) then
      .ok { workflowExecution with Start := execution.Start, ExecutionId := executionId }
    else
      .error (failWith ("Startnode " ++ workflow.Start ++ " was not found in actions")
        ("Startnode " ++ workflow.Start ++ " was not found in actions"))
  else if 0 < execution.Start.length then
    .error (failWith ("Startnode " ++ execution.Start ++ " was not found in actions")
      ("Startnode " ++ execution.Start ++ " was not found in actions"))
  else .ok { workflowExecution with ExecutionId := executionId }

/-- The body of the loop of lines 2201-2220 on one result of the reference
execution. -/
def cancelResult (now : Int) (start answer : String) (note : Option String)
    (result : ActionResult) : ActionResult :=
  if result.Action.ID = start then
    { result with
      Result :=
        match note with
        | some text => "User note: " ++ text
        | none => "User clicked " ++ answer
      CompletedAt := now
      Status := "ABORTED" }
  else result

/-- The loop of lines 2199-2222 on the reference execution. Line 2202 reads
`start[0]` for every result, which panics when the request has no `start`. -/
def cancelledExecution (host : Host) (request : ExecutionCall) (answer : String)
    (oldExecution : WorkflowExecution) : Except Fault WorkflowExecution :=
  match request.start with
  | none =>
    if oldExecution.Results.length = 0 then .ok oldExecution
    else .error .indexOutOfRange
  | some start =>
    let newResults :=
      oldExecution.Results.map (cancelResult host.now start answer request.note)
    if oldExecution.Results.any (fun result => decide (result.Action.ID = start)) then
      .ok { oldExecution with
        Status := "ABORTED"
        Result :=
          match request.note with
          | some text => "User note: " ++ text
          | none => "User clicked " ++ answer
        LastNode := start
        Results := newResults }
    else .ok { oldExecution with Results := newResults }

/-- The cancellation of lines 2184-2230 (`answer` is "false"). -/
def cancelExecution (host : Host) (db : Datastore) (id : String) (request : ExecutionCall)
    (answer reference : String) : Except Fault (ExecutionReturn × Datastore) :=
  match getWorkflowExecution db reference with
  | none =>
    .ok (failWith ("Failed getting execution ID " ++ reference ++ " because it doesn't exist.")
      "datastore: no such entity", db)
  | some oldExecution =>
    if oldExecution.Workflow.ID ≠ id then
      .ok (failWith ("Bad ID [" ++ reference ++ "]") "Bad ID", db)
    else
      match cancelledExecution host request answer oldExecution with
      | .error fault => .error fault
      | .ok oldExecution =>
        match setWorkflowExecution db oldExecution with
        | none =>
          .ok (failWith
            "Failed setting workflowexecution actionresult in execution: ExecutionId can't be empty."
            "ExecutionId can't be empty.", db)
        | some db' => .ok ({}, db')

/-- The branch for the other methods, lines 2233-2258, after the cancellation
has been ruled out. -/
def resolveGet (host : Host) (db : Datastore) (workflowExecution : WorkflowExecution)
    (request : ExecutionCall) : Except ExecutionReturn (WorkflowExecution × Bool) :=
  let loaded : Except ExecutionReturn WorkflowExecution :=
    match request.reference_execution with
    | none => .ok workflowExecution
    | some reference =>
      match getWorkflowExecution db reference with
      | none =>
        .error (failWith ("Failed getting execution ID " ++ reference ++
          " because it doesn't exist.") "datastore: no such entity")
      | some oldExecution => .ok oldExecution
  match loaded with
  | .error ret => .error ret
  | .ok workflowExecution =>
    let makeNew : Bool := decide (workflowExecution.ExecutionId.length = 0)
    let workflowExecution : WorkflowExecution :=
      if makeNew then { workflowExecution with ExecutionId := host.sessionToken }
      else workflowExecution
    let workflowExecution : WorkflowExecution :=
      match request.start with
      | some start => { workflowExecution with Start := start }
      | none => workflowExecution
    .ok (workflowExecution, makeNew)

/-- Lines 2118-2260. -/
def resolveRequest (host : Host) (db : Datastore) (id : String) (workflow : Workflow)
    (workflowExecution : WorkflowExecution) (request : ExecutionCall) : Except Fault Resolved :=
  if request.Method = "POST" then
    match resolvePost host workflow workflowExecution request with
    | .error ret => .ok (.returned ret db)
    | .ok workflowExecution => .ok (.proceed workflowExecution true)
  else
    let cancellation : Option String :=
      if request.answer = some "false" then request.reference_execution else none
    match cancellation with
    | some reference =>
      match cancelExecution host db id request "false" reference with
      | .error fault => .error fault
      | .ok (ret, db') => .ok (.returned ret db')
    | none =>
      match resolveGet host db workflowExecution request with
      | .error ret => .ok (.returned ret db)
      | .ok (workflowExecution, makeNew) => .ok (.proceed workflowExecution makeNew)

/-! ## handleExecution: the new execution, lines 2263-2318 -/

/-- Lines 2263-2318. The early return "Invalid uuid" carries no error. -/
def prepareExecution (host : Host) (workflow : Workflow) (workflowExecution : WorkflowExecution)
    (makeNew : Bool) : Except ExecutionReturn WorkflowExecution :=
  if byteLen workflowExecution.ExecutionId ≠ 36 then
    .error { reason := "Invalid uuid", err := none }
  else
    let workflowExecution : WorkflowExecution :=
      if makeNew then
        { workflowExecution with
          WorkflowId := workflow.ID
          StartedAt := host.now
          CompletedAt := 0
          Authorization := host.authorization
          Status := "EXECUTING" }
      else workflowExecution
    let workflowExecution : WorkflowExecution :=
      if workflowExecution.ExecutionSource.length = 0 then
        { workflowExecution with ExecutionSource := "default" }
      else workflowExecution
    let workflowExecution : WorkflowExecution :=
      { workflowExecution with ExecutionVariables := workflow.ExecutionVariables }
    let workflowExecution : WorkflowExecution :=
      if workflowExecution.Start.length = 0 then
        { workflowExecution with Start := workflowExecution.Workflow.Start }
      else workflowExecution
    .ok workflowExecution

/-! ## handleExecution: the loop over the actions, lines 2321-2422 -/

/-- The loop of lines 2367-2374 for one parameter: the first field whose Key is
the name of the parameter gives it its Value. -/
def injectParameter (fields : List AuthenticationStore) (param : WorkflowAppActionParameter) :
    WorkflowAppActionParameter :=
  match fields.find? (fun authparam => decide (param.Name = authparam.Key)) with
  | some authparam => { param with Value := authparam.Value }
  | none => param

/-- The search of lines 2351-2357: the first stored authentication with the Id,
or the one with the empty Id. -/
def findAuth (allAuths : List AppAuthenticationStorage) (authenticationId : String) :
    AppAuthenticationStorage :=
  (allAuths.find? fun auth => decide (auth.Id = authenticationId)).getD { Id := "" }

/-- The variables of the loop of lines 2330-2413. -/
structure Plan where
  startFound : Bool := false
  newActions : List Action := []
  defaultResults : List ActionResult := []
deriving DecidableEq

/-- The result seeded for an action that is not under the start node, lines
2402-2410. -/
def seededResult (workflowExecution : WorkflowExecution) (action : Action) : ActionResult :=
  { Action := action
    ExecutionId := workflowExecution.ExecutionId
    Authorization := workflowExecution.Authorization
    Result := "Skipped because it's not under the startnode"
    StartedAt := 0
    CompletedAt := 0
    Status := "SKIPPED" }

/-- One iteration of the loop of lines 2330-2413. -/
def planAction (db : Datastore) (workflowExecution : WorkflowExecution)
    (childNodes : List String) (plan : Plan) (action : Action) : Except ExecutionReturn Plan :=
  let startFound := plan.startFound || decide (action.ID = workflowExecution.Start)
  if action.Environment = "" then
    .error (failWith ("Environment is not defined for " ++ action.Name)
      "Environment not defined!")
  else
    let injected : Except ExecutionReturn Action :=
      if 0 < action.AuthenticationId.length then
        let curAuth := findAuth (getAllWorkflowAppAuth db) action.AuthenticationId
        if curAuth.Id.length = 0 then
          .error (failWith ("Auth ID " ++ action.AuthenticationId ++ " doesn't exist")
            ("Auth ID " ++ action.AuthenticationId ++ " doesn't exist"))
        else
          .ok { action with Parameters := action.Parameters.map (injectParameter curAuth.Fields) }
      else .ok action
    match injected with
    | .error ret => .error ret
    | .ok action =>
      let plan : Plan :=
        { plan with startFound := startFound, newActions := plan.newActions ++ [action] }
      if workflowExecution.Workflow.Configuration.StartFromTop = false ∧
          action.ID ∉ childNodes ∧ action.ID ≠ workflowExecution.Start then
        .ok { plan with
          defaultResults := plan.defaultResults ++ [seededResult workflowExecution action] }
      else .ok plan

/-- The loop of lines 2330-2413 on the remaining actions. -/
def planActions (db : Datastore) (workflowExecution : WorkflowExecution)
    (childNodes : List String) : List Action → Plan → Except ExecutionReturn Plan
  | [], plan => .ok plan
  | action :: rest, plan =>
    match planAction db workflowExecution childNodes plan action with
    | .error ret => .error ret
    | .ok plan => planActions db workflowExecution childNodes rest plan

/-! ## handleExecution: environments, commit and queues, lines 2415-2501 -/

/-- The list `environments` of lines 2424-2449: the environments other than
`cloudname`, each once, in the order of their first action. -/
def environmentsOf (actions : List Action) : List String :=
  actions.foldl (fun environments action =>
    if action.Environment ≠ cloudname ∧ action.Environment ∉ environments then
      environments ++ [action.Environment]
    else environments) []

/-- `strings.ReplaceAll(newName, " ", "-")`. -/
def replaceSpaces (s : String) : String :=
  ⟨s.data.map fun c => if c = ' ' then '-' else c⟩

/-- The list `imageNames` of lines 2427-2449. -/
def imageNamesOf (host : Host) (actions : List Action) : List String :=
  (actions.filter fun action => decide (action.Environment ≠ cloudname)).map fun action =>
    host.baseDockerName ++ ":" ++ replaceSpaces action.AppName ++ "_" ++ action.AppVersion

/-- The body of the loop of lines 2467-2491 for one environment. -/
def enqueueRequest (executionRequest : ExecutionRequest) (db : Datastore)
    (environment : String) : Datastore :=
  match getWorkflowQueue db environment with
  | none => setWorkflowQueue db { Data := [executionRequest] } environment
  | some executionRequestWrapper =>
    setWorkflowQueue db
      { executionRequestWrapper with Data := executionRequestWrapper.Data ++ [executionRequest] }
      environment

/-- The request put on the queues, lines 2470-2475. -/
def requestOf (workflowExecution : WorkflowExecution) (environments : List String) :
    ExecutionRequest :=
  { ExecutionId := workflowExecution.ExecutionId
    WorkflowId := workflowExecution.Workflow.ID
    Authorization := workflowExecution.Authorization
    Environments := environments }

/-- The execution as lines 2421-2422 complete it from the loop's variables. -/
def plannedExecution (workflowExecution : WorkflowExecution) (plan : Plan) :
    WorkflowExecution :=
  { workflowExecution with
    Results := plan.defaultResults
    Workflow := { workflowExecution.Workflow with Actions := plan.newActions } }

/-- Lines 2465-2494: one request on the queue of every environment, when some
action runs outside `cloudname`. -/
def enqueueAll (workflowExecution : WorkflowExecution) (db : Datastore) : Datastore :=
  let environments := environmentsOf workflowExecution.Workflow.Actions
  let onpremExecution := workflowExecution.Workflow.Actions.any fun action =>
    decide (action.Environment ≠ cloudname)
  if onpremExecution then
    environments.foldl (enqueueRequest (requestOf workflowExecution environments)) db
  else db

/-- Lines 2415-2501, once the loop over the actions has ended with `plan`. -/
def commitPlan (host : Host) (db : Datastore) (workflowExecution : WorkflowExecution)
    (plan : Plan) : ExecutionReturn × Datastore :=
  if plan.startFound = false then
    (failWith ("Workflow action " ++ workflowExecution.Start ++ " doesn't exist in workflow")
      ("Workflow start node " ++ workflowExecution.Start ++ " doesn't exist. Exiting!"), db)
  else
    let workflowExecution := plannedExecution workflowExecution plan
    if host.imageCheckBuilder (imageNamesOf host workflowExecution.Workflow.Actions) = false then
      (failWith "Failed building missing Docker images" "image build failed", db)
    else
      match setWorkflowExecution db workflowExecution with
      | none => (failWith "Failed getting workflowexecution" "ExecutionId can't be empty.", db)
      | some db' => ({ execution := workflowExecution }, enqueueAll workflowExecution db')

/-! ## handleExecution -/

/-- Lines 2321-2501, for the execution that lines 2263-2318 have prepared. -/
def planExecution (fuel : Nat) (host : Host) (db : Datastore)
    (workflowExecution : WorkflowExecution) : Except Fault (ExecutionReturn × Datastore) :=
  match findChildNodes fuel workflowExecution workflowExecution.Start with
  | none => .error .outOfFuel
  | some childNodes =>
    match planActions db workflowExecution childNodes workflowExecution.Workflow.Actions {} with
    | .error ret => .ok (ret, db)
    | .ok plan => .ok (commitPlan host db workflowExecution plan)

/-- Lines 2074-2318: the execution that is going to be planned, or an early
return. The copy of the workflow into the execution through JSON (lines
2104-2116) is the identity on the fields kept. -/
def startExecution (host : Host) (db : Datastore) (id : String) (workflow : Workflow)
    (request : ExecutionCall) : Except Fault Resolved :=
  let loaded : Option Workflow :=
    if workflow.ID = "" ∨ workflow.ID ≠ id then getWorkflow db id else some workflow
  match loaded with
  | none => .ok (.returned (failWith "Failed getting workflow" "datastore: no such entity") db)
  | some workflow =>
    if workflow.IsValid = false then
      .ok (.returned
        (failWith ("workflow " ++ workflow.ID ++ " is invalid") "Failed getting workflow") db)
    else
      match resolveRequest host db id workflow { Workflow := workflow } request with
      | .error fault => .error fault
      | .ok (.returned ret db') => .ok (.returned ret db')
      | .ok (.proceed workflowExecution makeNew) =>
        match prepareExecution host workflow workflowExecution makeNew with
        | .error ret => .ok (.returned ret db)
        | .ok workflowExecution => .ok (.proceed workflowExecution makeNew)

/-- `handleExecution`, lines 2074-2502. -/
def handleExecution (fuel : Nat) (host : Host) (db : Datastore) (id : String)
    (workflow : Workflow) (request : ExecutionCall) :
    Except Fault (ExecutionReturn × Datastore) :=
  match startExecution host db id workflow request with
  | .error fault => .error fault
  | .ok (.returned ret db') => .ok (ret, db')
  | .ok (.proceed workflowExecution _) => planExecution fuel host db workflowExecution

/-- The action as lines 2341-2380 leave it when they do not fail: with an
AuthenticationId, every parameter takes the value of the first field of the
stored authentication whose Key is its name. -/
def plannedAction (db : Datastore) (action : Action) : Action :=
  if 0 < action.AuthenticationId.length then
    { action with
      Parameters := action.Parameters.map
        (injectParameter (findAuth (getAllWorkflowAppAuth db) action.AuthenticationId).Fields) }
  else action

/-- The request is the cancellation of lines 2181-2230: not a POST, with
`answer` "false" and a `reference_execution`. -/
def ExecutionCall.cancels (request : ExecutionCall) : Prop :=
  request.Method ≠ "POST" ∧ request.answer = some "false" ∧
    request.reference_execution ≠ none

/-- A return of `handleExecution` that carries a planned execution: no error,
and an execution with an ExecutionId (the early returns carry the empty
execution). -/
def ExecutionReturn.planned (ret : ExecutionReturn) : Prop :=
  ret.err = none ∧ 0 < ret.execution.ExecutionId.length

/-! ## handleGetWorkflowqueue -/

/-- `handleGetWorkflowqueue`, lines 639-671, for the value `orgId` of the
header `Org-Id` (empty when the header is absent). `json.Marshal` does not
fail on a wrapper; a wrapper without entries is marshalled with the empty
list. The reason of the second rejection is the text of the datastore error. -/
def handleGetWorkflowqueue (db : Datastore) (orgId : String) : Outcome :=
  if orgId.length = 0 then .replied ⟨401, .failure "Specify the org-id header."⟩ db
  else
    match getWorkflowQueue db orgId with
    | none => .replied ⟨401, .failure "datastore: no such entity"⟩ db
    | some executionRequests => .replied ⟨200, .queue executionRequests⟩ db

/-! ## The request body of the worker endpoints -/

/-- Lines 781-796 of `handleWorkflowQueue`: the body is decoded with
`json.Unmarshal` (`.error` with the text of its error when it fails), then
the handler goes on with the decoded posting. -/
def handleWorkflowQueueBody (fuel : Nat) (now : Int) (db : Datastore)
    (decoded : Except String ActionResult) : Outcome :=
  match decoded with
  | .error err => .replied ⟨401, .failure err⟩ db
  | .ok actionResult => handleWorkflowQueue fuel now db actionResult

/-- Lines 680-695 of `handleGetStreamResults`, likewise. -/
def handleGetStreamResultsBody (db : Datastore) (decoded : Except String ActionResult) :
    Outcome :=
  match decoded with
  | .error err => .replied ⟨401, .failure err⟩ db
  | .ok actionResult => handleGetStreamResults db actionResult

/-! ## createSchedule -/

/-- `strings.Split(s, sep)` for a separator of one character, on the
characters of `s`: one fragment more than there are separators. -/
def Split (sep : Char) : List Char → List (List Char)
  | [] => [[]]
  | c :: rest =>
    if c = sep then [] :: Split sep rest
    else
      match Split sep rest with
      | [] => [[c]]
      | fragment :: fragments => (c :: fragment) :: fragments

/-- The value of a decimal digit. -/
def digitValue (c : Char) : Option Nat :=
  if 48 ≤ c.toNat ∧ c.toNat ≤ 57 then some (c.toNat - 48) else none

/-- The number written by decimal digits, after the digits that gave `value`. -/
def digitsValue : List Char → Nat → Option Nat
  | [], value => some value
  | c :: rest, value =>
    match digitValue c with
    | none => none
    | some digit => digitsValue rest (10 * value + digit)

/-- The integer that a string denotes in decimal notation: an optional sign
and at least one digit. `none` for every other string. -/
def decimalValue (s : String) : Option Int :=
  match s.data with
  | [] => none
  | c :: rest =>
    if c = '-' then
      if rest = [] then none else (digitsValue rest 0).map fun value => -(value : Int)
    else if c = '+' then
      if rest = [] then none else (digitsValue rest 0).map fun value => (value : Int)
    else (digitsValue (c :: rest) 0).map fun value => (value : Int)

/-- Go's `strconv.Atoi` on a 64-bit platform: the decimal value of the string,
and an error (`none`) when the string is no decimal integer or its value is
outside the range of `int`. -/
def Atoi (s : String) : Option Int :=
  match decimalValue s with
  | none => none
  | some value => if -(2 ^ 63 : Int) ≤ value ∧ value < 2 ^ 63 then some value else none

/-- The entity that `createSchedule` persists (lines 512-523; the type
`ScheduleOld` is declared outside `walkoff.go`). -/
structure ScheduleOld where
  Id : String := ""
  WorkflowId : String := ""
  StartNode : String := ""
  Argument : String := ""
  WrappedArgument : String := ""
  Seconds : Int := 0
  CreationTime : Int := 0
  LastModificationtime : Int := 0
  LastRuntime : Int := 0
deriving DecidableEq

/-- A job handed to the scheduler library (lines 491-504): its interval in
seconds, what its closure holds, and whether `Lock()` has been called on it. -/
structure Job where
  seconds : Int
  workflowId : String
  bodyWrapper : String
  locked : Bool := false
deriving DecidableEq

/-- The state of the schedules: the process-wide map `scheduledJobs` (line 46)
and the entities of the kind "schedules". -/
structure Schedules where
  scheduledJobs : String → Option Job := fun _ => none
  schedules : String → Option ScheduleOld := fun _ => none

/-- Modelled from the spec: `setSchedule` is declared outside `walkoff.go`; the
spec keeps the schedules in the store "by id", so the schedule is put under
its Id. -/
def setSchedule (state : Schedules) (schedule : ScheduleOld) : Schedules :=
  { state with schedules := fun name =>
      if name = schedule.Id then some schedule else state.schedules name }

/-- Line 509, `scheduledJobs[scheduleId] = jobret`. -/
def registerJob (state : Schedules) (scheduleId : String) (jobret : Job) : Schedules :=
  { state with scheduledJobs := fun id =>
      if id = scheduleId then some jobret else state.scheduledJobs id }

/-- `strings.Replace(s, "\"", "\\\"", -1)`: a backslash in front of every
double quote. -/
def escapeQuotes (s : String) : String :=
  ⟨s.data.flatMap fun c => if c = Char.ofNat 34 then [Char.ofNat 92, Char.ofNat 34] else [c]⟩

/-- The text `bodyWrapper` of line 488. -/
def bodyWrapperOf (startNode body : String) : String :=
  "\x7b\"start\": \"" ++ startNode ++
    "\", \"execution_source\": \"schedule\", \"execution_argument\": \"" ++
    escapeQuotes body ++ "\"\x7d"

/-- `createSchedule`, lines 451-536: the error it returns (`none` is `nil`) and
the state after it. `runError` is the error of the scheduler library's `Run`
(`none` when it registers the job), `now` the clock; the parameter `name` is
not used. The texts of the errors of `strconv.Atoi` are not modelled. -/
def createSchedule (now : Int) (runError : Option String) (state : Schedules)
    (scheduleId workflowId _name startNode frequency body : String) :
    Option String × Schedules :=
  let testSplit := Split '*' frequency.data
  let parsed : Option (String × Int) :=
    if 5 < testSplit.length then some (frequency, 0)
    else (Atoi frequency).map fun newfrequency => ("", newfrequency)
  match parsed with
  | none => (some "strconv.Atoi: invalid syntax", state)
  | some (cronJob, newfrequency) =>
    if 0 < cronJob.length then (some "cronJob isn't formatted correctly", state)
    else if newfrequency < 1 then (some "Frequency has to be more than 0", state)
    else
      match runError with
      | some err => (some err, state)
      | none =>
        let bodyWrapper := bodyWrapperOf startNode body
        let jobret : Job :=
          { seconds := newfrequency, workflowId := workflowId, bodyWrapper := bodyWrapper }
        let state : Schedules := registerJob state scheduleId jobret
        (none, setSchedule state
          { Id := scheduleId
            WorkflowId := workflowId
            StartNode := startNode
            Argument := body
            WrappedArgument := bodyWrapper
            Seconds := newfrequency
            CreationTime := now
            LastModificationtime := now
            LastRuntime := now })

/-! ## executeWorkflow -/

/-- `executeWorkflow`, lines 2510-2566. `user` is the result of
`handleApiAuthentication` (`none` when it fails), `location` the request URL
split at "/". Whatever `handleExecution` has written stays written when it
returns an error. -/
def executeWorkflow (fuel : Nat) (host : Host) (db : Datastore) (user : Option User)
    (location : List String) (request : ExecutionCall) : Outcome :=
  match user with
  | none => .replied ⟨401, .failure ""⟩ db
  | some user =>
    match location.get? 1 with
    | none => .faulted .indexOutOfRange
    | some root =>
      if root = "api" ∧ location.length ≤ 4 then .replied ⟨401, .failure ""⟩ db
      else
        let fileId := if root = "api" then (location.get? 4).getD "" else ""
        if byteLen fileId ≠ 36 then
          .replied ⟨401, .failure "Workflow ID to execute is not valid"⟩ db
        else
          match getWorkflow db fileId with
          | none => .replied ⟨401, .failure ""⟩ db
          | some workflow =>
            if user.Id ≠ workflow.Owner ∧ user.Role ≠ "admin" ∧ user.Role ≠ "scheduler" ∧
                user.Role ≠ "workflow_" ++ fileId then
              .replied ⟨401, .failure ""⟩ db
            else
              match handleExecution fuel host db fileId workflow request with
              | .error fault => .faulted fault
              | .ok (ret, db') =>
                match ret.err with
                | none =>
                  .replied
                    ⟨200, .started ret.execution.ExecutionId ret.execution.Authorization⟩ db'
                | some _ => .replied ⟨500, .failure ret.reason⟩ db'

/-! ## scheduleWorkflow and stopSchedule -/

/-- `setWorkflow`: puts the workflow under the name `id`. -/
def setWorkflow (db : Datastore) (workflow : Workflow) (id : String) : Datastore :=
  { db with workflow := fun name => if name = id then some workflow else db.workflow name }

/-- What a handler of the schedules leaves behind: a reply, the datastore and
the state of the schedules after it, or a fault. -/
inductive ScheduleOutcome where
  | replied (resp : Response) (db : Datastore) (state : Schedules)
  | faulted (fault : Fault)

/-- What `scheduleWorkflow` reads of the request body: its decoding into a
`Schedule` (`none` when `json.Unmarshal` fails) and the text that
`json.Marshal` gives for the ExecutionArgument of that schedule. -/
structure ScheduleCall where
  schedule : Option Schedule := none
  scheduleArg : String := ""

/-- `strings.Replace(s, "\\\"", "\"", -1)` on the characters of `s`: a
backslash followed by a double quote becomes the double quote. -/
def unescapeQuotes : List Char → List Char
  | [] => []
  | [c] => [c]
  | c :: d :: rest =>
    if c = Char.ofNat 92 ∧ d = Char.ofNat 34 then d :: unescapeQuotes rest
    else c :: unescapeQuotes (d :: rest)

/-- Lines 2881-2888: the marshalled argument without escaped quotes and without
the quotes around it. A text that is a single double quote makes
`parsedBody[1 : len(parsedBody)-1]` panic. -/
def parsedBodyOf (scheduleArg : String) : Except Fault String :=
  let parsedBody := unescapeQuotes scheduleArg.data
  if 0 < parsedBody.length ∧ parsedBody.head? = some (Char.ofNat 34) ∧
      parsedBody.getLast? = some (Char.ofNat 34) then
    if parsedBody.length < 2 then .error .sliceBounds
    else .ok ⟨(parsedBody.drop 1).take (parsedBody.length - 2)⟩
  else .ok ⟨parsedBody⟩

/-- The loop of lines 2846-2855: the destination of the last branch that leaves
the schedule, or the start node of the workflow. -/
def scheduleStartNode (workflow : Workflow) (schedule : Schedule) : String :=
  let startNode := workflow.Branches.foldl (fun startNode branch =>
    if branch.SourceID = schedule.Id then branch.DestinationID else startNode) ""
  if startNode = "" then workflow.Start else startNode

/-- `scheduleWorkflow`, lines 2780-2939. -/
def scheduleWorkflow (now : Int) (runError : Option String) (db : Datastore)
    (state : Schedules) (user : Option User) (location : List String)
    (request : ScheduleCall) : ScheduleOutcome :=
  match user with
  | none => .replied ⟨401, .failure ""⟩ db state
  | some user =>
    match location.get? 1 with
    | none => .faulted .indexOutOfRange
    | some root =>
      if root = "api" ∧ location.length ≤ 4 then .replied ⟨401, .failure ""⟩ db state
      else
        let fileId := if root = "api" then (location.get? 4).getD "" else ""
        if byteLen fileId ≠ 36 then
          .replied ⟨401, .failure "Workflow ID to start schedule is not valid"⟩ db state
        else
          match getWorkflow db fileId with
          | none => .replied ⟨401, .failure ""⟩ db state
          | some workflow =>
            if user.Id ≠ workflow.Owner ∧ user.Role ≠ "admin" ∧ user.Role ≠ "scheduler" then
              .replied ⟨401, .failure ""⟩ db state
            else
              match request.schedule with
              | none => .replied ⟨401, .failure ""⟩ db state
              | some schedule =>
                let startNode := scheduleStartNode workflow schedule
                if byteLen schedule.Id ≠ 36 then
                  .replied ⟨500, .failure "Invalid data"⟩ db state
                else if schedule.Name.length = 0 then
                  .replied ⟨401, .failure "Schedule name can't be empty"⟩ db state
                else if schedule.Frequency.length = 0 then
                  .replied ⟨401, .failure "Frequency can't be empty"⟩ db state
                else
                  match parsedBodyOf request.scheduleArg with
                  | .error fault => .faulted fault
                  | .ok parsedBody =>
                    match createSchedule now runError state schedule.Id workflow.ID
                        schedule.Name startNode schedule.Frequency parsedBody with
                    | (some _, state') =>
                      .replied ⟨401, .failure "Invalid argument. Try cron */15 * * * *"⟩ db
                        state'
                    | (none, state') =>
                      .replied ⟨200, .ok⟩
                        (setWorkflow db
                          { workflow with Schedules := workflow.Schedules ++ [schedule] }
                          workflow.ID)
                        state'

/-- `deleteSchedule`, lines 2734-2752: the error it returns and the state after
it. Modelled from the spec for the part declared outside `walkoff.go`:
`DeleteKey` removes the persisted schedule. -/
def deleteSchedule (state : Schedules) (id : String) : Option String × Schedules :=
  let state : Schedules :=
    { state with schedules := fun name => if name = id then none else state.schedules name }
  match state.scheduledJobs id with
  | some value =>
    (none, { state with scheduledJobs := fun name =>
      if name = id then some { value with locked := true } else state.scheduledJobs name })
  | none => (some "Can't find the schedule.", state)

/-- `strings.Contains(err, "Job not found")`: the text starts at some place of
`err`. -/
def jobNotFound (err : String) : Bool :=
  err.data.tails.any fun tail => "Job not found".data.isPrefixOf tail

/-- `stopSchedule`, lines 2575-2642. -/
def stopSchedule (db : Datastore) (state : Schedules) (user : Option User)
    (location : List String) : ScheduleOutcome :=
  match user with
  | none => .replied ⟨401, .failure ""⟩ db state
  | some user =>
    match location.get? 1 with
    | none => .faulted .indexOutOfRange
    | some root =>
      if root = "api" ∧ location.length ≤ 6 then .replied ⟨401, .failure ""⟩ db state
      else
        let fileId := if root = "api" then (location.get? 4).getD "" else ""
        let scheduleId := if root = "api" then (location.get? 6).getD "" else ""
        if byteLen fileId ≠ 36 then
          .replied ⟨401, .failure "Workflow ID to stop schedule is not valid"⟩ db state
        else if byteLen scheduleId ≠ 36 then
          .replied ⟨401, .failure "Schedule ID not valid"⟩ db state
        else
          match getWorkflow db fileId with
          | none => .replied ⟨401, .failure ""⟩ db state
          | some workflow =>
            if user.Id ≠ workflow.Owner ∧ user.Role ≠ "admin" ∧ user.Role ≠ "scheduler" then
              .replied ⟨401, .failure ""⟩ db state
            else
              match deleteSchedule state scheduleId with
              | (some err, state') =>
                if jobNotFound err then .replied ⟨200, .ok⟩ db state'
                else .replied ⟨401, .failure "Failed stopping schedule"⟩ db state'
              | (none, state') => .replied ⟨200, .ok⟩ db state'

/-! ## getWorkflowExecutions -/

/-- `getWorkflowExecutions`, lines 4975-5027. `recent` is the answer of the
datastore to the query of line 5014 for a workflow id (`none` when `GetAll`
fails). -/
def getWorkflowExecutions (db : Datastore)
    (recent : String → Option (List WorkflowExecution)) (user : Option User)
    (location : List String) : Outcome :=
  match user with
  | none => .replied ⟨401, .failure ""⟩ db
  | some user =>
    match location.get? 1 with
    | none => .faulted .indexOutOfRange
    | some root =>
      if root = "api" ∧ location.length ≤ 4 then .replied ⟨401, .failure ""⟩ db
      else
        let fileId := if root = "api" then (location.get? 4).getD "" else ""
        if byteLen fileId ≠ 36 then
          .replied ⟨401, .failure
            "Workflow ID when getting workflow executions is not valid"⟩ db
        else
          match getWorkflow db fileId with
          | none => .replied ⟨401, .failure ""⟩ db
          | some workflow =>
            if user.Id ≠ workflow.Owner ∧ user.Role ≠ "admin" then
              .replied ⟨401, .failure ""⟩ db
            else
              match recent fileId with
              | none =>
                .replied ⟨401, .failure
                  ("Failed getting all workflowexecutions for " ++ fileId)⟩ db
              | some workflowExecutions =>
                if workflowExecutions.length = 0 then .replied ⟨200, .plain "[]"⟩ db
                else .replied ⟨200, .executions workflowExecutions⟩ db

/-! ## Reading outcomes -/

/-- A reply is a success when its status code is 200 or its body is not the
failure body. -/
def Response.success (resp : Response) : Bool :=
  resp.code == 200 ||
    (match resp.body with
     | .failure _ => false
     | _ => true)

/-- The datastore after a handler run; a fault writes nothing. -/
def Outcome.store (outcome : Outcome) (db : Datastore) : Datastore :=
  match outcome with
  | .replied _ db' => db'
  | .faulted _ => db

/-- The datastore after the sink has handled a sequence of postings, each with
its own fuel and clock. -/
def runPostings (db : Datastore) (postings : List (Nat × Int × ActionResult)) : Datastore :=
  postings.foldl (fun db posting =>
    (handleWorkflowQueue posting.1 posting.2.1 db posting.2.2).store db) db

/-- The statuses that end an execution. -/
def terminalStatus (status : String) : Prop :=
  status = "FINISHED" ∨ status = "ABORTED" ∨ status = "FAILURE"

/-- Every entity is stored under its own `ExecutionId`, as `setWorkflowExecution`
writes it. -/
def Datastore.keyed (db : Datastore) : Prop :=
  ∀ name workflowExecution,
    db.workflowexecution name = some workflowExecution → workflowExecution.ExecutionId = name

/-! ## Reachability along the branches -/

/-- Some branch leads from `source` to `destination`. -/
def branchStep (branches : List Branch) (source destination : String) : Prop :=
  ∃ branch ∈ branches, branch.SourceID = source ∧ branch.DestinationID = destination

/-- The node `target` is `nodeId` or can be reached from it by following
branches from SourceID to DestinationID. -/
def reachable (branches : List Branch) (nodeId target : String) : Prop :=
  Relation.ReflTransGen (branchStep branches) nodeId target

/-- No node that can be reached from `nodeId` lies on a cycle of branches. -/
def cycleFree (branches : List Branch) (nodeId : String) : Prop :=
  ∀ node, reachable branches nodeId node →
    ¬ Relation.TransGen (branchStep branches) node node

/-! ## Sample data -/

/-- An action with the given ID. -/
def sampleAction (id : String) : Action := { ID := id, Name := id, AppName := "Testing" }

/-- A branch from `source` to `destination`. -/
def sampleBranch (source destination : String) : Branch :=
  { SourceID := source, DestinationID := destination }

/-- A posting for execution "e1" with authorization "key". -/
def samplePosting (id status result : String) : ActionResult :=
  { Action := sampleAction id, ExecutionId := "e1", Authorization := "key",
    Status := status, Result := result }

/-- A datastore holding one execution under the name "e1". -/
def sampleStore (workflowExecution : WorkflowExecution) : Datastore :=
  { workflowexecution := fun name => if name = "e1" then some workflowExecution else none }

/-- The chain A → B with two actions. -/
def chainAB : Workflow :=
  { Actions := [sampleAction "A", sampleAction "B"], Branches := [sampleBranch "A" "B"] }

/-- An EXECUTING run of `chainAB` in which A has succeeded. -/
def runAB : WorkflowExecution :=
  { Status := "EXECUTING", ExecutionId := "e1", Authorization := "key", Workflow := chainAB,
    Results := [samplePosting "A" "SUCCESS" "a"] }

/-- Two actions and a branch from A to itself. -/
def loopWorkflow : Workflow :=
  { Actions := [sampleAction "A", sampleAction "B"], Branches := [sampleBranch "A" "A"] }

/-- An EXECUTING run of `loopWorkflow` without results. -/
def loopRun : WorkflowExecution :=
  { Status := "EXECUTING", ExecutionId := "e1", Authorization := "key", Workflow := loopWorkflow }

/-- The chain A → B → C and a separate action D; ExitOnError is false. -/
def chainWithSpare : Workflow :=
  { Actions := [sampleAction "A", sampleAction "B", sampleAction "C", sampleAction "D"],
    Branches := [sampleBranch "A" "B", sampleBranch "B" "C"] }

/-- An EXECUTING run of `chainWithSpare` in which A has succeeded. -/
def spareRun : WorkflowExecution :=
  { Status := "EXECUTING", ExecutionId := "e1", Authorization := "key",
    Workflow := chainWithSpare, Results := [samplePosting "A" "SUCCESS" "a"] }

/-- The IDs of the actions of the results stored under "e1". -/
def storedResultIDs (db : Datastore) : Option (List String) :=
  (db.workflowexecution "e1").map fun workflowExecution =>
    workflowExecution.Results.map fun result => result.Action.ID

/-- The run `spareRun` with an execution variable named "v". -/
def bindingRun : WorkflowExecution :=
  { spareRun with ExecutionVariables := [{ Name := "v" }] }

/-- The posting B:SUCCESS with result "b" whose action binds the variable "v". -/
def bindingPosting : ActionResult :=
  { samplePosting "B" "SUCCESS" "b" with
    Action := { sampleAction "B" with ExecutionVariable := { Name := "v" } } }

/-- Names and values of the execution variables stored under "e1". -/
def storedVariables (db : Datastore) : Option (List (String × String)) :=
  (db.workflowexecution "e1").map fun workflowExecution =>
    workflowExecution.ExecutionVariables.map fun execvar => (execvar.Name, execvar.Value)

/-- The run `runAB` with ExitOnError set. -/
def failFastRun : WorkflowExecution :=
  { runAB with Workflow := { chainAB with Configuration := { ExitOnError := true } } }

/-- Status and LastNode of the execution stored under "e1". -/
def storedStatus (db : Datastore) : Option (String × String) :=
  (db.workflowexecution "e1").map fun workflowExecution =>
    (workflowExecution.Status, workflowExecution.LastNode)

/-- An EXECUTING run without results of a workflow whose second action has the
empty ID, with a branch from B to it. -/
def emptyIdRun : WorkflowExecution :=
  { Status := "EXECUTING", ExecutionId := "e1", Authorization := "key",
    Workflow :=
      { Actions := [sampleAction "B", sampleAction ""], Branches := [sampleBranch "B" ""] } }

/-- The diamond A → B, A → C, B → D, C → D in which A has succeeded. -/
def diamondRun : WorkflowExecution :=
  { Status := "EXECUTING", ExecutionId := "e1", Authorization := "key",
    Workflow :=
      { Actions := [sampleAction "A", sampleAction "B", sampleAction "C", sampleAction "D"],
        Branches := [sampleBranch "A" "B", sampleBranch "A" "C", sampleBranch "B" "D",
          sampleBranch "C" "D"] },
    Results := [samplePosting "A" "SUCCESS" "a"] }

/-- Status, Result and the Result strings of the results stored under "e1". -/
def storedResult (db : Datastore) : Option (String × String × List String) :=
  (db.workflowexecution "e1").map fun workflowExecution =>
    (workflowExecution.Status, workflowExecution.Result,
      workflowExecution.Results.map fun result => result.Result)

/-- The run `spareRun` after an abort: Status ABORTED, ExitOnError false. -/
def abortedRun : WorkflowExecution :=
  { spareRun with Status := "ABORTED" }

/-- A 36-byte execution id. -/
def sampleExecutionId : String := "eeeeeeee-eeee-4eee-8eee-eeeeeeeeeeee"

/-- A 36-byte workflow id. -/
def sampleWorkflowId : String := "aaaaaaaa-aaaa-4aaa-8aaa-aaaaaaaaaaaa"

/-- A queue entry for the execution `executionId` of `sampleWorkflowId`. -/
def sampleRequest (executionId : String) : ExecutionRequest :=
  { ExecutionId := executionId, WorkflowId := sampleWorkflowId, Authorization := "key" }

/-- A datastore whose queue "onprem" holds the requests x, y, z. -/
def queueStore : Datastore :=
  { workflowexecution := fun _ => none
    workflowqueue := fun name =>
      if name = "onprem" then
        some { Data := [sampleRequest "x", sampleRequest "y", sampleRequest "z"] }
      else none }

/-- An EXECUTING run owned by "alice" in which A has succeeded and B is still
EXECUTING. -/
def abortableRun : WorkflowExecution :=
  { Status := "EXECUTING", ExecutionId := sampleExecutionId, Authorization := "key",
    Workflow := { chainWithSpare with Owner := "alice", ID := sampleWorkflowId },
    Results := [samplePosting "A" "SUCCESS" "a", samplePosting "B" "EXECUTING" ""] }

/-- The run `spareRun` in which B and D are still EXECUTING. -/
def runningRun : WorkflowExecution :=
  { spareRun with
    Results := [samplePosting "A" "SUCCESS" "a", samplePosting "B" "EXECUTING" "",
      samplePosting "D" "EXECUTING" ""] }

/-- For each result stored under "e1", the ID of the action, the Status and the
Result. -/
def storedTriples (db : Datastore) : Option (List (String × String × String)) :=
  (db.workflowexecution "e1").map fun workflowExecution =>
    workflowExecution.Results.map fun result =>
      (result.Action.ID, result.Status, result.Result)

/-- A datastore holding `runningRun` under "e1" and `abortableRun` under
`sampleExecutionId`. -/
def runningStore : Datastore :=
  { workflowexecution := fun name =>
      if name = "e1" then some runningRun
      else if name = sampleExecutionId then some abortableRun else none }

/-- A datastore holding `workflowExecution` under `sampleExecutionId`. -/
def executionStore (workflowExecution : WorkflowExecution) : Datastore :=
  { workflowexecution := fun name =>
      if name = sampleExecutionId then some workflowExecution else none }

/-- The URL of the abort route for `abortableRun`, split at "/". -/
def abortLocation : List String :=
  ["", "api", "v1", "workflows", sampleWorkflowId, "executions", sampleExecutionId, "abort"]

/-- The action `sampleAction id` in the environment "onprem". -/
def onpremAction (id : String) : Action :=
  { sampleAction id with Environment := "onprem" }

/-- A valid workflow whose actions run in "onprem": the chain A → B → C and a
separate action D, with start node A. -/
def plannedWorkflow : Workflow :=
  { ID := sampleWorkflowId, IsValid := true, Start := "A",
    Actions := [onpremAction "A", onpremAction "B", onpremAction "C", onpremAction "D"],
    Branches := [sampleBranch "A" "B", sampleBranch "B" "C"] }

/-- A second 36-byte id. -/
def sampleSessionToken : String := "ffffffff-ffff-4fff-8fff-ffffffffffff"

/-- A host whose next ids are `sampleSessionToken` and "fresh". -/
def sampleHost : Host := { sessionToken := sampleSessionToken, authorization := "fresh" }

/-- The datastore without entities. -/
def emptyStore : Datastore := { workflowexecution := fun _ => none }

/-- The result of `handleExecution` when it returns, and the empty return on a
fault. -/
def returned (run : Except Fault (ExecutionReturn × Datastore)) : ExecutionReturn × Datastore :=
  match run with
  | .ok out => out
  | .error _ => ({}, emptyStore)

/-- A GET request for `plannedWorkflow` with `start=B`. -/
def rerunCall : ExecutionCall := { start := some "B" }

/-- The return for `rerunCall` on the empty datastore. -/
def rerunOutcome : ExecutionReturn × Datastore :=
  returned (handleExecution 4 sampleHost emptyStore sampleWorkflowId plannedWorkflow rerunCall)

/-- The execution and the flag `makeNew` that `startExecution` hands to the
planning, and the empty execution when it does not. -/
def proceeding (start : Except Fault Resolved) : WorkflowExecution × Bool :=
  match start with
  | .ok (.proceed workflowExecution makeNew) => (workflowExecution, makeNew)
  | _ => ({}, true)

/-- A POST request with the body "run" that decodes to no execution request. -/
def postCall : ExecutionCall := { Method := "POST", body := "run" }

/-- The return for `postCall` on the empty datastore. -/
def postOutcome : ExecutionReturn × Datastore :=
  returned (handleExecution 4 sampleHost emptyStore sampleWorkflowId plannedWorkflow postCall)

/-- The ExecutionIds of the requests on the queue `name`. -/
def queuedIds (db : Datastore) (name : String) : Option (List String) :=
  (db.workflowqueue name).map fun wrapper => wrapper.Data.map fun request => request.ExecutionId

/-- Start and action IDs of the execution that `startExecution` hands to the
planning, when it does. -/
def preparedStart (host : Host) (db : Datastore) (id : String) (workflow : Workflow)
    (request : ExecutionCall) : Option (String × List String) :=
  match startExecution host db id workflow request with
  | .ok (.proceed workflowExecution _) =>
    some (workflowExecution.Start, workflowExecution.Workflow.Actions.map fun action => action.ID)
  | _ => none

/-- A valid workflow with the single action A and a branch from T to T, where
T is not an action. -/
def strayWorkflow : Workflow :=
  { ID := sampleWorkflowId, IsValid := true, Start := "A",
    Actions := [onpremAction "A"], Branches := [sampleBranch "T" "T"] }

/-- A valid workflow whose action A refers to the authentication "auth1" and
has the parameters url and apikey. -/
def authWorkflow : Workflow :=
  { ID := sampleWorkflowId, IsValid := true, Start := "A",
    Actions :=
      [{ onpremAction "A" with
          AuthenticationId := "auth1"
          Parameters := [{ Name := "url", Value := "u" }, { Name := "apikey", Value := "old" }] },
        onpremAction "B"],
    Branches := [sampleBranch "A" "B"] }

/-- A valid workflow whose only action A refers to the authentication "auth9"
and has a branch to itself. -/
def loopAuthWorkflow : Workflow :=
  { ID := sampleWorkflowId, IsValid := true, Start := "A",
    Actions := [{ onpremAction "A" with AuthenticationId := "auth9" }],
    Branches := [sampleBranch "A" "A"] }

/-- A datastore whose only entity is the authentication "auth1" with the field
apikey. -/
def authStore : Datastore :=
  { workflowexecution := fun _ => none
    workflowappauth := [{ Id := "auth1", Fields := [{ Key := "apikey", Value := "secret" }] }] }

/-- The return for a GET request for `authWorkflow` on `authStore`. -/
def authOutcome : ExecutionReturn × Datastore :=
  returned (handleExecution 4 sampleHost authStore sampleWorkflowId authWorkflow {})

/-- A valid workflow whose actions run in "onprem", "cloud", "onprem" and
"dmz". -/
def mixedWorkflow : Workflow :=
  { ID := sampleWorkflowId, IsValid := true, Start := "A",
    Actions :=
      [onpremAction "A", { sampleAction "B" with Environment := "cloud" }, onpremAction "C",
        { sampleAction "D" with Environment := "dmz" }],
    Branches := [sampleBranch "A" "B", sampleBranch "B" "C", sampleBranch "C" "D"] }

/-- The return for a GET request for `mixedWorkflow` on `queueStore`. -/
def mixedOutcome : ExecutionReturn × Datastore :=
  returned (handleExecution 5 sampleHost queueStore sampleWorkflowId mixedWorkflow {})

/-- A FINISHED run of `plannedWorkflow` with the Authorization "key". -/
def finishedRun : WorkflowExecution :=
  { Status := "FINISHED", ExecutionId := sampleExecutionId, Authorization := "key",
    Start := "A", Workflow := plannedWorkflow,
    Results := [samplePosting "A" "SUCCESS" "a", samplePosting "B" "SUCCESS" "b",
      samplePosting "C" "SUCCESS" "c", samplePosting "D" "SUCCESS" "d"] }

/-- A GET request that continues the execution `sampleExecutionId` at C. -/
def continueCall : ExecutionCall :=
  { reference_execution := some sampleExecutionId, start := some "C" }

/-- The return for `continueCall` when the store holds `finishedRun`. -/
def continueOutcome : ExecutionReturn × Datastore :=
  returned (handleExecution 4 sampleHost (executionStore finishedRun) sampleWorkflowId
    plannedWorkflow continueCall)

/-- An EXECUTING run of `plannedWorkflow` in which A and B have succeeded. -/
def pausedRun : WorkflowExecution :=
  { Status := "EXECUTING", ExecutionId := sampleExecutionId, Authorization := "key",
    Start := "A", Workflow := plannedWorkflow,
    Results := [samplePosting "A" "SUCCESS" "a", samplePosting "B" "SUCCESS" "b"] }

/-- The return for `continueCall` when the store holds `pausedRun`. -/
def resumeOutcome : ExecutionReturn × Datastore :=
  returned (handleExecution 4 sampleHost (executionStore pausedRun) sampleWorkflowId
    plannedWorkflow continueCall)

/-- The chain A → B → C. -/
def chainABC : Workflow :=
  { Actions := [sampleAction "A", sampleAction "B", sampleAction "C"],
    Branches := [sampleBranch "A" "B", sampleBranch "B" "C"] }

/-- An EXECUTING run of `chainABC` without results. -/
def freshRun : WorkflowExecution :=
  { Status := "EXECUTING", ExecutionId := "e1", Authorization := "key", Workflow := chainABC }

/-- The postings A:SUCCESS, B:SUCCESS, C:SUCCESS with their fuel and clock. -/
def successPostings : List (Nat × Int × ActionResult) :=
  [(0, 1, samplePosting "A" "SUCCESS" "a"), (0, 2, samplePosting "B" "SUCCESS" "b"),
    (0, 3, samplePosting "C" "SUCCESS" "c")]

/-- Two failing parents F and Q of M, and M → X; ExitOnError is false. -/
def forkWorkflow : Workflow :=
  { Actions := [sampleAction "F", sampleAction "M", sampleAction "X", sampleAction "Q"],
    Branches := [sampleBranch "F" "M", sampleBranch "Q" "M", sampleBranch "M" "X"] }

/-- An EXECUTING run of `forkWorkflow` without results. -/
def forkRun : WorkflowExecution :=
  { Status := "EXECUTING", ExecutionId := "e1", Authorization := "key",
    Workflow := forkWorkflow }

/-- The execution stored under "e1" after `forkRun` has taken the posting
F:FAILURE twice and then Q:SUCCESS (the empty execution if there were none). -/
def unsettledOutcome : WorkflowExecution :=
  ((runPostings (sampleStore forkRun)
    [(3, 1, samplePosting "F" "FAILURE" "f"), (3, 2, samplePosting "F" "FAILURE" "f"),
      (3, 3, samplePosting "Q" "SUCCESS" "q")]).workflowexecution "e1").getD {}

/-- Status of the execution stored under "e1" and, for each of its results, the
ID of the action and the Status. -/
def storedEntries (db : Datastore) : Option (String × List (String × String)) :=
  (db.workflowexecution "e1").map fun workflowExecution =>
    (workflowExecution.Status,
      workflowExecution.Results.map fun result => (result.Action.ID, result.Status))

/-- The run `bindingRun` in which B, whose action binds "v", is EXECUTING. -/
def boundRun : WorkflowExecution :=
  { bindingRun with
    Results := [samplePosting "A" "SUCCESS" "a",
      { bindingPosting with Status := "EXECUTING", Result := "" }] }

/-- The run `abortableRun` with the Result "early" already set. -/
def reportedRun : WorkflowExecution :=
  { abortableRun with Result := "early" }

/-- Result of the execution stored under `sampleExecutionId` and the Status and
Result of each of its results. -/
def storedOutcome (db : Datastore) : Option (String × List (String × String)) :=
  (db.workflowexecution sampleExecutionId).map fun workflowExecution =>
    (workflowExecution.Result,
      workflowExecution.Results.map fun result => (result.Status, result.Result))

/-- Two parents A and B of X. -/
def joinWorkflow : Workflow :=
  { Actions := [sampleAction "A", sampleAction "B", sampleAction "X"],
    Branches := [sampleBranch "A" "X", sampleBranch "B" "X"] }

/-- An EXECUTING run of `joinWorkflow` in which A and B have succeeded. -/
def joinRun : WorkflowExecution :=
  { Status := "EXECUTING", ExecutionId := "e1", Authorization := "key",
    Workflow := joinWorkflow,
    Results := [samplePosting "A" "SUCCESS" "a", samplePosting "B" "SUCCESS" "b"] }

/-- An EXECUTING run of `joinWorkflow` in which X is SKIPPED and A has
succeeded. -/
def skippedJoinRun : WorkflowExecution :=
  { joinRun with
    Results := [samplePosting "X" "SKIPPED" "", samplePosting "A" "SUCCESS" "a"] }

/-- F and Q are the parents of M, which is the parent of X and of Y;
ExitOnError is false. -/
def fanWorkflow : Workflow :=
  { Actions := [sampleAction "F", sampleAction "Q", sampleAction "M", sampleAction "X",
      sampleAction "Y"],
    Branches := [sampleBranch "F" "M", sampleBranch "Q" "M", sampleBranch "M" "X",
      sampleBranch "M" "Y"] }

/-- An EXECUTING run of `fanWorkflow` without results. -/
def fanRun : WorkflowExecution :=
  { Status := "EXECUTING", ExecutionId := "e1", Authorization := "key",
    Workflow := fanWorkflow }

/-- The ID and Status of each result of a processing that has not faulted. -/
def processedEntries (processed : Except Fault WorkflowExecution) :
    Option (List (String × String)) :=
  match processed with
  | .ok workflowExecution =>
    some (workflowExecution.Results.map fun result => (result.Action.ID, result.Status))
  | .error _ => none

/-- The fault of a processing that has faulted. -/
def faultOf (processed : Except Fault WorkflowExecution) : Option Fault :=
  match processed with
  | .ok _ => none
  | .error fault => some fault

/-- The position of the nodes A, B, C in the chain of `chainWithSpare`. -/
def chainRank (node : String) : Nat :=
  if node = "A" then 0 else if node = "B" then 1 else 2

end Shuffle

namespace Shuffle

/-! ## Basic facts about the handlers -/

theorem handleWorkflowQueue_stored (fuel : Nat) (now : Int) (db : Datastore)
    (actionResult : ActionResult) (workflowExecution : WorkflowExecution)
    (hstored : getWorkflowExecution db actionResult.ExecutionId = some workflowExecution) :
    handleWorkflowQueue fuel now db actionResult =
      match sinkGate workflowExecution actionResult with
      | some resp => .replied resp db
      | none =>
        match processResult fuel now workflowExecution actionResult with
        | .error fault => .faulted fault
        | .ok updated =>
          match setWorkflowExecution db updated with
          | none =>
            .replied ⟨401, .failure
              "Failed setting workflowexecution actionresult: ExecutionId can't be empty."⟩ db
          | some db' => .replied ⟨200, .ok⟩ db' := by
  simp only [handleWorkflowQueue, hstored]

theorem sinkGate_bad_authorization (workflowExecution : WorkflowExecution)
    (actionResult : ActionResult)
    (hbad : workflowExecution.Authorization ≠ actionResult.Authorization) :
    sinkGate workflowExecution actionResult = some ⟨401, .failure "Bad authorization key"⟩ := by
  simp [sinkGate, hbad]

/-! ## C1: authorization -/

/-- C1. For a stored execution and any request, when the Authorization of the
request differs from the stored one both worker endpoints (the result post
`handleWorkflowQueue` and the result fetch `handleGetStreamResults`) reply 401
with a failure body and leave the datastore as it was; so a reply that is a
success implies equal Authorization. -/
theorem worker_endpoints_require_authorization (fuel : Nat) (now : Int) (db : Datastore)
    (actionResult : ActionResult) (workflowExecution : WorkflowExecution)
    (hstored : getWorkflowExecution db actionResult.ExecutionId = some workflowExecution) :
    (workflowExecution.Authorization ≠ actionResult.Authorization →
      handleWorkflowQueue fuel now db actionResult =
          .replied ⟨401, .failure "Bad authorization key"⟩ db ∧
        handleGetStreamResults db actionResult =
          .replied ⟨401, .failure "Bad authorization key or execution_id might not exist."⟩ db) ∧
    (∀ resp db', handleWorkflowQueue fuel now db actionResult = .replied resp db' →
      resp.success = true → workflowExecution.Authorization = actionResult.Authorization) ∧
    (∀ resp db', handleGetStreamResults db actionResult = .replied resp db' →
      resp.success = true → workflowExecution.Authorization = actionResult.Authorization) := by
  have hbad : workflowExecution.Authorization ≠ actionResult.Authorization →
      handleWorkflowQueue fuel now db actionResult =
          .replied ⟨401, .failure "Bad authorization key"⟩ db ∧
        handleGetStreamResults db actionResult =
          .replied ⟨401, .failure "Bad authorization key or execution_id might not exist."⟩ db := by
    intro hne
    constructor
    · rw [handleWorkflowQueue_stored fuel now db actionResult workflowExecution hstored,
        sinkGate_bad_authorization workflowExecution actionResult hne]
    · simp [handleGetStreamResults, hstored, hne]
  refine ⟨hbad, ?_, ?_⟩
  · intro resp db' hrun hsuccess
    by_contra hne
    rw [(hbad hne).1] at hrun
    injection hrun with hresp _
    subst hresp
    simp [Response.success] at hsuccess
  · intro resp db' hrun hsuccess
    by_contra hne
    rw [(hbad hne).2] at hrun
    injection hrun with hresp _
    subst hresp
    simp [Response.success] at hsuccess

/-- Witness for C1: a posting for the stored run "e1" with the wrong key is
answered 401 by the sink. -/
theorem worker_endpoints_require_authorization_witness :
    handleWorkflowQueue 0 0 (sampleStore runAB)
        { samplePosting "B" "SUCCESS" "b" with Authorization := "guess" } =
      .replied ⟨401, .failure "Bad authorization key"⟩ (sampleStore runAB) :=
  ((worker_endpoints_require_authorization 0 0 (sampleStore runAB)
    { samplePosting "B" "SUCCESS" "b" with Authorization := "guess" } runAB (by rfl)).1
      (by decide)).1

/-! ## What the processing steps leave alone -/

theorem failureBlock_fixed (fuel : Nat) (workflowExecution failed : WorkflowExecution)
    (actionResult : ActionResult)
    (hfailed : failureBlock fuel workflowExecution actionResult = some failed) :
    failed.ExecutionId = workflowExecution.ExecutionId ∧
      failed.Authorization = workflowExecution.Authorization ∧
      failed.Workflow = workflowExecution.Workflow ∧
      failed.ExecutionVariables = workflowExecution.ExecutionVariables ∧
      failed.CompletedAt = workflowExecution.CompletedAt := by
  unfold failureBlock at hfailed
  split_ifs at hfailed with hstatus hexit
  · cases hfailed
    simp
  · cases hchildren : findChildNodes fuel workflowExecution actionResult.Action.ID with
    | none => simp [hchildren] at hfailed
    | some childNodes =>
      simp only [hchildren, Option.map_some', Option.some.injEq] at hfailed
      subst hfailed
      simp
  · cases hfailed
    simp

theorem mergeResult_fixed (workflowExecution : WorkflowExecution) (actionResult : ActionResult) :
    (mergeResult workflowExecution actionResult).ExecutionId = workflowExecution.ExecutionId ∧
      (mergeResult workflowExecution actionResult).Authorization =
        workflowExecution.Authorization ∧
      (mergeResult workflowExecution actionResult).Workflow = workflowExecution.Workflow ∧
      (mergeResult workflowExecution actionResult).Status = workflowExecution.Status ∧
      (mergeResult workflowExecution actionResult).LastNode = workflowExecution.LastNode ∧
      (mergeResult workflowExecution actionResult).Result = workflowExecution.Result ∧
      (mergeResult workflowExecution actionResult).CompletedAt =
        workflowExecution.CompletedAt := by
  unfold mergeResult
  split_ifs
  · cases findResult actionResult.Action.ID workflowExecution.Results <;> simp
  · simp

theorem cleanupSkipped_fixed (workflowExecution cleaned : WorkflowExecution)
    (hcleaned : cleanupSkipped workflowExecution = some cleaned) :
    cleaned.ExecutionId = workflowExecution.ExecutionId ∧
      cleaned.Authorization = workflowExecution.Authorization ∧
      cleaned.Workflow = workflowExecution.Workflow ∧
      cleaned.Status = workflowExecution.Status ∧
      cleaned.LastNode = workflowExecution.LastNode ∧
      cleaned.Result = workflowExecution.Result ∧
      cleaned.CompletedAt = workflowExecution.CompletedAt ∧
      cleaned.ExecutionVariables = workflowExecution.ExecutionVariables := by
  unfold cleanupSkipped at hcleaned
  cases hloop : cleanupLoop workflowExecution.Workflow.Branches workflowExecution.Results.length 0
      { live := workflowExecution.Results, stale := [] } with
  | none => simp [hloop] at hcleaned
  | some s =>
    simp only [hloop, Option.map_some', Option.some.injEq] at hcleaned
    subst hcleaned
    simp

theorem terminationCheck_fixed (now : Int) (workflowExecution : WorkflowExecution)
    (actionResult : ActionResult) :
    (terminationCheck now workflowExecution actionResult).ExecutionId =
        workflowExecution.ExecutionId ∧
      (terminationCheck now workflowExecution actionResult).Authorization =
        workflowExecution.Authorization ∧
      (terminationCheck now workflowExecution actionResult).Workflow =
        workflowExecution.Workflow ∧
      (terminationCheck now workflowExecution actionResult).Results =
        workflowExecution.Results ∧
      (terminationCheck now workflowExecution actionResult).ExecutionVariables =
        workflowExecution.ExecutionVariables := by
  unfold terminationCheck
  by_cases hlength : workflowExecution.Results.length =
      workflowExecution.Workflow.Actions.length + extraInputs workflowExecution.Results
  · by_cases hfinished : (finishLoop workflowExecution.Workflow.Branches
        workflowExecution.Results workflowExecution.Results (true, "")).1 = true
    · simp [hlength, hfinished]
    · simp [hlength, hfinished]
  · simp [hlength]

/-- The steps of `processResult`, made explicit. -/
theorem processResult_ok (fuel : Nat) (now : Int) (workflowExecution updated : WorkflowExecution)
    (actionResult : ActionResult)
    (hupdated : processResult fuel now workflowExecution actionResult = .ok updated) :
    ∃ failed cleaned, failureBlock fuel workflowExecution actionResult = some failed ∧
      cleanupSkipped (mergeResult failed actionResult) = some cleaned ∧
      updated = terminationCheck now cleaned actionResult := by
  unfold processResult at hupdated
  cases hfailed : failureBlock fuel workflowExecution actionResult with
  | none => simp [hfailed] at hupdated
  | some failed =>
    cases hcleaned : cleanupSkipped (mergeResult failed actionResult) with
    | none => simp [hfailed, hcleaned] at hupdated
    | some cleaned =>
      simp only [hfailed, hcleaned, Except.ok.injEq] at hupdated
      exact ⟨failed, cleaned, rfl, hcleaned, hupdated.symm⟩

theorem processResult_fixed (fuel : Nat) (now : Int) (workflowExecution updated : WorkflowExecution)
    (actionResult : ActionResult)
    (hupdated : processResult fuel now workflowExecution actionResult = .ok updated) :
    updated.ExecutionId = workflowExecution.ExecutionId ∧
      updated.Authorization = workflowExecution.Authorization ∧
      updated.Workflow = workflowExecution.Workflow := by
  obtain ⟨failed, cleaned, hfailed, hcleaned, rfl⟩ :=
    processResult_ok fuel now workflowExecution updated actionResult hupdated
  have h1 := failureBlock_fixed fuel workflowExecution failed actionResult hfailed
  have h2 := mergeResult_fixed failed actionResult
  have h3 := cleanupSkipped_fixed _ cleaned hcleaned
  have h4 := terminationCheck_fixed now cleaned actionResult
  refine ⟨?_, ?_, ?_⟩
  · rw [h4.1, h3.1, h2.1, h1.1]
  · rw [h4.2.1, h3.2.1, h2.2.1, h1.2.1]
  · rw [h4.2.2.1, h3.2.2.1, h2.2.2.1, h1.2.2.1]

/-! ## The cleanup on results without SKIPPED entries -/

theorem cleanupLoop_no_skipped (branches : List Branch) (live : List ActionResult)
    (hlive : ∀ result ∈ live, result.Status ≠ "SKIPPED") (remaining resultIndex : Nat) :
    cleanupLoop branches remaining resultIndex { live := live, stale := [] } =
      some { live := live, stale := [] } := by
  induction remaining generalizing resultIndex with
  | zero => rfl
  | succ remaining ih =>
    unfold cleanupLoop
    cases hcell : (live ++ ([] : List ActionResult)).get? resultIndex with
    | none => simp [hcell]
    | some result =>
      have hmem : result ∈ live := by
        have := List.get?_mem hcell
        simpa using this
      simp only [hcell, hlive result hmem, ne_eq, not_false_eq_true, if_true]
      exact ih (resultIndex + 1)

theorem cleanupSkipped_no_skipped (workflowExecution : WorkflowExecution)
    (hlive : ∀ result ∈ workflowExecution.Results, result.Status ≠ "SKIPPED") :
    cleanupSkipped workflowExecution = some workflowExecution := by
  unfold cleanupSkipped
  rw [cleanupLoop_no_skipped _ _ hlive]
  rfl

theorem mem_mergeResult (workflowExecution : WorkflowExecution)
    (actionResult result : ActionResult)
    (hmem : result ∈ (mergeResult workflowExecution actionResult).Results) :
    result ∈ workflowExecution.Results ∨ result = actionResult := by
  unfold mergeResult at hmem
  split_ifs at hmem with hlen
  · cases hfound : findResult actionResult.Action.ID workflowExecution.Results with
    | none =>
      simp only [hfound, List.mem_append, List.mem_singleton] at hmem
      exact hmem
    | some outerindex =>
      simp only [hfound] at hmem
      rcases List.mem_or_eq_of_mem_set hmem with h | h
      · exact Or.inl h
      · exact Or.inr h
  · simp only [List.mem_append, List.mem_singleton] at hmem
    exact hmem

/-! ## C2: the gate on terminal executions -/

theorem foldlM_option_none {α β : Type} (f : β → α → Option β) (b : α)
    (hb : ∀ acc, f acc b = none) (l : List α) (hmem : b ∈ l) (init : β) :
    l.foldlM f init = none := by
  induction l generalizing init with
  | nil => cases hmem
  | cons x xs ih =>
    rw [List.foldlM_cons]
    rcases List.mem_cons.mp hmem with h | h
    · subst h
      simp [hb]
    · cases hx : f init x with
      | none => simp
      | some acc => simpa using ih h acc

/-- With a branch from a node to itself, `findChildNodes` on that node returns
for no fuel. -/
theorem findChildNodes_self_loop (workflowExecution : WorkflowExecution) (branch : Branch)
    (hmem : branch ∈ workflowExecution.Workflow.Branches)
    (hloop : branch.DestinationID = branch.SourceID) (fuel : Nat) :
    findChildNodes fuel workflowExecution branch.SourceID = none := by
  induction fuel with
  | zero => rfl
  | succ fuel ih =>
    unfold findChildNodes
    rw [foldlM_option_none _ branch _ _ hmem]
    · rfl
    · intro acc
      simp [hloop, ih]

/-- Counterexample to C2 as stated: `loopRun` is EXECUTING and the posting
A:FAILURE carries the right Authorization, so the gate lets it through, but
with the branch from A to itself `findChildNodes` never returns and for no
fuel does the sink reply or commit. -/
theorem accepted_posting_not_committed :
    getWorkflowExecution (sampleStore loopRun) (samplePosting "A" "FAILURE" "x").ExecutionId =
        some loopRun ∧
      loopRun.Authorization = (samplePosting "A" "FAILURE" "x").Authorization ∧
      loopRun.Status = "EXECUTING" ∧
      ¬ ∃ fuel now resp db', handleWorkflowQueue fuel now (sampleStore loopRun)
          (samplePosting "A" "FAILURE" "x") = .replied resp db' := by
  refine ⟨by rfl, by decide, by decide, ?_⟩
  rintro ⟨fuel, now, resp, db', hrun⟩
  rw [handleWorkflowQueue_stored fuel now _ _ loopRun (by rfl)] at hrun
  have hgate : sinkGate loopRun (samplePosting "A" "FAILURE" "x") = none := by decide
  have hblock : failureBlock fuel loopRun (samplePosting "A" "FAILURE" "x") = none := by
    have hchildren : findChildNodes fuel loopRun "A" = none :=
      findChildNodes_self_loop loopRun (sampleBranch "A" "A") (by decide) rfl fuel
    have hstatus : (samplePosting "A" "FAILURE" "x").Status = "FAILURE" := rfl
    have hexit : loopRun.Workflow.Configuration.ExitOnError = false := rfl
    have hid : (samplePosting "A" "FAILURE" "x").Action.ID = "A" := rfl
    simp [failureBlock, hstatus, hexit, hid, hchildren]
  simp [hgate, processResult, hblock] at hrun

theorem setWorkflowExecution_some (db : Datastore) (workflowExecution : WorkflowExecution)
    (hid : 0 < workflowExecution.ExecutionId.length) :
    ∃ db', setWorkflowExecution db workflowExecution = some db' ∧
      db'.workflowexecution workflowExecution.ExecutionId = some workflowExecution ∧
      ∀ name, name ≠ workflowExecution.ExecutionId →
        db'.workflowexecution name = db.workflowexecution name := by
  have hset : setWorkflowExecution db workflowExecution =
      some { db with workflowexecution := fun name =>
        if name = workflowExecution.ExecutionId then some workflowExecution
        else db.workflowexecution name } := by
    unfold setWorkflowExecution
    rw [if_neg (by omega)]
  refine ⟨_, hset, ?_, ?_⟩
  · simp
  · intro name hname
    simp [hname]

/-- C2 (amended). For a stored execution and a posting with the stored
Authorization: when Status is FINISHED, or ABORTED or FAILURE with ExitOnError
true, the sink replies 401 with a failure body and leaves the datastore as it
was. In every other case the gate lets the posting through; when its
processing runs to the end and the ExecutionId is not empty the sink replies
200 and stores the processed execution under that ExecutionId, touching no
other entity; and the processing does run to the end at least when the posted
Status is none of ABORTED, FAILURE, SKIPPED and Results holds no SKIPPED
entry. -/
theorem sink_gate_then_commit (fuel : Nat) (now : Int) (db : Datastore)
    (actionResult : ActionResult) (workflowExecution : WorkflowExecution)
    (hstored : getWorkflowExecution db actionResult.ExecutionId = some workflowExecution)
    (hauth : workflowExecution.Authorization = actionResult.Authorization) :
    ((workflowExecution.Status = "FINISHED" ∨
        ((workflowExecution.Status = "ABORTED" ∨ workflowExecution.Status = "FAILURE") ∧
          workflowExecution.Workflow.Configuration.ExitOnError = true)) →
      ∃ reason, handleWorkflowQueue fuel now db actionResult =
        .replied ⟨401, .failure reason⟩ db) ∧
    (¬ (workflowExecution.Status = "FINISHED" ∨
        ((workflowExecution.Status = "ABORTED" ∨ workflowExecution.Status = "FAILURE") ∧
          workflowExecution.Workflow.Configuration.ExitOnError = true)) →
      sinkGate workflowExecution actionResult = none ∧
      (∀ updated, processResult fuel now workflowExecution actionResult = .ok updated →
        0 < workflowExecution.ExecutionId.length →
        ∃ db', handleWorkflowQueue fuel now db actionResult = .replied ⟨200, .ok⟩ db' ∧
          db'.workflowexecution workflowExecution.ExecutionId = some updated ∧
          ∀ name, name ≠ workflowExecution.ExecutionId →
            db'.workflowexecution name = db.workflowexecution name) ∧
      (actionResult.Status ≠ "ABORTED" → actionResult.Status ≠ "FAILURE" →
        actionResult.Status ≠ "SKIPPED" →
        (∀ result ∈ workflowExecution.Results, result.Status ≠ "SKIPPED") →
        ∃ updated, processResult fuel now workflowExecution actionResult = .ok updated)) := by
  rw [handleWorkflowQueue_stored fuel now db actionResult workflowExecution hstored]
  constructor
  · rintro (hfinished | ⟨hterminal, hexit⟩)
    · simp [sinkGate, hauth, hfinished]
    · by_cases hfinished : workflowExecution.Status = "FINISHED"
      · simp [sinkGate, hauth, hfinished]
      · simp [sinkGate, hauth, hfinished, hterminal, hexit]
  · intro hopen
    have hgate : sinkGate workflowExecution actionResult = none := by
      unfold sinkGate
      rw [if_neg (by simpa using hauth), if_neg (fun h => hopen (Or.inl h)),
        if_neg (fun h => hopen (Or.inr h))]
    refine ⟨hgate, ?_, ?_⟩
    · intro updated hupdated hid
      have hkey := (processResult_fixed fuel now workflowExecution updated actionResult
        hupdated).1
      obtain ⟨db', hset, hget, hrest⟩ := setWorkflowExecution_some db updated (by rw [hkey]; exact hid)
      refine ⟨db', ?_, ?_, ?_⟩
      · simp only [hgate, hupdated, hset]
      · rw [← hkey]; exact hget
      · intro name hname
        exact hrest name (by rw [hkey]; exact hname)
    · intro haborted hfailure hskipped hlive
      have hblock : failureBlock fuel workflowExecution actionResult = some workflowExecution := by
        unfold failureBlock
        rw [if_neg (by simp [haborted, hfailure])]
      have hclean : cleanupSkipped (mergeResult workflowExecution actionResult) =
          some (mergeResult workflowExecution actionResult) := by
        apply cleanupSkipped_no_skipped
        intro result hmem
        rcases mem_mergeResult workflowExecution actionResult result hmem with h | h
        · exact hlive result h
        · rw [h]; exact hskipped
      refine ⟨terminationCheck now (mergeResult workflowExecution actionResult) actionResult, ?_⟩
      simp only [processResult, hblock, hclean]

/-- Witness for C2 (amended): the posting B:SUCCESS for the EXECUTING run
`runAB` is processed and the processed execution is stored under "e1". -/
theorem sink_gate_then_commit_witness :
    ∃ updated db', processResult 0 0 runAB (samplePosting "B" "SUCCESS" "b") = .ok updated ∧
      handleWorkflowQueue 0 0 (sampleStore runAB) (samplePosting "B" "SUCCESS" "b") =
        .replied ⟨200, .ok⟩ db' ∧
      db'.workflowexecution "e1" = some updated := by
  obtain ⟨_, hcommit, hcomplete⟩ :=
    (sink_gate_then_commit 0 0 (sampleStore runAB) (samplePosting "B" "SUCCESS" "b") runAB
      (by rfl) (by rfl)).2 (by decide)
  obtain ⟨updated, hupdated⟩ := hcomplete (by decide) (by decide) (by decide) (by decide)
  obtain ⟨db', hrun, hget, _⟩ := hcommit updated hupdated (by decide)
  exact ⟨updated, db', hupdated, hrun, hget⟩

/-! ## C3: the merge -/

theorem findResult_none (id : String) (results : List ActionResult) :
    findResult id results = none ↔ ∀ item ∈ results, item.Action.ID ≠ id := by
  induction results with
  | nil => simp [findResult]
  | cons item rest ih =>
    unfold findResult
    by_cases hid : item.Action.ID = id
    · simp [hid]
    · simp [hid, ih]

theorem findResult_some (id : String) (results : List ActionResult) (outerindex : Nat)
    (hfound : findResult id results = some outerindex) :
    ∃ before old after, results = before ++ old :: after ∧ before.length = outerindex ∧
      old.Action.ID = id ∧ ∀ item ∈ before, item.Action.ID ≠ id := by
  induction results generalizing outerindex with
  | nil => simp [findResult] at hfound
  | cons item rest ih =>
    unfold findResult at hfound
    by_cases hid : item.Action.ID = id
    · simp only [hid, if_true, Option.some.injEq] at hfound
      exact ⟨[], item, rest, rfl, by simpa using hfound, hid, by simp⟩
    · simp only [hid, if_false] at hfound
      cases hrest : findResult id rest with
      | none => simp [hrest] at hfound
      | some k =>
        simp only [hrest, Option.map_some', Option.some.injEq] at hfound
        obtain ⟨before, old, after, hsplit, hlen, hold, hbefore⟩ := ih k hrest
        refine ⟨item :: before, old, after, by simp [hsplit], by simp [hlen, hfound], hold, ?_⟩
        intro x hx
        rcases List.mem_cons.mp hx with h | h
        · rw [h]; exact hid
        · exact hbefore x h

theorem get?_at_split {α : Type} (before : List α) (item : α) (after : List α) :
    (before ++ item :: after).get? before.length = some item := by
  induction before with
  | nil => rfl
  | cons x xs ih => simpa using ih

theorem set_at_split {α : Type} (before : List α) (old new : α) (after : List α) :
    (before ++ old :: after).set before.length new = before ++ new :: after := by
  induction before with
  | nil => rfl
  | cons x xs ih => simp [ih]

/-- The results after the merge, by cases on the search of lines 953-959. -/
theorem mergeResult_Results (workflowExecution : WorkflowExecution)
    (actionResult : ActionResult) :
    (mergeResult workflowExecution actionResult).Results =
      match findResult actionResult.Action.ID workflowExecution.Results with
      | some outerindex => workflowExecution.Results.set outerindex actionResult
      | none => workflowExecution.Results ++ [actionResult] := by
  unfold mergeResult
  split_ifs with hlen
  · cases findResult actionResult.Action.ID workflowExecution.Results <;> rfl
  · have hnil : workflowExecution.Results = [] := by
      cases hresults : workflowExecution.Results with
      | nil => rfl
      | cons x xs => simp [hresults] at hlen
    simp [hnil, findResult]

/-- C3. The merge step: when some entry of Results has the posted Action.ID,
the first such entry is replaced in place by the posting and every other entry
stays where it was; when none has it, the posting is appended at the end and
the earlier entries stay as they were. -/
theorem merge_replaces_or_appends (workflowExecution : WorkflowExecution)
    (actionResult : ActionResult) :
    ((∃ item ∈ workflowExecution.Results, item.Action.ID = actionResult.Action.ID) →
      ∃ before old after, workflowExecution.Results = before ++ old :: after ∧
        old.Action.ID = actionResult.Action.ID ∧
        (∀ item ∈ before, item.Action.ID ≠ actionResult.Action.ID) ∧
        (mergeResult workflowExecution actionResult).Results =
          before ++ actionResult :: after) ∧
    ((∀ item ∈ workflowExecution.Results, item.Action.ID ≠ actionResult.Action.ID) →
      (mergeResult workflowExecution actionResult).Results =
        workflowExecution.Results ++ [actionResult]) := by
  rw [mergeResult_Results]
  constructor
  · rintro ⟨item, hmem, hid⟩
    cases hfound : findResult actionResult.Action.ID workflowExecution.Results with
    | none => exact absurd hid ((findResult_none _ _).mp hfound item hmem)
    | some outerindex =>
      obtain ⟨before, old, after, hsplit, hlen, hold, hbefore⟩ :=
        findResult_some _ _ outerindex hfound
      refine ⟨before, old, after, hsplit, hold, hbefore, ?_⟩
      simp only [hsplit, ← hlen]
      exact set_at_split before old actionResult after
  · intro hnone
    rw [(findResult_none _ _).mpr hnone]

/-! ## C4: one result for each action -/

/-- C4, evaluated at the failing input. In `spareRun` (A → B → C, plus D;
ExitOnError false; Results = [A]) the posting B:FAILURE is handled twice, as a
worker retry. After the first handling the stored Results are C, A, B, one
entry for each Action.ID. The second handling synthesizes the SKIPPED result
of C again, without looking for the one already there: the stored Results are
C, C, A, B. -/
theorem retry_duplicates_skipped_result :
    storedResultIDs (runPostings (sampleStore spareRun)
        [(3, 0, samplePosting "B" "FAILURE" "bad")]) = some ["C", "A", "B"] ∧
      storedResultIDs (runPostings (sampleStore spareRun)
        [(3, 0, samplePosting "B" "FAILURE" "bad"), (3, 1, samplePosting "B" "FAILURE" "bad")]) =
          some ["C", "C", "A", "B"] := by
  decide

/-! ## C5: handling the same posting twice -/

theorem findResult_at_split (id : String) (before : List ActionResult) (item : ActionResult)
    (after : List ActionResult) (hbefore : ∀ x ∈ before, x.Action.ID ≠ id)
    (hitem : item.Action.ID = id) :
    findResult id (before ++ item :: after) = some before.length := by
  induction before with
  | nil => simp [findResult, hitem]
  | cons x xs ih =>
    have hx : x.Action.ID ≠ id := hbefore x (by simp)
    have hxs : ∀ y ∈ xs, y.Action.ID ≠ id := fun y hy => hbefore y (by simp [hy])
    simp [findResult, hx, ih hxs]

/-- After the merge the posting is the first entry with its Action.ID. -/
theorem mergeResult_finds_posting (workflowExecution : WorkflowExecution)
    (actionResult : ActionResult) :
    ∃ before after,
      (mergeResult workflowExecution actionResult).Results = before ++ actionResult :: after ∧
      ∀ x ∈ before, x.Action.ID ≠ actionResult.Action.ID := by
  rw [mergeResult_Results]
  cases hfound : findResult actionResult.Action.ID workflowExecution.Results with
  | none =>
    exact ⟨workflowExecution.Results, [], rfl, (findResult_none _ _).mp hfound⟩
  | some outerindex =>
    obtain ⟨before, old, after, hsplit, hlen, _, hbefore⟩ :=
      findResult_some _ _ outerindex hfound
    refine ⟨before, after, ?_, hbefore⟩
    simp only [hsplit, ← hlen]
    exact set_at_split before old actionResult after

theorem setExecutionVariable_twice (name value : String) (execvars : List Variable) :
    setExecutionVariable name value (setExecutionVariable name value execvars) =
      setExecutionVariable name value execvars := by
  induction execvars with
  | nil => rfl
  | cons execvar rest ih =>
    by_cases hname : execvar.Name = name
    · simp [setExecutionVariable, hname]
    · simp [setExecutionVariable, hname, ih]

/-- Merging a posting that already is the first entry with its Action.ID
changes nothing but, possibly, the variable bound by the posted action. -/
theorem mergeResult_again (workflowExecution : WorkflowExecution) (actionResult : ActionResult)
    (before after : List ActionResult)
    (hsplit : workflowExecution.Results = before ++ actionResult :: after)
    (hbefore : ∀ x ∈ before, x.Action.ID ≠ actionResult.Action.ID) :
    mergeResult workflowExecution actionResult =
      { workflowExecution with
        ExecutionVariables :=
          if 0 < actionResult.Action.ExecutionVariable.Name.length then
            setExecutionVariable actionResult.Action.ExecutionVariable.Name actionResult.Result
              workflowExecution.ExecutionVariables
          else workflowExecution.ExecutionVariables } := by
  have hfound : findResult actionResult.Action.ID workflowExecution.Results =
      some before.length := by
    rw [hsplit]
    exact findResult_at_split _ before actionResult after hbefore rfl
  have hlen : 0 < workflowExecution.Results.length := by
    rw [hsplit]; simp
  have hget : workflowExecution.Results.get? before.length = some actionResult := by
    rw [hsplit]
    exact get?_at_split before actionResult after
  have hset : workflowExecution.Results.set before.length actionResult =
      workflowExecution.Results := by
    rw [hsplit]
    exact set_at_split before actionResult actionResult after
  unfold mergeResult
  rw [if_pos hlen]
  simp only [hfound, hget, hset, Option.getD_some]

/-- The execution variables after the merge. -/
theorem mergeResult_ExecutionVariables (workflowExecution : WorkflowExecution)
    (actionResult : ActionResult) :
    (mergeResult workflowExecution actionResult).ExecutionVariables =
      match findResult actionResult.Action.ID workflowExecution.Results with
      | some outerindex =>
        if 0 < ((workflowExecution.Results.get? outerindex).getD
            {}).Action.ExecutionVariable.Name.length then
          setExecutionVariable
            ((workflowExecution.Results.get? outerindex).getD {}).Action.ExecutionVariable.Name
            actionResult.Result workflowExecution.ExecutionVariables
        else workflowExecution.ExecutionVariables
      | none => workflowExecution.ExecutionVariables := by
  unfold mergeResult
  split_ifs with hlen
  · cases findResult actionResult.Action.ID workflowExecution.Results <;> rfl
  · have hnil : workflowExecution.Results = [] := by
      cases hresults : workflowExecution.Results with
      | nil => rfl
      | cons x xs => simp [hresults] at hlen
    simp [hnil, findResult]

theorem terminationCheck_completes (now : Int) (workflowExecution : WorkflowExecution)
    (actionResult : ActionResult) (hcompletes : completes workflowExecution) :
    terminationCheck now workflowExecution actionResult =
      { workflowExecution with
        Result := (finishLoop workflowExecution.Workflow.Branches workflowExecution.Results
          workflowExecution.Results (true, "")).2
        Status := "FINISHED"
        CompletedAt := now
        LastNode :=
          if workflowExecution.LastNode = "" then actionResult.Action.ID
          else workflowExecution.LastNode } := by
  unfold terminationCheck
  simp [hcompletes.1, hcompletes.2]

theorem terminationCheck_not_completes (now : Int) (workflowExecution : WorkflowExecution)
    (actionResult : ActionResult) (hcompletes : ¬ completes workflowExecution) :
    terminationCheck now workflowExecution actionResult = workflowExecution := by
  unfold terminationCheck
  by_cases hlength : workflowExecution.Results.length =
      workflowExecution.Workflow.Actions.length + extraInputs workflowExecution.Results
  · have hfinished : ¬ (finishLoop workflowExecution.Workflow.Branches
        workflowExecution.Results workflowExecution.Results (true, "")).1 = true :=
      fun h => hcompletes ⟨hlength, h⟩
    simp [hlength, hfinished]
  · simp [hlength]

theorem sinkGate_none (workflowExecution : WorkflowExecution) (actionResult : ActionResult) :
    sinkGate workflowExecution actionResult = none ↔
      workflowExecution.Authorization = actionResult.Authorization ∧
        workflowExecution.Status ≠ "FINISHED" ∧
        ¬ ((workflowExecution.Status = "ABORTED" ∨ workflowExecution.Status = "FAILURE") ∧
          workflowExecution.Workflow.Configuration.ExitOnError = true) := by
  unfold sinkGate
  by_cases hauth : workflowExecution.Authorization = actionResult.Authorization
  · by_cases hfinished : workflowExecution.Status = "FINISHED"
    · simp [hauth, hfinished]
    · by_cases hterminal : (workflowExecution.Status = "ABORTED" ∨
          workflowExecution.Status = "FAILURE") ∧
          workflowExecution.Workflow.Configuration.ExitOnError = true
      · simp only [hauth, hfinished, hterminal]
        simp
      · simp only [hauth, hfinished, hterminal]
        simp [hfinished]
  · simp [hauth]

theorem sinkGate_some (workflowExecution : WorkflowExecution) (actionResult : ActionResult)
    (hclosed : sinkGate workflowExecution actionResult ≠ none) :
    ∃ resp, sinkGate workflowExecution actionResult = some resp := by
  cases h : sinkGate workflowExecution actionResult with
  | none => exact absurd h hclosed
  | some resp => exact ⟨resp, rfl⟩

theorem convertExecuting_not_skipped (status : String) (result : ActionResult)
    (hstatus : status ≠ "SKIPPED") (hresult : result.Status ≠ "SKIPPED") :
    (convertExecuting status result).Status ≠ "SKIPPED" := by
  unfold convertExecuting
  split_ifs
  · exact hstatus
  · exact hresult

/-- What `terminationCheck` does to the fields the gate reads. -/
theorem terminationCheck_Status (now : Int) (workflowExecution : WorkflowExecution)
    (actionResult : ActionResult) :
    (terminationCheck now workflowExecution actionResult).Status = "FINISHED" ∨
      (terminationCheck now workflowExecution actionResult).Status = workflowExecution.Status := by
  by_cases hcompletes : completes workflowExecution
  · rw [terminationCheck_completes now workflowExecution actionResult hcompletes]
    exact Or.inl rfl
  · rw [terminationCheck_not_completes now workflowExecution actionResult hcompletes]
    exact Or.inr rfl

/-- The failure block with ExitOnError: lines 847-849 and 914-931. -/
theorem failureBlock_exit (fuel : Nat) (workflowExecution : WorkflowExecution)
    (actionResult : ActionResult)
    (hfail : actionResult.Status = "ABORTED" ∨ actionResult.Status = "FAILURE")
    (hexit : workflowExecution.Workflow.Configuration.ExitOnError = true) :
    failureBlock fuel workflowExecution actionResult = some
      { workflowExecution with
        Status := actionResult.Status
        LastNode := actionResult.Action.ID
        Result := lastNonEmptyResult
          (workflowExecution.Results.map (convertExecuting actionResult.Status))
        Results := workflowExecution.Results.map (convertExecuting actionResult.Status) } := by
  unfold failureBlock
  rw [if_pos hfail]
  simp only [hexit, if_true]

/-- The failure block on a posting that does not fail. -/
theorem failureBlock_pass (fuel : Nat) (workflowExecution : WorkflowExecution)
    (actionResult : ActionResult)
    (hpass : ¬ (actionResult.Status = "ABORTED" ∨ actionResult.Status = "FAILURE")) :
    failureBlock fuel workflowExecution actionResult = some workflowExecution := by
  unfold failureBlock
  rw [if_neg hpass]

/-- The second handling of a posting, at the level of `processResult`. The
first handling runs to its end; then either the gate rejects the retry, or the
retry runs to its end and yields the same execution, except that the variable
bound by the posted action is written (again). -/
theorem processResult_retry (fuel fuel2 : Nat) (now now2 : Int)
    (workflowExecution : WorkflowExecution) (actionResult : ActionResult)
    (hgate : sinkGate workflowExecution actionResult = none)
    (hexit : actionResult.Status = "ABORTED" ∨ actionResult.Status = "FAILURE" →
      workflowExecution.Workflow.Configuration.ExitOnError = true)
    (hskipped : actionResult.Status ≠ "SKIPPED")
    (hlive : ∀ result ∈ workflowExecution.Results, result.Status ≠ "SKIPPED") :
    ∃ first, processResult fuel now workflowExecution actionResult = .ok first ∧
      (sinkGate first actionResult ≠ none ∨
        (sinkGate first actionResult = none ∧
          first.ExecutionVariables =
            (mergeResult workflowExecution actionResult).ExecutionVariables ∧
          processResult fuel2 now2 first actionResult = .ok
            { first with
              ExecutionVariables :=
                if 0 < actionResult.Action.ExecutionVariable.Name.length then
                  setExecutionVariable actionResult.Action.ExecutionVariable.Name
                    actionResult.Result first.ExecutionVariables
                else first.ExecutionVariables })) := by
  obtain ⟨hauth, hfinished, hterminal⟩ := (sinkGate_none _ _).mp hgate
  by_cases hfail : actionResult.Status = "ABORTED" ∨ actionResult.Status = "FAILURE"
  · -- the posting fails the execution at once; the retry is rejected
    have hexit' := hexit hfail
    have hblock := failureBlock_exit fuel workflowExecution actionResult hfail hexit'
    generalize hfailed : ({ workflowExecution with
        Status := actionResult.Status
        LastNode := actionResult.Action.ID
        Result := lastNonEmptyResult
          (workflowExecution.Results.map (convertExecuting actionResult.Status))
        Results := workflowExecution.Results.map (convertExecuting actionResult.Status) } :
          WorkflowExecution) = failed at hblock
    have hfstatus : failed.Status = actionResult.Status := by rw [← hfailed]
    have hfresults : failed.Results =
        workflowExecution.Results.map (convertExecuting actionResult.Status) := by
      rw [← hfailed]
    have hfixed := failureBlock_fixed fuel workflowExecution failed actionResult hblock
    have hclean : cleanupSkipped (mergeResult failed actionResult) =
        some (mergeResult failed actionResult) := by
      apply cleanupSkipped_no_skipped
      intro result hmem
      rcases mem_mergeResult failed actionResult result hmem with h | h
      · rw [hfresults] at h
        obtain ⟨old, hold, rfl⟩ := List.mem_map.mp h
        exact convertExecuting_not_skipped _ _ hskipped (hlive old hold)
      · rw [h]; exact hskipped
    have hmfixed := mergeResult_fixed failed actionResult
    have htfixed := terminationCheck_fixed now (mergeResult failed actionResult) actionResult
    refine ⟨terminationCheck now (mergeResult failed actionResult) actionResult, ?_, ?_⟩
    · simp only [processResult, hblock, hclean]
    · left
      intro hopen
      obtain ⟨_, hnf, hnt⟩ := (sinkGate_none _ _).mp hopen
      rcases terminationCheck_Status now (mergeResult failed actionResult) actionResult with h | h
      · exact hnf h
      · apply hnt
        rw [h, hmfixed.2.2.2.1, hfstatus, htfixed.2.2.1, hmfixed.2.2.1, hfixed.2.2.1]
        exact ⟨hfail, hexit'⟩
  · -- the posting is merged; the retry finds it in place
    have hblock := failureBlock_pass fuel workflowExecution actionResult hfail
    have hmlive : ∀ result ∈ (mergeResult workflowExecution actionResult).Results,
        result.Status ≠ "SKIPPED" := by
      intro result hmem
      rcases mem_mergeResult workflowExecution actionResult result hmem with h | h
      · exact hlive result h
      · rw [h]; exact hskipped
    have hclean := cleanupSkipped_no_skipped _ hmlive
    have hmfixed := mergeResult_fixed workflowExecution actionResult
    refine ⟨terminationCheck now (mergeResult workflowExecution actionResult) actionResult,
      ?_, ?_⟩
    · simp only [processResult, hblock, hclean]
    · by_cases hcompletes : completes (mergeResult workflowExecution actionResult)
      · left
        intro hopen
        obtain ⟨_, hnf, _⟩ := (sinkGate_none _ _).mp hopen
        apply hnf
        rw [terminationCheck_completes now _ actionResult hcompletes]
      · right
        rw [terminationCheck_not_completes now _ actionResult hcompletes]
        generalize hmerged : mergeResult workflowExecution actionResult = merged at *
        obtain ⟨before, after, hsplit, hbefore⟩ :
            ∃ before after, merged.Results = before ++ actionResult :: after ∧
              ∀ x ∈ before, x.Action.ID ≠ actionResult.Action.ID := by
          rw [← hmerged]
          exact mergeResult_finds_posting workflowExecution actionResult
        have hagain := mergeResult_again merged actionResult before after hsplit hbefore
        refine ⟨?_, rfl, ?_⟩
        · rw [sinkGate_none]
          refine ⟨?_, ?_, ?_⟩
          · rw [hmfixed.2.1]; exact hauth
          · rw [hmfixed.2.2.2.1]; exact hfinished
          · rw [hmfixed.2.2.2.1, hmfixed.2.2.1]; exact hterminal
        · have hblock2 := failureBlock_pass fuel2 merged actionResult hfail
          have hclean2 : cleanupSkipped (mergeResult merged actionResult) =
              some (mergeResult merged actionResult) := by
            apply cleanupSkipped_no_skipped
            rw [hagain]
            exact hmlive
          have hnot : ¬ completes (mergeResult merged actionResult) := by
            rw [hagain]
            exact hcompletes
          simp only [processResult, hblock2, hclean2]
          rw [terminationCheck_not_completes now2 _ actionResult hnot, hagain]

/-- Counterexample to C5 as stated. The action of the posting B:SUCCESS binds
the execution variable "v", and Results holds no entry for B yet. The first
handling appends the posting and leaves "v" empty, since the variable is
written only when an entry for the Action.ID exists (lines 961-975); the
identical second handling finds the entry and writes "b" into "v". -/
theorem retry_writes_execution_variable :
    storedResultIDs (runPostings (sampleStore bindingRun) [(0, 0, bindingPosting)]) =
        some ["A", "B"] ∧
      storedVariables (runPostings (sampleStore bindingRun) [(0, 0, bindingPosting)]) =
        some [("v", "")] ∧
      storedVariables (runPostings (sampleStore bindingRun)
        [(0, 0, bindingPosting), (0, 0, bindingPosting)]) = some [("v", "b")] := by
  decide

/-- C5 (amended). Take a stored execution, kept under its ExecutionId, whose
Results hold no SKIPPED entry, and a posting the gate accepts whose Status is
not SKIPPED and which is ABORTED or FAILURE only if ExitOnError is true. The
sink commits the first handling; handling the identical posting again gets a
reply, and the stored execution afterwards has the same Results, Status, Result
and LastNode as after the first handling. It is the same execution altogether
when the posted action binds no variable or Results held, before the first
handling, an entry for the Action.ID with the same binding. -/
theorem retry_is_idempotent (fuel fuel2 : Nat) (now now2 : Int) (db : Datastore)
    (actionResult : ActionResult) (workflowExecution : WorkflowExecution)
    (hstored : getWorkflowExecution db actionResult.ExecutionId = some workflowExecution)
    (hkey : workflowExecution.ExecutionId = toLower actionResult.ExecutionId)
    (hid : 0 < workflowExecution.ExecutionId.length)
    (hgate : sinkGate workflowExecution actionResult = none)
    (hexit : actionResult.Status = "ABORTED" ∨ actionResult.Status = "FAILURE" →
      workflowExecution.Workflow.Configuration.ExitOnError = true)
    (hskipped : actionResult.Status ≠ "SKIPPED")
    (hlive : ∀ result ∈ workflowExecution.Results, result.Status ≠ "SKIPPED") :
    ∃ first db1, handleWorkflowQueue fuel now db actionResult = .replied ⟨200, .ok⟩ db1 ∧
      getWorkflowExecution db1 actionResult.ExecutionId = some first ∧
      ∃ resp db2 second, handleWorkflowQueue fuel2 now2 db1 actionResult = .replied resp db2 ∧
        getWorkflowExecution db2 actionResult.ExecutionId = some second ∧
        second.Results = first.Results ∧ second.Status = first.Status ∧
        second.Result = first.Result ∧ second.LastNode = first.LastNode ∧
        ((actionResult.Action.ExecutionVariable.Name.length = 0 ∨
            ∃ outerindex old,
              findResult actionResult.Action.ID workflowExecution.Results = some outerindex ∧
              workflowExecution.Results.get? outerindex = some old ∧
              old.Action.ExecutionVariable.Name = actionResult.Action.ExecutionVariable.Name) →
          second = first) := by
  obtain ⟨first, hfirst, hcases⟩ := processResult_retry fuel fuel2 now now2 workflowExecution
    actionResult hgate hexit hskipped hlive
  have hkey1 : first.ExecutionId = workflowExecution.ExecutionId :=
    (processResult_fixed fuel now workflowExecution first actionResult hfirst).1
  obtain ⟨db1, hset, hget, _⟩ := setWorkflowExecution_some db first (by rw [hkey1]; exact hid)
  have hstored1 : getWorkflowExecution db1 actionResult.ExecutionId = some first := by
    unfold getWorkflowExecution
    rw [← hkey, ← hkey1]
    exact hget
  refine ⟨first, db1, ?_, hstored1, ?_⟩
  · rw [handleWorkflowQueue_stored fuel now db actionResult workflowExecution hstored]
    simp only [hgate, hfirst, hset]
  · rcases hcases with hclosed | ⟨hopen, hvars, hsecond⟩
    · obtain ⟨resp, hresp⟩ := sinkGate_some _ _ hclosed
      refine ⟨resp, db1, first, ?_, hstored1, rfl, rfl, rfl, rfl, fun _ => rfl⟩
      rw [handleWorkflowQueue_stored fuel2 now2 db1 actionResult first hstored1]
      simp only [hresp]
    · generalize hsec : ({ first with
          ExecutionVariables :=
            if 0 < actionResult.Action.ExecutionVariable.Name.length then
              setExecutionVariable actionResult.Action.ExecutionVariable.Name
                actionResult.Result first.ExecutionVariables
            else first.ExecutionVariables } : WorkflowExecution) = second at hsecond
      have hkey2 : second.ExecutionId = first.ExecutionId := by rw [← hsec]
      obtain ⟨db2, hset2, hget2, _⟩ := setWorkflowExecution_some db1 second
        (by rw [hkey2, hkey1]; exact hid)
      refine ⟨⟨200, .ok⟩, db2, second, ?_, ?_, ?_, ?_, ?_, ?_, ?_⟩
      · rw [handleWorkflowQueue_stored fuel2 now2 db1 actionResult first hstored1]
        simp only [hopen, hsecond, hset2]
      · unfold getWorkflowExecution
        rw [← hkey, ← hkey1, ← hkey2]
        exact hget2
      · rw [← hsec]
      · rw [← hsec]
      · rw [← hsec]
      · rw [← hsec]
      · intro hbinding
        have hsame : (if 0 < actionResult.Action.ExecutionVariable.Name.length then
              setExecutionVariable actionResult.Action.ExecutionVariable.Name
                actionResult.Result first.ExecutionVariables
            else first.ExecutionVariables) = first.ExecutionVariables := by
          rcases hbinding with hnone | ⟨outerindex, old, hfound, hold, hname⟩
          · rw [if_neg (by omega)]
          · by_cases hlen : 0 < actionResult.Action.ExecutionVariable.Name.length
            · rw [if_pos hlen, hvars, mergeResult_ExecutionVariables]
              simp only [hfound, hold, Option.getD_some, hname, hlen, if_true]
              exact setExecutionVariable_twice _ _ _
            · rw [if_neg hlen]
        rw [← hsec, hsame]

/-- Witness for C5 (amended): in `spareRun` the posting B:SUCCESS, whose action
binds no variable, is handled twice and the stored execution is the same after
both handlings. -/
theorem retry_is_idempotent_witness :
    ∃ first db1 resp db2,
      handleWorkflowQueue 0 0 (sampleStore spareRun) (samplePosting "B" "SUCCESS" "b") =
        .replied ⟨200, .ok⟩ db1 ∧
      handleWorkflowQueue 0 1 db1 (samplePosting "B" "SUCCESS" "b") = .replied resp db2 ∧
      getWorkflowExecution db1 "e1" = some first ∧ getWorkflowExecution db2 "e1" = some first := by
  obtain ⟨first, db1, hrun1, hget1, resp, db2, second, hrun2, hget2, _, _, _, _, hsame⟩ :=
    retry_is_idempotent 0 0 0 1 (sampleStore spareRun) (samplePosting "B" "SUCCESS" "b")
      spareRun (by rfl) (by rfl) (by decide) (by decide) (by decide) (by decide) (by decide)
  rw [hsame (Or.inl (by decide))] at hget2
  exact ⟨first, db1, resp, db2, hrun1, hrun2, hget1, hget2⟩

/-! ## C6: fail-fast -/

/-- C6, evaluated at the failing input. In `failFastRun` (A → B, ExitOnError
true, A has succeeded) the posting B:FAILURE sets Status to FAILURE at line
848, but it also brings Results to the number of actions, so the termination
check of lines 1022-1070 overwrites the Status: the stored execution is
FINISHED, with LastNode B. -/
theorem last_failure_is_stored_finished :
    storedStatus (runPostings (sampleStore failFastRun)
      [(0, 0, samplePosting "B" "FAILURE" "bad")]) = some ("FINISHED", "B") := by
  decide

/-! ## C7: skip propagation -/

/-- The nodes of `childNodes` that get a synthetic result. -/
theorem skippedResult_some_iff (workflowExecution : WorkflowExecution)
    (actionResult : ActionResult) (childNodes : List String) (nodeId : String) :
    (∃ result, skippedResult workflowExecution actionResult childNodes nodeId = some result) ↔
      nodeId ≠ actionResult.Action.ID ∧ 0 < nodeId.length ∧
        (∃ action ∈ workflowExecution.Workflow.Actions, action.ID = nodeId) ∧
        ∀ branch ∈ workflowExecution.Workflow.Branches,
          branch.DestinationID = nodeId → branch.SourceID ∈ childNodes := by
  unfold skippedResult
  by_cases hfailing : nodeId = actionResult.Action.ID
  · simp [hfailing]
  · rw [if_neg hfailing]
    cases hfind : workflowExecution.Workflow.Actions.find? (fun action => action.ID = nodeId) with
    | none =>
      have hnone := List.find?_eq_none.mp hfind
      simp only [Option.getD_none, String.length, List.length_nil, if_true]
      simp only [decide_eq_true_eq] at hnone
      constructor
      · rintro ⟨_, h⟩
        cases h
      · rintro ⟨_, _, ⟨action, hmem, hid⟩, _⟩
        exact absurd hid (hnone action hmem)
    | some action =>
      have hmem : action ∈ workflowExecution.Workflow.Actions := List.mem_of_find?_eq_some hfind
      have hid : action.ID = nodeId := by
        have := List.find?_some hfind
        simpa using this
      simp only [Option.getD_some, hid]
      by_cases hlen : nodeId.length = 0
      · simp [hlen]
      · rw [if_neg hlen]
        by_cases hskip : (workflowExecution.Workflow.Branches.any fun branch =>
            decide (branch.DestinationID = nodeId) && !decide (branch.SourceID ∈ childNodes)) = true
        · rw [if_pos hskip]
          simp only [List.any_eq_true, Bool.and_eq_true, decide_eq_true_eq, Bool.not_eq_true',
            decide_eq_false_iff_not] at hskip
          obtain ⟨branch, hbranch, hdest, hsource⟩ := hskip
          constructor
          · rintro ⟨_, h⟩
            cases h
          · rintro ⟨_, _, _, hall⟩
            exact absurd (hall branch hbranch hdest) hsource
        · rw [if_neg hskip]
          simp only [List.any_eq_true, Bool.and_eq_true, decide_eq_true_eq, Bool.not_eq_true',
            decide_eq_false_iff_not, not_exists, not_and, not_not] at hskip
          constructor
          · intro _
            exact ⟨hfailing, by omega, ⟨action, hmem, hid⟩,
              fun branch hbranch hdest => hskip branch hbranch hdest⟩
          · intro _
            exact ⟨_, rfl⟩

/-- The content of a synthetic result. -/
theorem skippedResult_some (workflowExecution : WorkflowExecution)
    (actionResult : ActionResult) (childNodes : List String) (nodeId : String)
    (result : ActionResult)
    (hresult : skippedResult workflowExecution actionResult childNodes nodeId = some result) :
    result.Action.ID = nodeId ∧ result.Action ∈ workflowExecution.Workflow.Actions ∧
      result.Status = "SKIPPED" ∧ result.Result = "Skipped because of previous node" ∧
      result.ExecutionId = actionResult.ExecutionId ∧
      result.Authorization = actionResult.Authorization := by
  unfold skippedResult at hresult
  by_cases hfailing : nodeId = actionResult.Action.ID
  · simp [hfailing] at hresult
  · rw [if_neg hfailing] at hresult
    cases hfind : workflowExecution.Workflow.Actions.find? (fun action => action.ID = nodeId) with
    | none => simp [hfind, String.length] at hresult
    | some action =>
      have hmem : action ∈ workflowExecution.Workflow.Actions := List.mem_of_find?_eq_some hfind
      have hid : action.ID = nodeId := by
        have := List.find?_some hfind
        simpa using this
      simp only [hfind, Option.getD_some] at hresult
      split_ifs at hresult
      cases hresult
      exact ⟨hid, hmem, rfl, rfl, rfl, rfl⟩

theorem length_pos_iff_ne_empty (s : String) : 0 < s.length ↔ s ≠ "" := by
  rcases s with ⟨data⟩
  cases data with
  | nil => exact ⟨fun h => absurd h (by simp [String.length]), fun h => absurd rfl h⟩
  | cons c cs =>
    constructor
    · intro _ h
      have := congrArg String.data h
      simp at this
    · intro _
      simp [String.length]

theorem appendMissing_nodup (acc nodes : List String) (hacc : acc.Nodup) :
    (appendMissing acc nodes).Nodup := by
  unfold appendMissing
  induction nodes generalizing acc with
  | nil => exact hacc
  | cons node rest ih =>
    rw [List.foldl_cons]
    apply ih
    split_ifs with hmem
    · exact hacc
    · rw [List.nodup_append]
      refine ⟨hacc, List.nodup_singleton node, ?_⟩
      intro x hx hx'
      rw [List.mem_singleton] at hx'
      exact hmem (hx' ▸ hx)

/-- The list `findChildNodes` returns has no duplicates. -/
theorem findChildNodes_nodup (fuel : Nat) (workflowExecution : WorkflowExecution)
    (nodeId : String) (childNodes : List String)
    (hchildren : findChildNodes fuel workflowExecution nodeId = some childNodes) :
    childNodes.Nodup := by
  cases fuel with
  | zero => simp [findChildNodes] at hchildren
  | succ fuel =>
    unfold findChildNodes at hchildren
    obtain ⟨allChildren, _, rfl⟩ := Option.map_eq_some'.mp hchildren
    exact appendMissing_nodup [] allChildren List.nodup_nil

theorem skippedResults_ids_sublist (workflowExecution : WorkflowExecution)
    (actionResult : ActionResult) (childNodes nodes : List String) :
    List.Sublist
      ((nodes.filterMap (skippedResult workflowExecution actionResult childNodes)).map
        fun result => result.Action.ID) nodes := by
  induction nodes with
  | nil => simp
  | cons nodeId rest ih =>
    cases hresult : skippedResult workflowExecution actionResult childNodes nodeId with
    | none =>
      rw [List.filterMap_cons_none hresult]
      exact List.Sublist.cons nodeId ih
    | some result =>
      rw [List.filterMap_cons_some hresult, List.map_cons,
        (skippedResult_some _ _ _ _ _ hresult).1]
      exact List.Sublist.cons₂ nodeId ih

theorem foldlM_option_mono {α β : Type} (f g : β → α → Option β) (l : List α)
    (hfg : ∀ acc b r, f acc b = some r → g acc b = some r) (init x : β)
    (hf : l.foldlM f init = some x) : l.foldlM g init = some x := by
  induction l generalizing init with
  | nil => simpa using hf
  | cons b rest ih =>
    rw [List.foldlM_cons] at hf ⊢
    cases hstep : f init b with
    | none => simp [hstep] at hf
    | some acc =>
      rw [hstep] at hf
      rw [hfg init b acc hstep]
      exact ih acc (by simpa using hf)

/-- More fuel does not change what `findChildNodes` returns. -/
theorem findChildNodes_fuel_succ (fuel : Nat) (workflowExecution : WorkflowExecution)
    (nodeId : String) (childNodes : List String)
    (hchildren : findChildNodes fuel workflowExecution nodeId = some childNodes) :
    findChildNodes (fuel + 1) workflowExecution nodeId = some childNodes := by
  induction fuel generalizing nodeId childNodes with
  | zero => simp [findChildNodes] at hchildren
  | succ fuel ih =>
    unfold findChildNodes at hchildren ⊢
    obtain ⟨allChildren, hfold, rfl⟩ := Option.map_eq_some'.mp hchildren
    rw [foldlM_option_mono _ _ _ _ [nodeId] allChildren hfold]
    · rfl
    · intro acc branch r hstep
      by_cases hsource : branch.SourceID = nodeId
      · simp only [hsource, if_true] at hstep ⊢
        obtain ⟨below, hbelow, rfl⟩ := Option.map_eq_some'.mp hstep
        rw [ih branch.DestinationID below hbelow]
        rfl
      · simp only [hsource, if_false] at hstep ⊢
        exact hstep

theorem findChildNodes_fuel_mono (fuel0 fuel : Nat) (workflowExecution : WorkflowExecution)
    (nodeId : String) (childNodes : List String) (hfuel : fuel0 ≤ fuel)
    (hchildren : findChildNodes fuel0 workflowExecution nodeId = some childNodes) :
    findChildNodes fuel workflowExecution nodeId = some childNodes := by
  induction hfuel with
  | refl => exact hchildren
  | step _ ih => exact findChildNodes_fuel_succ _ _ _ _ ih

/-- The failure block without ExitOnError: lines 851-931. -/
theorem failureBlock_continue (fuel : Nat) (workflowExecution : WorkflowExecution)
    (actionResult : ActionResult) (childNodes : List String)
    (hexit : workflowExecution.Workflow.Configuration.ExitOnError = false)
    (hfail : actionResult.Status = "ABORTED" ∨ actionResult.Status = "FAILURE")
    (hchildren : findChildNodes fuel workflowExecution actionResult.Action.ID = some childNodes) :
    failureBlock fuel workflowExecution actionResult = some
      { workflowExecution with
        Result := lastNonEmptyResult
          (workflowExecution.Results.map (convertExecuting actionResult.Status))
        Results := skippedResults workflowExecution actionResult childNodes ++
          workflowExecution.Results.map (convertExecuting actionResult.Status) } := by
  unfold failureBlock
  rw [if_pos hfail]
  simp only [hexit, Bool.false_eq_true, if_false, hchildren, Option.map_some']

/-- C7 (amended). With ExitOnError false and a posting whose Status is ABORTED
or FAILURE, let D be the list `findChildNodes` returns for the failing node
(with some fuel; any larger fuel then does as well). The failure block puts in
front of the earlier results one synthetic result, with Status SKIPPED and
Result "Skipped because of previous node", for a node n exactly when n is in D,
n is not the failing node, n is not the empty string, n is the ID of a workflow
Action, and the SourceID of every branch whose DestinationID is n is in D; no
two synthetic results are for the same node. -/
theorem skip_propagation (fuel0 fuel : Nat) (workflowExecution : WorkflowExecution)
    (actionResult : ActionResult) (childNodes : List String)
    (hexit : workflowExecution.Workflow.Configuration.ExitOnError = false)
    (hfail : actionResult.Status = "ABORTED" ∨ actionResult.Status = "FAILURE")
    (hchildren : findChildNodes fuel0 workflowExecution actionResult.Action.ID = some childNodes)
    (hfuel : fuel0 ≤ fuel) :
    ∃ failed synthetic, failureBlock fuel workflowExecution actionResult = some failed ∧
      failed.Results =
        synthetic ++ workflowExecution.Results.map (convertExecuting actionResult.Status) ∧
      (∀ result ∈ synthetic, result.Status = "SKIPPED" ∧
        result.Result = "Skipped because of previous node" ∧
        result.Action ∈ workflowExecution.Workflow.Actions) ∧
      (synthetic.map fun result => result.Action.ID).Nodup ∧
      ∀ n, (∃ result ∈ synthetic, result.Action.ID = n) ↔
        (n ∈ childNodes ∧ n ≠ actionResult.Action.ID ∧ n ≠ "" ∧
          (∃ action ∈ workflowExecution.Workflow.Actions, action.ID = n) ∧
          ∀ branch ∈ workflowExecution.Workflow.Branches,
            branch.DestinationID = n → branch.SourceID ∈ childNodes) := by
  have hchildren' := findChildNodes_fuel_mono fuel0 fuel workflowExecution
    actionResult.Action.ID childNodes hfuel hchildren
  refine ⟨_, skippedResults workflowExecution actionResult childNodes,
    failureBlock_continue fuel workflowExecution actionResult childNodes hexit hfail hchildren',
    rfl, ?_, ?_, ?_⟩
  · intro result hmem
    obtain ⟨nodeId, _, hresult⟩ := List.mem_filterMap.mp hmem
    have h := skippedResult_some _ _ _ _ _ hresult
    exact ⟨h.2.2.1, h.2.2.2.1, h.2.1⟩
  · exact (skippedResults_ids_sublist workflowExecution actionResult childNodes childNodes).nodup
      (findChildNodes_nodup fuel0 workflowExecution _ childNodes hchildren)
  · intro n
    constructor
    · rintro ⟨result, hmem, hid⟩
      obtain ⟨nodeId, hnode, hresult⟩ := List.mem_filterMap.mp hmem
      have hn : nodeId = n := by rw [← hid, (skippedResult_some _ _ _ _ _ hresult).1]
      subst hn
      obtain ⟨h1, h2, h3, h4⟩ := (skippedResult_some_iff _ _ _ _).mp ⟨result, hresult⟩
      exact ⟨hnode, h1, (length_pos_iff_ne_empty _).mp h2, h3, h4⟩
    · rintro ⟨hnode, h1, h2, h3, h4⟩
      obtain ⟨result, hresult⟩ := (skippedResult_some_iff workflowExecution actionResult
        childNodes n).mpr ⟨h1, (length_pos_iff_ne_empty _).mpr h2, h3, h4⟩
      exact ⟨result, List.mem_filterMap.mpr ⟨n, hnode, hresult⟩,
        (skippedResult_some _ _ _ _ _ hresult).1⟩

/-- Counterexample to C7 as stated. In `emptyIdRun` the failing node B has the
child "", which is the ID of the second workflow action and whose only incoming
branch comes from B; yet line 871 takes the empty ID for "no action found" and
no result is synthesized. -/
theorem no_skip_for_empty_id :
    findChildNodes 2 emptyIdRun (samplePosting "B" "FAILURE" "bad").Action.ID =
        some ["B", ""] ∧
      (∃ action ∈ emptyIdRun.Workflow.Actions, action.ID = "") ∧
      (∀ branch ∈ emptyIdRun.Workflow.Branches,
        branch.DestinationID = "" → branch.SourceID ∈ ["B", ""]) ∧
      (failureBlock 2 emptyIdRun (samplePosting "B" "FAILURE" "bad")).map
        (fun failed => failed.Results) = some [] := by
  decide

/-- Witness for C7 (amended): in the diamond with B failing, D has the parent
C outside the descendants B, D of B, and gets no synthetic result. -/
theorem skip_propagation_witness :
    ∃ failed synthetic,
      failureBlock 3 diamondRun (samplePosting "B" "FAILURE" "bad") = some failed ∧
      failed.Results = synthetic ++
        diamondRun.Results.map (convertExecuting "FAILURE") ∧
      ¬ ∃ result ∈ synthetic, result.Action.ID = "D" := by
  obtain ⟨failed, synthetic, hblock, hresults, _, _, hiff⟩ :=
    skip_propagation 2 3 diamondRun (samplePosting "B" "FAILURE" "bad") ["B", "D"]
      (by decide) (by decide) (by decide) (by decide)
  refine ⟨failed, synthetic, hblock, hresults, ?_⟩
  intro hskipped
  have h := ((hiff "D").mp hskipped).2.2.2.2
  exact absurd (h (sampleBranch "C" "D") (by decide) rfl) (by decide)

/-! ## C8: the termination check -/

theorem liveParent_false (results : List ActionResult) (branch : Branch) :
    liveParent results branch = false ↔
      ∀ parent ∈ results, parent.Action.ID = branch.SourceID →
        parent.Status = "SKIPPED" ∨ parent.Status = "FAILURE" := by
  unfold liveParent
  rw [List.any_eq_false]
  constructor
  · intro h parent hmem hid
    have := h parent hmem
    simp only [hid, decide_True, Bool.true_and, Bool.and_eq_true, decide_eq_true_eq,
      not_and, not_not, ne_eq] at this
    by_cases hs : parent.Status = "SKIPPED"
    · exact Or.inl hs
    · exact Or.inr (this hs)
  · intro h parent hmem
    by_cases hid : parent.Action.ID = branch.SourceID
    · rcases h parent hmem hid with hs | hf
      · simp [hs]
      · simp [hf]
    · simp [hid]

theorem skippedParentsLoop_true (results : List ActionResult) (result : ActionResult)
    (branches : List Branch) (finished : Bool) :
    skippedParentsLoop results result branches finished = true ↔
      finished = true ∧ ∀ branch ∈ branches, branch.DestinationID = result.Action.ID →
        liveParent results branch = false := by
  induction branches generalizing finished with
  | nil => simp [skippedParentsLoop]
  | cons branch rest ih =>
    unfold skippedParentsLoop
    by_cases hlive : branch.DestinationID = result.Action.ID ∧ liveParent results branch = true
    · simp only [hlive, and_self, if_true, Bool.not_false]
      simp only [List.mem_cons, forall_eq_or_imp]
      constructor
      · intro h
        cases h
      · rintro ⟨_, h, _⟩
        rw [hlive.2] at h
        exact absurd (h hlive.1) (by simp)
    · have hhead : branch.DestinationID = result.Action.ID → liveParent results branch = false := by
        intro hdest
        cases hl : liveParent results branch with
        | false => rfl
        | true => exact absurd ⟨hdest, hl⟩ hlive
      simp only [hlive, if_false]
      cases finished with
      | false => simp
      | true =>
        simp only [Bool.not_true, Bool.false_eq_true, if_false, ih, true_and, List.mem_cons,
          forall_eq_or_imp]
        exact ⟨fun h => ⟨hhead, h⟩, fun h => h.2⟩

theorem finishLoop_true (branches : List Branch) (results rest : List ActionResult)
    (finished : Bool) (lastResult : String) :
    (finishLoop branches results rest (finished, lastResult)).1 = true ↔
      finished = true ∧ (∀ result ∈ rest, result.Status ≠ "EXECUTING") ∧
        ∀ result ∈ rest, result.Status = "SKIPPED" →
          ∀ branch ∈ branches, branch.DestinationID = result.Action.ID →
            liveParent results branch = false := by
  induction rest generalizing finished lastResult with
  | nil => simp [finishLoop]
  | cons result rest ih =>
    unfold finishLoop
    by_cases hexecuting : result.Status = "EXECUTING"
    · simp [hexecuting]
    · simp only [hexecuting, if_false, ih, List.mem_cons, forall_eq_or_imp, ne_eq,
        not_false_eq_true, true_and]
      by_cases hskipped : result.Status = "SKIPPED"
      · simp only [hskipped, if_true, skippedParentsLoop_true, forall_true_left]
        tauto
      · simp only [hskipped, if_false, false_implies, true_and]

/-- The code's completion condition, read off the results. -/
theorem completes_iff_resultsComplete (workflowExecution : WorkflowExecution) :
    completes workflowExecution ↔ resultsComplete workflowExecution := by
  unfold completes resultsComplete
  rw [finishLoop_true]
  have hcount : extraInputs workflowExecution.Results =
      (workflowExecution.Results.filter fun result =>
        decide (result.Action.Name = "User Input" ∧ result.Action.AppName = "User Input")).length := by
    unfold extraInputs
    rw [List.countP_eq_length_filter]
    congr 2
    funext result
    simp [Bool.decide_and]
  rw [hcount]
  simp only [true_and, liveParent_false]

theorem failureBlock_Status (fuel : Nat) (workflowExecution failed : WorkflowExecution)
    (actionResult : ActionResult)
    (hfailed : failureBlock fuel workflowExecution actionResult = some failed) :
    failed.Status = workflowExecution.Status ∨ failed.Status = "ABORTED" ∨
      failed.Status = "FAILURE" := by
  unfold failureBlock at hfailed
  split_ifs at hfailed with hstatus hexit
  · cases hfailed
    rcases hstatus with h | h
    · exact Or.inr (Or.inl h)
    · exact Or.inr (Or.inr h)
  · cases hchildren : findChildNodes fuel workflowExecution actionResult.Action.ID with
    | none => simp [hchildren] at hfailed
    | some childNodes =>
      simp only [hchildren, Option.map_some', Option.some.injEq] at hfailed
      subst hfailed
      exact Or.inl rfl
  · cases hfailed
    exact Or.inl rfl

/-- Once an accepted posting has gone through the failure block, the merge and
the cleanup, giving the execution `cleaned`, the sink ends with the termination
check on `cleaned`: its Status is FINISHED if and only if `cleaned` meets
`resultsComplete` (as many results as actions plus "User Input" results, no
result EXECUTING, every result of a parent of a SKIPPED result SKIPPED or
FAILURE); in that case CompletedAt is the current time, and otherwise the check
changes nothing. -/
theorem terminationCheck_finished_iff (fuel : Nat) (now : Int)
    (workflowExecution failed cleaned : WorkflowExecution) (actionResult : ActionResult)
    (hgate : sinkGate workflowExecution actionResult = none)
    (hfailed : failureBlock fuel workflowExecution actionResult = some failed)
    (hcleaned : cleanupSkipped (mergeResult failed actionResult) = some cleaned) :
    processResult fuel now workflowExecution actionResult =
        .ok (terminationCheck now cleaned actionResult) ∧
      ((terminationCheck now cleaned actionResult).Status = "FINISHED" ↔
        resultsComplete cleaned) ∧
      (resultsComplete cleaned →
        (terminationCheck now cleaned actionResult).CompletedAt = now) ∧
      (¬ resultsComplete cleaned → terminationCheck now cleaned actionResult = cleaned) := by
  have hopen : cleaned.Status ≠ "FINISHED" := by
    rw [(cleanupSkipped_fixed _ cleaned hcleaned).2.2.2.1,
      (mergeResult_fixed failed actionResult).2.2.2.1]
    rcases failureBlock_Status fuel workflowExecution failed actionResult hfailed with h | h | h
    · rw [h]; exact ((sinkGate_none _ _).mp hgate).2.1
    · rw [h]; decide
    · rw [h]; decide
  refine ⟨by simp only [processResult, hfailed, hcleaned], ?_, ?_, ?_⟩
  · constructor
    · intro hstatus
      by_contra hnot
      rw [terminationCheck_not_completes now cleaned actionResult
        (fun h => hnot ((completes_iff_resultsComplete cleaned).mp h))] at hstatus
      exact hopen hstatus
    · intro hdone
      rw [terminationCheck_completes now cleaned actionResult
        ((completes_iff_resultsComplete cleaned).mpr hdone)]
  · intro hdone
    rw [terminationCheck_completes now cleaned actionResult
      ((completes_iff_resultsComplete cleaned).mpr hdone)]
  · intro hnot
    exact terminationCheck_not_completes now cleaned actionResult
      (fun h => hnot ((completes_iff_resultsComplete cleaned).mp h))

/-- The posting B:SUCCESS completes `runAB`. -/
theorem terminationCheck_finished_iff_sample :
    processResult 0 7 runAB (samplePosting "B" "SUCCESS" "b") =
        .ok (terminationCheck 7 (mergeResult runAB (samplePosting "B" "SUCCESS" "b"))
          (samplePosting "B" "SUCCESS" "b")) ∧
      (terminationCheck 7 (mergeResult runAB (samplePosting "B" "SUCCESS" "b"))
        (samplePosting "B" "SUCCESS" "b")).CompletedAt = 7 :=
  have h := terminationCheck_finished_iff 0 7 runAB runAB
    (mergeResult runAB (samplePosting "B" "SUCCESS" "b")) (samplePosting "B" "SUCCESS" "b")
    (by decide) (by decide) (by decide)
  ⟨h.1, h.2.2.1 (by unfold resultsComplete; decide)⟩

/-- The specification's condition is enough for the code's: an execution that
meets `specComplete` is marked FINISHED by the termination check. -/
theorem specComplete_resultsComplete (workflowExecution : WorkflowExecution)
    (hspec : specComplete workflowExecution) : resultsComplete workflowExecution :=
  ⟨hspec.1, hspec.2.1, fun result hmem hskipped branch hbranch hdest =>
    (hspec.2.2 result hmem hskipped branch hbranch hdest).2⟩

/-- An execution that meets the specification's condition when the termination
check is reached is marked complete. -/
theorem terminationCheck_of_specComplete (now : Int) (cleaned : WorkflowExecution)
    (actionResult : ActionResult) (hspec : specComplete cleaned) :
    (terminationCheck now cleaned actionResult).Status = "FINISHED" ∧
      (terminationCheck now cleaned actionResult).CompletedAt = now := by
  rw [terminationCheck_completes now cleaned actionResult
    ((completes_iff_resultsComplete cleaned).mpr (specComplete_resultsComplete cleaned hspec))]
  exact ⟨rfl, rfl⟩

/-- C8, the code on the failing input: `forkRun` takes the posting F:FAILURE
twice and then Q:SUCCESS. With the third posting merged there are four results
for four actions and none is EXECUTING, and the sink marks the execution
complete (Status FINISHED, CompletedAt the time of the posting). The condition
of the specification does not hold: X is SKIPPED and its parent M (branch from
M to X) has no result, so M has neither Status SKIPPED nor FAILURE. The
condition the code computes, `resultsComplete`, looks only at the results a
parent has and holds. -/
theorem finished_without_spec_condition :
    ((runPostings (sampleStore forkRun)
        [(3, 1, samplePosting "F" "FAILURE" "f"), (3, 2, samplePosting "F" "FAILURE" "f"),
          (3, 3, samplePosting "Q" "SUCCESS" "q")]).workflowexecution "e1").map
        (fun stored => (stored.Status, stored.CompletedAt,
          stored.Results.map fun result => (result.Action.ID, result.Status))) =
      some ("FINISHED", 3,
        [("X", "SKIPPED"), ("X", "SKIPPED"), ("F", "FAILURE"), ("Q", "SUCCESS")]) ∧
    unsettledOutcome.Status = "FINISHED" ∧
    resultsComplete unsettledOutcome ∧
    ¬ specComplete unsettledOutcome := by
  refine ⟨by decide, by decide, ?_, ?_⟩
  · unfold resultsComplete
    decide
  · unfold specComplete
    decide

/-! ## C9: the Result of a completed execution -/

/-- C9, evaluated at the failing input. In `runAB` the result of A is "a"; the
posting B:SUCCESS with an empty Result completes the execution. The loop of
lines 1028-1060 assigns `lastResult = result.Result` for every entry, empty or
not, so the stored Result is the empty string and not "a", the last non-empty
Result among the results. -/
theorem completed_result_is_last_entry :
    storedResult (runPostings (sampleStore runAB) [(0, 7, samplePosting "B" "SUCCESS" "")]) =
      some ("FINISHED", "", ["a", ""]) := by
  decide

/-! ## C10: a terminal Status stays terminal -/

theorem processResult_terminal (fuel : Nat) (now : Int)
    (workflowExecution updated : WorkflowExecution) (actionResult : ActionResult)
    (hterminal : terminalStatus workflowExecution.Status)
    (hupdated : processResult fuel now workflowExecution actionResult = .ok updated) :
    terminalStatus updated.Status := by
  obtain ⟨failed, cleaned, hfailed, hcleaned, rfl⟩ :=
    processResult_ok fuel now workflowExecution updated actionResult hupdated
  have hcstatus : cleaned.Status = failed.Status := by
    rw [(cleanupSkipped_fixed _ cleaned hcleaned).2.2.2.1,
      (mergeResult_fixed failed actionResult).2.2.2.1]
  have hfterminal : terminalStatus failed.Status := by
    rcases failureBlock_Status fuel workflowExecution failed actionResult hfailed with h | h | h
    · rw [h]; exact hterminal
    · exact Or.inr (Or.inl h)
    · exact Or.inr (Or.inr h)
  rcases terminationCheck_Status now cleaned actionResult with h | h
  · exact Or.inl h
  · rw [h, hcstatus]; exact hfterminal

/-- One run of the sink keeps the datastore keyed and keeps every terminal
execution terminal. -/
theorem handleWorkflowQueue_keeps_terminal (fuel : Nat) (now : Int) (db : Datastore)
    (actionResult : ActionResult) (hkeyed : db.keyed) :
    ((handleWorkflowQueue fuel now db actionResult).store db).keyed ∧
      ∀ name workflowExecution, db.workflowexecution name = some workflowExecution →
        terminalStatus workflowExecution.Status →
        ∃ after, ((handleWorkflowQueue fuel now db actionResult).store db).workflowexecution
          name = some after ∧ terminalStatus after.Status := by
  have hsame : ∀ name workflowExecution, db.workflowexecution name = some workflowExecution →
      terminalStatus workflowExecution.Status →
      ∃ after, db.workflowexecution name = some after ∧ terminalStatus after.Status :=
    fun name workflowExecution h ht => ⟨workflowExecution, h, ht⟩
  cases hstored : getWorkflowExecution db actionResult.ExecutionId with
  | none =>
    simp only [handleWorkflowQueue, hstored, Outcome.store]
    exact ⟨hkeyed, hsame⟩
  | some loaded =>
    have hrun := handleWorkflowQueue_stored fuel now db actionResult loaded hstored
    cases hgate : sinkGate loaded actionResult with
    | some resp =>
      simp only [hgate] at hrun
      rw [hrun]
      exact ⟨hkeyed, hsame⟩
    | none =>
      cases hupdated : processResult fuel now loaded actionResult with
      | error fault =>
        simp only [hgate, hupdated] at hrun
        rw [hrun]
        exact ⟨hkeyed, hsame⟩
      | ok updated =>
        cases hset : setWorkflowExecution db updated with
        | none =>
          simp only [hgate, hupdated, hset] at hrun
          rw [hrun]
          exact ⟨hkeyed, hsame⟩
        | some db' =>
          simp only [hgate, hupdated, hset] at hrun
          rw [hrun]
          simp only [Outcome.store]
          have hkey : updated.ExecutionId = loaded.ExecutionId :=
            (processResult_fixed fuel now loaded updated actionResult hupdated).1
          have hloaded : loaded.ExecutionId = toLower actionResult.ExecutionId :=
            hkeyed _ loaded hstored
          unfold setWorkflowExecution at hset
          split_ifs at hset with hempty
          cases hset
          constructor
          · intro name stored hname
            dsimp only at hname
            split_ifs at hname with hn
            · cases hname
              exact hn.symm
            · exact hkeyed name stored hname
          · intro name workflowExecution hname hterminal
            dsimp only
            by_cases hn : name = updated.ExecutionId
            · rw [if_pos hn]
              refine ⟨updated, rfl, ?_⟩
              have hsameEntity : workflowExecution = loaded := by
                rw [hn, hkey, hloaded] at hname
                unfold getWorkflowExecution at hstored
                rw [hstored] at hname
                exact (Option.some.inj hname).symm
              rw [hsameEntity] at hterminal
              exact processResult_terminal fuel now loaded updated actionResult hterminal hupdated
            · rw [if_neg hn]
              exact ⟨workflowExecution, hname, hterminal⟩

/-- C10. An execution whose Status is FINISHED, ABORTED or FAILURE is never
committed with another kind of Status: whatever the sink commits for a posting
to it has one of these three statuses, and in a datastore that keeps every
execution under its ExecutionId, after any sequence of postings (to this or to
other executions) the execution stored under the same name still has one of
them. -/
theorem terminal_status_is_kept (db : Datastore) (name : String)
    (workflowExecution : WorkflowExecution) (hkeyed : db.keyed)
    (hstored : db.workflowexecution name = some workflowExecution)
    (hterminal : terminalStatus workflowExecution.Status) :
    (∀ fuel now actionResult updated,
      processResult fuel now workflowExecution actionResult = .ok updated →
        terminalStatus updated.Status) ∧
    ∀ postings, ∃ after, (runPostings db postings).workflowexecution name = some after ∧
      terminalStatus after.Status := by
  constructor
  · intro fuel now actionResult updated hupdated
    exact processResult_terminal fuel now workflowExecution updated actionResult hterminal hupdated
  · intro postings
    induction postings generalizing db workflowExecution with
    | nil => exact ⟨workflowExecution, hstored, hterminal⟩
    | cons posting rest ih =>
      obtain ⟨hkeyed', hstep⟩ :=
        handleWorkflowQueue_keeps_terminal posting.1 posting.2.1 db posting.2.2 hkeyed
      obtain ⟨after, hafter, hafterTerminal⟩ := hstep name workflowExecution hstored hterminal
      exact ih _ after hkeyed' hafter hafterTerminal

/-- Witness for C10: the ABORTED run `abortedRun` (ExitOnError false) takes the
postings B:SUCCESS and C:FAILURE and is still terminal. -/
theorem terminal_status_is_kept_witness :
    ∃ after, (runPostings (sampleStore abortedRun)
        [(3, 1, samplePosting "B" "SUCCESS" "b"),
          (3, 2, samplePosting "C" "FAILURE" "bad")]).workflowexecution "e1" = some after ∧
      terminalStatus after.Status :=
  (terminal_status_is_kept (sampleStore abortedRun) "e1" abortedRun
    (by
      intro name stored hname
      simp only [sampleStore] at hname
      split_ifs at hname with hn
      cases hname
      exact hn.symm)
    (by rfl) (Or.inr (Or.inl rfl))).2 _

/-! ## C20: confirming queue entries -/

theorem confirmed_iff (removeExecutionRequests : ExecutionRequestWrapper)
    (execution : ExecutionRequest) :
    confirmed removeExecutionRequests execution = true ↔
      ∃ removeExecution ∈ removeExecutionRequests.Data,
        removeExecution.ExecutionId = execution.ExecutionId ∧
          removeExecution.WorkflowId = execution.WorkflowId := by
  simp [confirmed, List.any_eq_true]

/-- C20. For a request with an Org-Id whose stored queue is not empty and whose
confirm list S is not empty, `handleGetWorkflowqueueConfirm` replies 200 and
the queue stored afterwards is the original sequence without the entries whose
(ExecutionId, WorkflowId) pair occurs in S, the other entries in their original
order; no other queue and no execution is touched, and when no entry is removed
nothing is written at all. -/
theorem confirm_removes_confirmed_entries (db : Datastore) (request : ConfirmRequest)
    (queue confirmList : ExecutionRequestWrapper)
    (hid : 0 < request.OrgId.length)
    (hstored : getWorkflowQueue db request.OrgId = some queue)
    (hqueue : queue.Data ≠ [])
    (hremove : request.remove = some confirmList)
    (hlist : confirmList.Data ≠ []) :
    ∃ db', handleGetWorkflowqueueConfirm db request = .replied ⟨200, .plain "OK"⟩ db' ∧
      getWorkflowQueue db' request.OrgId = some
        { Data := queue.Data.filter fun execution =>
            decide (¬ ∃ removeExecution ∈ confirmList.Data,
              removeExecution.ExecutionId = execution.ExecutionId ∧
                removeExecution.WorkflowId = execution.WorkflowId) } ∧
      (∀ name, name ≠ request.OrgId → db'.workflowqueue name = db.workflowqueue name) ∧
      db'.workflowexecution = db.workflowexecution ∧
      ((∀ execution ∈ queue.Data, ¬ ∃ removeExecution ∈ confirmList.Data,
          removeExecution.ExecutionId = execution.ExecutionId ∧
            removeExecution.WorkflowId = execution.WorkflowId) → db' = db) := by
  have hfilter : (queue.Data.filter fun execution => !confirmed confirmList execution) =
      queue.Data.filter fun execution =>
        decide (¬ ∃ removeExecution ∈ confirmList.Data,
          removeExecution.ExecutionId = execution.ExecutionId ∧
            removeExecution.WorkflowId = execution.WorkflowId) := by
    apply List.filter_congr
    intro execution _
    by_cases h : confirmed confirmList execution = true
    · rw [h]
      simp only [Bool.not_true]
      symm
      rw [decide_eq_false_iff_not]
      exact not_not.mpr ((confirmed_iff _ _).mp h)
    · have h' : confirmed confirmList execution = false := by simpa using h
      rw [h']
      simp only [Bool.not_false]
      symm
      rw [decide_eq_true_iff]
      exact fun hex => h ((confirmed_iff _ _).mpr hex)
  have hq : queue.Data.length ≠ 0 := fun h => hqueue (List.length_eq_zero.mp h)
  have hl : confirmList.Data.length ≠ 0 := fun h => hlist (List.length_eq_zero.mp h)
  unfold handleGetWorkflowqueueConfirm
  rw [if_neg (by omega)]
  simp only [hstored, hremove, if_neg hq, if_neg hl, hfilter]
  split_ifs with hchanged
  · refine ⟨_, rfl, ?_, ?_, rfl, ?_⟩
    · simp [getWorkflowQueue, setWorkflowQueue]
    · intro name hname
      simp [setWorkflowQueue, hname]
    · intro hnone
      exfalso
      apply hchanged
      rw [List.filter_eq_self.mpr]
      intro execution hmem
      exact decide_eq_true (hnone execution hmem)
  · refine ⟨db, rfl, ?_, fun _ _ => rfl, rfl, fun _ => rfl⟩
    have hsame : (queue.Data.filter fun execution =>
        decide (¬ ∃ removeExecution ∈ confirmList.Data,
          removeExecution.ExecutionId = execution.ExecutionId ∧
            removeExecution.WorkflowId = execution.WorkflowId)) = queue.Data := by
      have hlen := not_not.mp hchanged
      exact List.filter_eq_self.mpr (List.filter_length_eq_length.mp hlen.symm)
    rw [hstored, hsame]

/-- Witness for C20: confirming y in the queue x, y, z leaves x, z. -/
theorem confirm_removes_confirmed_entries_witness :
    ∃ db', handleGetWorkflowqueueConfirm queueStore
        { OrgId := "onprem", remove := some { Data := [sampleRequest "y"] } } =
          .replied ⟨200, .plain "OK"⟩ db' ∧
      getWorkflowQueue db' "onprem" = some { Data := [sampleRequest "x", sampleRequest "z"] } := by
  obtain ⟨db', hrun, hqueue, _⟩ := confirm_removes_confirmed_entries queueStore
    { OrgId := "onprem", remove := some { Data := [sampleRequest "y"] } }
    { Data := [sampleRequest "x", sampleRequest "y", sampleRequest "z"] }
    { Data := [sampleRequest "y"] } (by decide) (by rfl) (by decide) rfl (by decide)
  refine ⟨db', hrun, ?_⟩
  rw [hqueue]
  decide

/-! ## C13: abortExecution -/

theorem toLower_length_pos (s : String) (hlen : byteLen s = 36) : 0 < (toLower s).length := by
  rcases s with ⟨data⟩
  cases data with
  | nil => simp [byteLen, String.utf8ByteSize, String.utf8ByteSize.go] at hlen
  | cons c cs => simp [toLower, String.length]

/-- C13. On the abort route (a 36-byte workflow id and a 36-byte execution id
in the URL), for a stored execution kept under its ExecutionId and a caller who
is its workflow's owner or an admin: when Status is ABORTED, FAILURE or
FINISHED, `abortExecution` replies 401 with a failure body and writes nothing;
otherwise it replies 200 and stores the execution with Status ABORTED and
CompletedAt the current time, every other entity being left as it was. -/
theorem abort_rejects_terminal_else_commits (now : Int) (db : Datastore) (user : User)
    (fileId executionId : String) (workflowExecution : WorkflowExecution)
    (hfile : byteLen fileId = 36) (hexecution : byteLen executionId = 36)
    (hstored : getWorkflowExecution db executionId = some workflowExecution)
    (hkeyed : db.keyed)
    (hcaller : user.Id = workflowExecution.Workflow.Owner ∨ user.Role = "admin") :
    (terminalStatus workflowExecution.Status →
      ∃ reason, abortExecution now db (some user)
          ["", "api", "v1", "workflows", fileId, "executions", executionId, "abort"] =
        .replied ⟨401, .failure reason⟩ db) ∧
    (¬ terminalStatus workflowExecution.Status →
      ∃ db' aborted, abortExecution now db (some user)
          ["", "api", "v1", "workflows", fileId, "executions", executionId, "abort"] =
        .replied ⟨200, .ok⟩ db' ∧
        db'.workflowexecution workflowExecution.ExecutionId = some aborted ∧
        aborted.Status = "ABORTED" ∧ aborted.CompletedAt = now ∧
        aborted.ExecutionId = workflowExecution.ExecutionId ∧
        aborted.Authorization = workflowExecution.Authorization ∧
        ∀ name, name ≠ workflowExecution.ExecutionId →
          db'.workflowexecution name = db.workflowexecution name) := by
  have hid : 0 < workflowExecution.ExecutionId.length := by
    rw [hkeyed _ workflowExecution hstored]
    exact toLower_length_pos executionId hexecution
  have hcaller' : ¬ (user.Id ≠ workflowExecution.Workflow.Owner ∧ user.Role ≠ "admin") := by
    rintro ⟨h1, h2⟩
    rcases hcaller with h | h
    · exact h1 h
    · exact h2 h
  have hrun : abortExecution now db (some user)
      ["", "api", "v1", "workflows", fileId, "executions", executionId, "abort"] =
      if workflowExecution.Status = "ABORTED" ∨ workflowExecution.Status = "FAILURE" ∨
          workflowExecution.Status = "FINISHED" then
        .replied ⟨401, .failure ("Status for " ++ executionId ++ " is " ++
          workflowExecution.Status ++ ", which can't be aborted.")⟩ db
      else
        match setWorkflowExecution db
          { workflowExecution with
            CompletedAt := now
            Status := "ABORTED"
            Results := workflowExecution.Results.map (convertExecuting "ABORTED")
            Result :=
              if workflowExecution.Result.length = 0 then
                lastNonEmptyResult (workflowExecution.Results.map (convertExecuting "ABORTED"))
              else workflowExecution.Result } with
        | none =>
          .replied ⟨401, .failure "Failed setting workflowexecution status to abort"⟩ db
        | some db' => .replied ⟨200, .ok⟩ db' := by
    simp [abortExecution, hfile, hexecution, hstored, hcaller']
  rw [hrun]
  constructor
  · intro hterminal
    have hcond : workflowExecution.Status = "ABORTED" ∨ workflowExecution.Status = "FAILURE" ∨
        workflowExecution.Status = "FINISHED" := by
      rcases hterminal with h | h | h
      · exact Or.inr (Or.inr h)
      · exact Or.inl h
      · exact Or.inr (Or.inl h)
    rw [if_pos hcond]
    exact ⟨_, rfl⟩
  · intro hopen
    have hcond : ¬ (workflowExecution.Status = "ABORTED" ∨ workflowExecution.Status = "FAILURE" ∨
        workflowExecution.Status = "FINISHED") := by
      rintro (h | h | h)
      · exact hopen (Or.inr (Or.inl h))
      · exact hopen (Or.inr (Or.inr h))
      · exact hopen (Or.inl h)
    rw [if_neg hcond]
    obtain ⟨db', hset, hget, hrest⟩ := setWorkflowExecution_some db
      { workflowExecution with
        CompletedAt := now
        Status := "ABORTED"
        Results := workflowExecution.Results.map (convertExecuting "ABORTED")
        Result :=
          if workflowExecution.Result.length = 0 then
            lastNonEmptyResult (workflowExecution.Results.map (convertExecuting "ABORTED"))
          else workflowExecution.Result } hid
    refine ⟨db', _, ?_, hget, rfl, rfl, rfl, rfl, hrest⟩
    simp only [hset]

/-- Witness for C13: alice aborts `abortableRun`. -/
theorem abort_rejects_terminal_else_commits_witness :
    ∃ db' aborted, abortExecution 9 (executionStore abortableRun)
        (some { Id := "alice" }) abortLocation = .replied ⟨200, .ok⟩ db' ∧
      db'.workflowexecution sampleExecutionId = some aborted ∧
      aborted.Status = "ABORTED" ∧ aborted.CompletedAt = 9 := by
  obtain ⟨db', aborted, hrun, hget, hstatus, hcompleted, _⟩ :=
    (abort_rejects_terminal_else_commits 9 (executionStore abortableRun) { Id := "alice" }
      sampleWorkflowId sampleExecutionId abortableRun (by decide) (by decide) (by rfl)
      (by
        intro name stored hname
        simp only [executionStore] at hname
        split_ifs at hname with hn
        cases hname
        exact hn.symm)
      (Or.inl rfl)).2 (by unfold terminalStatus; decide)
  exact ⟨db', aborted, hrun, hget, hstatus, hcompleted⟩

/-! ## Facts about findChildNodes used by the planner -/

/-- `findChildNodes` reads nothing of the execution but the branches. -/
theorem findChildNodes_branches (fuel : Nat) (first second : WorkflowExecution)
    (nodeId : String) (hbranches : first.Workflow.Branches = second.Workflow.Branches) :
    findChildNodes fuel first nodeId = findChildNodes fuel second nodeId := by
  induction fuel generalizing nodeId with
  | zero => rfl
  | succ fuel ih =>
    unfold findChildNodes
    rw [hbranches]
    congr 2
    funext allChildren branch
    rw [ih]

theorem mem_appendMissing (acc nodes : List String) (x : String) :
    x ∈ appendMissing acc nodes ↔ x ∈ acc ∨ x ∈ nodes := by
  unfold appendMissing
  induction nodes generalizing acc with
  | nil => simp
  | cons node rest ih =>
    rw [List.foldl_cons, ih]
    by_cases hmem : node ∈ acc
    · simp only [hmem, if_true, List.mem_cons]
      constructor
      · rintro (h | h)
        · exact Or.inl h
        · exact Or.inr (Or.inr h)
      · rintro (h | h | h)
        · exact Or.inl h
        · exact Or.inl (h ▸ hmem)
        · exact Or.inr h
    · simp only [hmem, if_false, List.mem_append, List.mem_singleton, List.mem_cons]
      tauto

theorem foldlM_option_mem {α β : Type} (f : List β → α → Option (List β)) (l : List α)
    (hf : ∀ acc b r, f acc b = some r → ∀ x ∈ acc, x ∈ r) (init r : List β)
    (hfold : l.foldlM f init = some r) : ∀ x ∈ init, x ∈ r := by
  induction l generalizing init with
  | nil =>
    have : init = r := by simpa using hfold
    subst this
    exact fun x hx => hx
  | cons b rest ih =>
    rw [List.foldlM_cons] at hfold
    cases hstep : f init b with
    | none => simp [hstep] at hfold
    | some acc =>
      rw [hstep] at hfold
      intro x hx
      exact ih acc (by simpa using hfold) x (hf init b acc hstep x hx)

/-- The node itself is in the list `findChildNodes` returns. -/
theorem findChildNodes_mem_self (fuel : Nat) (workflowExecution : WorkflowExecution)
    (nodeId : String) (childNodes : List String)
    (hchildren : findChildNodes fuel workflowExecution nodeId = some childNodes) :
    nodeId ∈ childNodes := by
  cases fuel with
  | zero => simp [findChildNodes] at hchildren
  | succ fuel =>
    unfold findChildNodes at hchildren
    obtain ⟨allChildren, hfold, rfl⟩ := Option.map_eq_some'.mp hchildren
    rw [mem_appendMissing]
    right
    refine foldlM_option_mem _ _ ?_ [nodeId] allChildren hfold nodeId (by simp)
    intro acc branch r hstep x hx
    by_cases hsource : branch.SourceID = nodeId
    · simp only [hsource, if_true] at hstep
      obtain ⟨below, _, rfl⟩ := Option.map_eq_some'.mp hstep
      rw [mem_appendMissing]
      left
      simp [hx]
    · simp only [hsource, if_false, Option.some.injEq] at hstep
      rw [← hstep]
      exact hx

/-! ## The loop of the planner over the actions -/

theorem plannedAction_ID (db : Datastore) (action : Action) :
    (plannedAction db action).ID = action.ID ∧
      (plannedAction db action).Environment = action.Environment := by
  unfold plannedAction
  split_ifs <;> exact ⟨rfl, rfl⟩

/-- One iteration of the loop that does not return. -/
theorem planAction_ok (db : Datastore) (workflowExecution : WorkflowExecution)
    (childNodes : List String) (plan after : Plan) (action : Action)
    (hstep : planAction db workflowExecution childNodes plan action = .ok after) :
    action.Environment ≠ "" ∧
      (0 < action.AuthenticationId.length →
        (findAuth (getAllWorkflowAppAuth db) action.AuthenticationId).Id.length ≠ 0) ∧
      after.startFound = (plan.startFound || decide (action.ID = workflowExecution.Start)) ∧
      after.newActions = plan.newActions ++ [plannedAction db action] ∧
      after.defaultResults = plan.defaultResults ++
        (if workflowExecution.Workflow.Configuration.StartFromTop = false ∧
            action.ID ∉ childNodes ∧ action.ID ≠ workflowExecution.Start then
          [seededResult workflowExecution (plannedAction db action)]
        else []) := by
  unfold planAction at hstep
  by_cases henv : action.Environment = ""
  · simp [henv] at hstep
  · simp only [henv, if_false] at hstep
    by_cases hauth : 0 < action.AuthenticationId.length
    · by_cases hknown :
          (findAuth (getAllWorkflowAppAuth db) action.AuthenticationId).Id.length = 0
      · simp [hauth, hknown] at hstep
      · simp only [hauth, hknown, if_true, if_false] at hstep
        have hplanned : plannedAction db action =
            { action with
              Parameters := action.Parameters.map (injectParameter
                (findAuth (getAllWorkflowAppAuth db) action.AuthenticationId).Fields) } := by
          unfold plannedAction
          rw [if_pos hauth]
        rw [hplanned]
        split_ifs at hstep with hseed
        · cases hstep
          exact ⟨henv, fun _ => hknown, rfl, rfl, by rw [if_pos hseed]⟩
        · cases hstep
          exact ⟨henv, fun _ => hknown, rfl, rfl, by rw [if_neg hseed]; simp⟩
    · have hplanned : plannedAction db action = action := by
        unfold plannedAction
        rw [if_neg hauth]
      simp only [hauth, if_false] at hstep
      rw [hplanned]
      split_ifs at hstep with hseed
      · cases hstep
        exact ⟨henv, fun h => absurd h hauth, rfl, rfl, by rw [if_pos hseed]⟩
      · cases hstep
        exact ⟨henv, fun h => absurd h hauth, rfl, rfl, by rw [if_neg hseed]; simp⟩

/-- An iteration of the loop that returns, returns an error. -/
theorem planAction_error (db : Datastore) (workflowExecution : WorkflowExecution)
    (childNodes : List String) (plan : Plan) (action : Action) (ret : ExecutionReturn)
    (hstep : planAction db workflowExecution childNodes plan action = .error ret) :
    ∃ reason err, ret = failWith reason err := by
  unfold planAction at hstep
  by_cases henv : action.Environment = ""
  · simp only [henv, if_true, Except.error.injEq] at hstep
    exact ⟨_, _, hstep.symm⟩
  · simp only [henv, if_false] at hstep
    by_cases hauth : 0 < action.AuthenticationId.length
    · by_cases hknown :
          (findAuth (getAllWorkflowAppAuth db) action.AuthenticationId).Id.length = 0
      · simp only [hauth, hknown, if_true, Except.error.injEq] at hstep
        exact ⟨_, _, hstep.symm⟩
      · simp only [hauth, hknown, if_true, if_false] at hstep
        split_ifs at hstep
    · simp only [hauth, if_false] at hstep
      split_ifs at hstep

/-- An action whose AuthenticationId is not stored makes its iteration return. -/
theorem planAction_unknown_auth (db : Datastore) (workflowExecution : WorkflowExecution)
    (childNodes : List String) (plan : Plan) (action : Action)
    (hauth : 0 < action.AuthenticationId.length)
    (hunknown : (findAuth (getAllWorkflowAppAuth db) action.AuthenticationId).Id.length = 0) :
    ∃ ret, planAction db workflowExecution childNodes plan action = .error ret := by
  unfold planAction
  by_cases henv : action.Environment = ""
  · simp [henv]
  · simp [henv, hauth, hunknown]

/-- The loop that runs to its end: what it has collected. -/
theorem planActions_ok (db : Datastore) (workflowExecution : WorkflowExecution)
    (childNodes : List String) (actions : List Action) (plan after : Plan)
    (hloop : planActions db workflowExecution childNodes actions plan = .ok after) :
    (∀ action ∈ actions, action.Environment ≠ "" ∧
      (0 < action.AuthenticationId.length →
        (findAuth (getAllWorkflowAppAuth db) action.AuthenticationId).Id.length ≠ 0)) ∧
      after.startFound = (plan.startFound ||
        actions.any fun action => decide (action.ID = workflowExecution.Start)) ∧
      after.newActions = plan.newActions ++ actions.map (plannedAction db) ∧
      after.defaultResults = plan.defaultResults ++
        ((actions.filter fun action =>
            decide (workflowExecution.Workflow.Configuration.StartFromTop = false ∧
              action.ID ∉ childNodes ∧ action.ID ≠ workflowExecution.Start)).map fun action =>
          seededResult workflowExecution (plannedAction db action)) := by
  induction actions generalizing plan with
  | nil =>
    simp only [planActions, Except.ok.injEq] at hloop
    subst hloop
    simp
  | cons action rest ih =>
    unfold planActions at hloop
    cases hstep : planAction db workflowExecution childNodes plan action with
    | error ret => simp [hstep] at hloop
    | ok middle =>
      simp only [hstep] at hloop
      obtain ⟨h1, h2, h3, h4, h5⟩ :=
        planAction_ok db workflowExecution childNodes plan middle action hstep
      obtain ⟨i1, i2, i3, i4⟩ := ih middle hloop
      refine ⟨?_, ?_, ?_, ?_⟩
      · intro a ha
        rcases List.mem_cons.mp ha with h | h
        · rw [h]; exact ⟨h1, h2⟩
        · exact i1 a h
      · rw [i2, h3, List.any_cons, Bool.or_assoc]
      · rw [i3, h4]; simp
      · rw [i4, h5]
        by_cases hseed : workflowExecution.Workflow.Configuration.StartFromTop = false ∧
            action.ID ∉ childNodes ∧ action.ID ≠ workflowExecution.Start
        · simp [hseed, List.filter_cons]
        · simp [hseed, List.filter_cons]

/-- A loop that returns, returns an error. -/
theorem planActions_error (db : Datastore) (workflowExecution : WorkflowExecution)
    (childNodes : List String) (actions : List Action) (plan : Plan) (ret : ExecutionReturn)
    (hloop : planActions db workflowExecution childNodes actions plan = .error ret) :
    ∃ reason err, ret = failWith reason err := by
  induction actions generalizing plan with
  | nil => simp [planActions] at hloop
  | cons action rest ih =>
    unfold planActions at hloop
    cases hstep : planAction db workflowExecution childNodes plan action with
    | error early =>
      simp only [hstep, Except.error.injEq] at hloop
      subst hloop
      exact planAction_error db workflowExecution childNodes plan action early hstep
    | ok middle =>
      simp only [hstep] at hloop
      exact ih middle hloop

/-- With an action whose AuthenticationId is not stored the loop returns. -/
theorem planActions_unknown_auth (db : Datastore) (workflowExecution : WorkflowExecution)
    (childNodes : List String) (actions : List Action) (plan : Plan) (action : Action)
    (hmem : action ∈ actions) (hauth : 0 < action.AuthenticationId.length)
    (hunknown : (findAuth (getAllWorkflowAppAuth db) action.AuthenticationId).Id.length = 0) :
    ∃ ret, planActions db workflowExecution childNodes actions plan = .error ret := by
  cases hloop : planActions db workflowExecution childNodes actions plan with
  | error ret => exact ⟨ret, rfl⟩
  | ok after =>
    exact absurd hunknown
      (((planActions_ok db workflowExecution childNodes actions plan after hloop).1
        action hmem).2 hauth)

/-! ## Taking a run of handleExecution apart -/

theorem failWith_not_planned (reason err : String) : ¬ (failWith reason err).planned := by
  intro h
  have := h.1
  simp [failWith] at this

/-- `commitPlan` either returns an error and leaves the datastore, or stores
the planned execution and fills the queues. -/
theorem commitPlan_cases (host : Host) (db : Datastore) (workflowExecution : WorkflowExecution)
    (plan : Plan) :
    (∃ reason err, commitPlan host db workflowExecution plan = (failWith reason err, db)) ∨
      (plan.startFound = true ∧
        ∃ db1, setWorkflowExecution db (plannedExecution workflowExecution plan) = some db1 ∧
          commitPlan host db workflowExecution plan =
            ({ execution := plannedExecution workflowExecution plan },
              enqueueAll (plannedExecution workflowExecution plan) db1)) := by
  unfold commitPlan
  by_cases hstart : plan.startFound = false
  · left
    rw [if_pos hstart]
    exact ⟨_, _, rfl⟩
  · rw [if_neg hstart]
    by_cases himages : host.imageCheckBuilder
        (imageNamesOf host (plannedExecution workflowExecution plan).Workflow.Actions) = false
    · left
      simp only [himages, if_true]
      exact ⟨_, _, rfl⟩
    · simp only [himages, if_false]
      cases hset : setWorkflowExecution db (plannedExecution workflowExecution plan) with
      | none =>
        left
        exact ⟨_, _, rfl⟩
      | some db1 =>
        right
        exact ⟨by simpa using hstart, db1, rfl, rfl⟩

/-- A run of `planExecution` that returns either returns an error and leaves
the datastore, or has gone through every step. -/
theorem planExecution_cases (fuel : Nat) (host : Host) (db db' : Datastore)
    (workflowExecution : WorkflowExecution) (ret : ExecutionReturn)
    (hrun : planExecution fuel host db workflowExecution = .ok (ret, db')) :
    (∃ reason err, ret = failWith reason err ∧ db' = db) ∨
      ∃ childNodes plan db1,
        findChildNodes fuel workflowExecution workflowExecution.Start = some childNodes ∧
        planActions db workflowExecution childNodes workflowExecution.Workflow.Actions {} =
          .ok plan ∧
        plan.startFound = true ∧
        ret = { execution := plannedExecution workflowExecution plan } ∧
        setWorkflowExecution db (plannedExecution workflowExecution plan) = some db1 ∧
        db' = enqueueAll (plannedExecution workflowExecution plan) db1 := by
  unfold planExecution at hrun
  cases hchildren : findChildNodes fuel workflowExecution workflowExecution.Start with
  | none => simp [hchildren] at hrun
  | some childNodes =>
    simp only [hchildren] at hrun
    cases hloop : planActions db workflowExecution childNodes
        workflowExecution.Workflow.Actions {} with
    | error early =>
      simp only [hloop, Except.ok.injEq, Prod.mk.injEq] at hrun
      obtain ⟨reason, err, hearly⟩ := planActions_error _ _ _ _ _ early hloop
      left
      exact ⟨reason, err, by rw [← hrun.1, hearly], hrun.2.symm⟩
    | ok plan =>
      simp only [hloop, Except.ok.injEq] at hrun
      rcases commitPlan_cases host db workflowExecution plan with
        ⟨reason, err, hfail⟩ | ⟨hstart, db1, hset, hcommit⟩
      · rw [hfail, Prod.mk.injEq] at hrun
        left
        exact ⟨reason, err, hrun.1.symm, hrun.2.symm⟩
      · rw [hcommit, Prod.mk.injEq] at hrun
        right
        exact ⟨childNodes, plan, db1, rfl, hloop, hstart, hrun.1.symm, hset, hrun.2.symm⟩

theorem resolvePost_error (host : Host) (workflow : Workflow)
    (workflowExecution : WorkflowExecution) (request : ExecutionCall) (ret : ExecutionReturn)
    (hpost : resolvePost host workflow workflowExecution request = .error ret) :
    ∃ reason err, ret = failWith reason err := by
  unfold resolvePost at hpost
  simp only at hpost
  split_ifs at hpost <;>
    (simp only [Except.error.injEq] at hpost; exact ⟨_, _, hpost.symm⟩)

theorem resolveGet_error (host : Host) (db : Datastore) (workflowExecution : WorkflowExecution)
    (request : ExecutionCall) (ret : ExecutionReturn)
    (hget : resolveGet host db workflowExecution request = .error ret) :
    ∃ reason err, ret = failWith reason err := by
  unfold resolveGet at hget
  cases href : request.reference_execution with
  | none => simp [href] at hget
  | some reference =>
    cases hold : getWorkflowExecution db reference with
    | none =>
      simp only [href, hold, Except.error.injEq] at hget
      exact ⟨_, _, hget.symm⟩
    | some oldExecution => simp [href, hold] at hget

theorem prepareExecution_error (host : Host) (workflow : Workflow)
    (workflowExecution : WorkflowExecution) (makeNew : Bool) (ret : ExecutionReturn)
    (hprepare : prepareExecution host workflow workflowExecution makeNew = .error ret) :
    ret = { reason := "Invalid uuid", err := none } := by
  unfold prepareExecution at hprepare
  split_ifs at hprepare
  simp only [Except.error.injEq] at hprepare
  exact hprepare.symm

/-- Outside the cancellation, an early return of `startExecution` carries no
planned execution and leaves the datastore as it was. -/
theorem startExecution_returned (host : Host) (db db' : Datastore) (id : String)
    (workflow : Workflow) (request : ExecutionCall) (ret : ExecutionReturn)
    (hcancel : ¬ request.cancels)
    (hstart : startExecution host db id workflow request = .ok (.returned ret db')) :
    db' = db ∧ ((∃ reason err, ret = failWith reason err) ∨
      ret = { reason := "Invalid uuid", err := none }) := by
  unfold startExecution at hstart
  simp only at hstart
  cases hloaded : (if workflow.ID = "" ∨ workflow.ID ≠ id then getWorkflow db id
      else some workflow) with
  | none =>
    simp only [hloaded, Except.ok.injEq, Resolved.returned.injEq] at hstart
    exact ⟨hstart.2.symm, Or.inl ⟨_, _, hstart.1.symm⟩⟩
  | some loaded =>
    simp only [hloaded] at hstart
    cases hvalid : loaded.IsValid with
    | false =>
      simp only [hvalid, if_true, Except.ok.injEq, Resolved.returned.injEq] at hstart
      exact ⟨hstart.2.symm, Or.inl ⟨_, _, hstart.1.symm⟩⟩
    | true =>
      simp only [hvalid, Bool.true_eq_false, if_false] at hstart
      have hresolve : (∃ early, resolveRequest host db id loaded { Workflow := loaded } request =
            .ok (.returned early db) ∧ ∃ reason err, early = failWith reason err) ∨
          ∃ workflowExecution makeNew,
            resolveRequest host db id loaded { Workflow := loaded } request =
              .ok (.proceed workflowExecution makeNew) := by
        unfold resolveRequest
        by_cases hpost : request.Method = "POST"
        · rw [if_pos hpost]
          cases hp : resolvePost host loaded { Workflow := loaded } request with
          | error early =>
            left
            exact ⟨early, rfl, resolvePost_error _ _ _ _ early hp⟩
          | ok workflowExecution =>
            right
            exact ⟨workflowExecution, true, rfl⟩
        · rw [if_neg hpost]
          have hnone : (if request.answer = some "false" then request.reference_execution
              else none) = none := by
            by_cases hanswer : request.answer = some "false"
            · rw [if_pos hanswer]
              by_contra href
              exact hcancel ⟨hpost, hanswer, href⟩
            · rw [if_neg hanswer]
          simp only [hnone]
          cases hg : resolveGet host db { Workflow := loaded } request with
          | error early =>
            left
            exact ⟨early, rfl, resolveGet_error _ _ _ _ early hg⟩
          | ok pair =>
            right
            exact ⟨pair.1, pair.2, rfl⟩
      rcases hresolve with ⟨early, hearly, hfail⟩ | ⟨workflowExecution, makeNew, hproceed⟩
      · simp only [hearly, Except.ok.injEq, Resolved.returned.injEq] at hstart
        exact ⟨hstart.2.symm, Or.inl (hstart.1 ▸ hfail)⟩
      · simp only [hproceed] at hstart
        cases hprepare : prepareExecution host loaded workflowExecution makeNew with
        | error early =>
          simp only [hprepare, Except.ok.injEq, Resolved.returned.injEq] at hstart
          exact ⟨hstart.2.symm,
            Or.inr (hstart.1 ▸ prepareExecution_error _ _ _ _ early hprepare)⟩
        | ok prepared => simp [hprepare] at hstart

theorem empty_return_not_planned (reason : String) (err : Option String) :
    ¬ ({ reason := reason, err := err } : ExecutionReturn).planned := by
  intro h
  have := h.2
  simp [String.length] at this

theorem cancelExecution_not_planned (host : Host) (db db' : Datastore) (id : String)
    (request : ExecutionCall) (answer reference : String) (ret : ExecutionReturn)
    (hrun : cancelExecution host db id request answer reference = .ok (ret, db')) :
    ¬ ret.planned := by
  unfold cancelExecution at hrun
  cases hold : getWorkflowExecution db reference with
  | none =>
    simp only [hold, Except.ok.injEq, Prod.mk.injEq] at hrun
    rw [← hrun.1]
    exact failWith_not_planned _ _
  | some oldExecution =>
    simp only [hold] at hrun
    split_ifs at hrun with hid
    · simp only [Except.ok.injEq, Prod.mk.injEq] at hrun
      rw [← hrun.1]
      exact failWith_not_planned _ _
    · cases hc : cancelledExecution host request answer oldExecution with
      | error fault => simp [hc] at hrun
      | ok cancelled =>
        cases hset : setWorkflowExecution db cancelled with
        | none =>
          simp only [hc, hset, Except.ok.injEq, Prod.mk.injEq] at hrun
          rw [← hrun.1]
          exact failWith_not_planned _ _
        | some db1 =>
          simp only [hc, hset, Except.ok.injEq, Prod.mk.injEq] at hrun
          rw [← hrun.1]
          exact empty_return_not_planned _ _

/-- An early return of `startExecution` carries no planned execution. -/
theorem startExecution_returned_not_planned (host : Host) (db db' : Datastore) (id : String)
    (workflow : Workflow) (request : ExecutionCall) (ret : ExecutionReturn)
    (hstart : startExecution host db id workflow request = .ok (.returned ret db')) :
    ¬ ret.planned := by
  by_cases hcancel : request.cancels
  · unfold startExecution at hstart
    simp only at hstart
    cases hloaded : (if workflow.ID = "" ∨ workflow.ID ≠ id then getWorkflow db id
        else some workflow) with
    | none =>
      simp only [hloaded, Except.ok.injEq, Resolved.returned.injEq] at hstart
      rw [← hstart.1]
      exact failWith_not_planned _ _
    | some loaded =>
      simp only [hloaded] at hstart
      cases hvalid : loaded.IsValid with
      | false =>
        simp only [hvalid, if_true, Except.ok.injEq, Resolved.returned.injEq] at hstart
        rw [← hstart.1]
        exact failWith_not_planned _ _
      | true =>
        simp only [hvalid, Bool.true_eq_false, if_false] at hstart
        obtain ⟨hmethod, hanswer, href⟩ := hcancel
        obtain ⟨reference, hreference⟩ := Option.ne_none_iff_exists'.mp href
        have hresolve : resolveRequest host db id loaded { Workflow := loaded } request =
            match cancelExecution host db id request "false" reference with
            | .error fault => .error fault
            | .ok (early, db1) => .ok (.returned early db1) := by
          unfold resolveRequest
          rw [if_neg hmethod]
          simp only [hanswer, if_true, hreference]
        rw [hresolve] at hstart
        cases hc : cancelExecution host db id request "false" reference with
        | error fault => simp [hc] at hstart
        | ok pair =>
          obtain ⟨early, db1⟩ := pair
          simp only [hc, Except.ok.injEq, Resolved.returned.injEq] at hstart
          rw [← hstart.1]
          exact cancelExecution_not_planned host db db1 id request "false" reference early hc
  · rcases (startExecution_returned host db db' id workflow request ret hcancel hstart).2 with
      ⟨reason, err, h⟩ | h
    · rw [h]
      exact failWith_not_planned _ _
    · rw [h]
      exact empty_return_not_planned _ _

/-- A run of `handleExecution` that returns a planned execution has gone
through every step of the planning. -/
theorem handleExecution_planned (fuel : Nat) (host : Host) (db db' : Datastore) (id : String)
    (workflow : Workflow) (request : ExecutionCall) (ret : ExecutionReturn)
    (hrun : handleExecution fuel host db id workflow request = .ok (ret, db'))
    (hplanned : ret.planned) :
    ∃ prepared makeNew childNodes plan db1,
      startExecution host db id workflow request = .ok (.proceed prepared makeNew) ∧
      findChildNodes fuel prepared prepared.Start = some childNodes ∧
      planActions db prepared childNodes prepared.Workflow.Actions {} = .ok plan ∧
      plan.startFound = true ∧
      ret = { execution := plannedExecution prepared plan } ∧
      setWorkflowExecution db (plannedExecution prepared plan) = some db1 ∧
      db' = enqueueAll (plannedExecution prepared plan) db1 := by
  unfold handleExecution at hrun
  cases hstart : startExecution host db id workflow request with
  | error fault => simp [hstart] at hrun
  | ok resolved =>
    cases resolved with
    | returned early db1 =>
      simp only [hstart, Except.ok.injEq, Prod.mk.injEq] at hrun
      exact absurd (hrun.1 ▸ hplanned)
        (startExecution_returned_not_planned host db db1 id workflow request early hstart)
    | proceed prepared makeNew =>
      simp only [hstart] at hrun
      rcases planExecution_cases fuel host db db' prepared ret hrun with
        ⟨reason, err, hfail, _⟩ | ⟨childNodes, plan, db1, h1, h2, h3, h4, h5, h6⟩
      · exact absurd (hfail ▸ hplanned) (failWith_not_planned _ _)
      · exact ⟨prepared, makeNew, childNodes, plan, db1, rfl, h1, h2, h3, h4, h5, h6⟩

/-! ## Commit and queues -/

theorem setWorkflowExecution_inv (db db1 : Datastore) (workflowExecution : WorkflowExecution)
    (hset : setWorkflowExecution db workflowExecution = some db1) :
    0 < workflowExecution.ExecutionId.length ∧
      db1.workflowexecution workflowExecution.ExecutionId = some workflowExecution ∧
      (∀ name, name ≠ workflowExecution.ExecutionId →
        db1.workflowexecution name = db.workflowexecution name) ∧
      db1.workflowqueue = db.workflowqueue := by
  unfold setWorkflowExecution at hset
  split_ifs at hset with hempty
  cases hset
  refine ⟨by omega, by simp, ?_, rfl⟩
  intro name hname
  simp [hname]

theorem enqueueRequest_workflowqueue (executionRequest : ExecutionRequest) (db : Datastore)
    (environment name : String) :
    (enqueueRequest executionRequest db environment).workflowqueue name =
      if name = environment then
        some { Data :=
          (match db.workflowqueue environment with
           | some wrapper => wrapper.Data
           | none => []) ++ [executionRequest] }
      else db.workflowqueue name := by
  unfold enqueueRequest getWorkflowQueue
  cases hq : db.workflowqueue environment with
  | none => simp [setWorkflowQueue]
  | some wrapper => simp [setWorkflowQueue]

theorem enqueueRequest_workflowexecution (executionRequest : ExecutionRequest)
    (db : Datastore) (environment : String) :
    (enqueueRequest executionRequest db environment).workflowexecution =
      db.workflowexecution := by
  unfold enqueueRequest
  cases getWorkflowQueue db environment <;> rfl

/-- The queues after one request has been put on the queue of each of the
distinct environments. -/
theorem foldl_enqueueRequest (executionRequest : ExecutionRequest)
    (environments : List String) (hnodup : environments.Nodup) (db : Datastore)
    (name : String) :
    (environments.foldl (enqueueRequest executionRequest) db).workflowqueue name =
        (if name ∈ environments then
          some { Data :=
            (match db.workflowqueue name with
             | some wrapper => wrapper.Data
             | none => []) ++ [executionRequest] }
        else db.workflowqueue name) ∧
      (environments.foldl (enqueueRequest executionRequest) db).workflowexecution =
        db.workflowexecution := by
  induction environments generalizing db with
  | nil => simp
  | cons environment rest ih =>
    rw [List.foldl_cons]
    obtain ⟨hnot, hrest⟩ := List.nodup_cons.mp hnodup
    obtain ⟨hq, he⟩ := ih hrest (enqueueRequest executionRequest db environment)
    refine ⟨?_, by rw [he, enqueueRequest_workflowexecution]⟩
    rw [hq]
    by_cases hmem : name ∈ rest
    · have hne : name ≠ environment := fun h => hnot (h ▸ hmem)
      simp [hmem, enqueueRequest_workflowqueue, hne]
    · by_cases hne : name = environment
      · subst hne
        simp [hmem, enqueueRequest_workflowqueue]
      · simp [hmem, hne, enqueueRequest_workflowqueue]

/-- The list `environments`: no duplicates, without `cloudname`, and exactly
the environments of the actions that are not `cloudname`. -/
theorem environmentsOf_spec (actions : List Action) :
    (environmentsOf actions).Nodup ∧ cloudname ∉ environmentsOf actions ∧
      ∀ environment, environment ∈ environmentsOf actions ↔
        environment ≠ cloudname ∧ ∃ action ∈ actions, action.Environment = environment := by
  have hgen : ∀ (acc : List String), acc.Nodup → cloudname ∉ acc →
      (actions.foldl (fun environments action =>
        if action.Environment ≠ cloudname ∧ action.Environment ∉ environments then
          environments ++ [action.Environment]
        else environments) acc).Nodup ∧
      cloudname ∉ (actions.foldl (fun environments action =>
        if action.Environment ≠ cloudname ∧ action.Environment ∉ environments then
          environments ++ [action.Environment]
        else environments) acc) ∧
      ∀ environment, environment ∈ (actions.foldl (fun environments action =>
        if action.Environment ≠ cloudname ∧ action.Environment ∉ environments then
          environments ++ [action.Environment]
        else environments) acc) ↔
        environment ∈ acc ∨
          (environment ≠ cloudname ∧ ∃ action ∈ actions, action.Environment = environment) := by
    induction actions with
    | nil =>
      intro acc hacc hcloud
      simp [hacc, hcloud]
    | cons action rest ih =>
      intro acc hacc hcloud
      rw [List.foldl_cons]
      by_cases hadd : action.Environment ≠ cloudname ∧ action.Environment ∉ acc
      · rw [if_pos hadd]
        have hacc' : (acc ++ [action.Environment]).Nodup := by
          rw [List.nodup_append]
          refine ⟨hacc, List.nodup_singleton _, ?_⟩
          intro x hx hx'
          rw [List.mem_singleton] at hx'
          exact hadd.2 (hx' ▸ hx)
        have hcloud' : cloudname ∉ acc ++ [action.Environment] := by
          simp only [List.mem_append, List.mem_singleton, not_or]
          exact ⟨hcloud, fun h => hadd.1 h.symm⟩
        obtain ⟨h1, h2, h3⟩ := ih (acc ++ [action.Environment]) hacc' hcloud'
        refine ⟨h1, h2, ?_⟩
        intro environment
        rw [h3]
        simp only [List.mem_append, List.mem_cons, List.not_mem_nil, or_false,
          exists_eq_or_imp]
        constructor
        · rintro ((h | h) | ⟨h, hex⟩)
          · exact Or.inl h
          · exact Or.inr ⟨h ▸ hadd.1, Or.inl h.symm⟩
          · exact Or.inr ⟨h, Or.inr hex⟩
        · rintro (h | ⟨h, (hhead | hex)⟩)
          · exact Or.inl (Or.inl h)
          · exact Or.inl (Or.inr hhead.symm)
          · exact Or.inr ⟨h, hex⟩
      · rw [if_neg hadd]
        obtain ⟨h1, h2, h3⟩ := ih acc hacc hcloud
        refine ⟨h1, h2, ?_⟩
        intro environment
        rw [h3]
        simp only [List.mem_cons, exists_eq_or_imp]
        constructor
        · rintro (h | ⟨h, hex⟩)
          · exact Or.inl h
          · exact Or.inr ⟨h, Or.inr hex⟩
        · rintro (h | ⟨h, (hhead | hex)⟩)
          · exact Or.inl h
          · by_cases hin : environment ∈ acc
            · exact Or.inl hin
            · exact absurd ⟨hhead ▸ h, hhead ▸ hin⟩ hadd
          · exact Or.inr ⟨h, hex⟩
  obtain ⟨h1, h2, h3⟩ := hgen [] List.nodup_nil (by simp)
  exact ⟨h1, h2, fun environment => by rw [environmentsOf, h3]; simp⟩

/-- The queues and the executions after `enqueueAll`. -/
theorem enqueueAll_spec (workflowExecution : WorkflowExecution) (db : Datastore) :
    (∀ name, (enqueueAll workflowExecution db).workflowqueue name =
      if name ∈ environmentsOf workflowExecution.Workflow.Actions then
        some { Data :=
          (match db.workflowqueue name with
           | some wrapper => wrapper.Data
           | none => []) ++
            [requestOf workflowExecution (environmentsOf workflowExecution.Workflow.Actions)] }
      else db.workflowqueue name) ∧
      (enqueueAll workflowExecution db).workflowexecution = db.workflowexecution := by
  obtain ⟨hnodup, _, hmem⟩ := environmentsOf_spec workflowExecution.Workflow.Actions
  unfold enqueueAll
  by_cases honprem : (workflowExecution.Workflow.Actions.any fun action =>
      decide (action.Environment ≠ cloudname)) = true
  · simp only [honprem, if_true]
    exact ⟨fun name => (foldl_enqueueRequest _ _ hnodup db name).1,
      (foldl_enqueueRequest _ _ hnodup db "").2⟩
  · simp only [honprem, Bool.false_eq_true, if_false]
    refine ⟨fun name => ?_, trivial⟩
    have hout : name ∉ environmentsOf workflowExecution.Workflow.Actions := by
      intro hin
      obtain ⟨hne, action, haction, henv⟩ := (hmem name).mp hin
      apply honprem
      rw [List.any_eq_true]
      exact ⟨action, haction, by simp [henv, hne]⟩
    rw [if_neg hout]

/-! ## The execution that is planned -/

theorem startExecution_proceed (host : Host) (db : Datastore) (id : String)
    (workflow : Workflow) (request : ExecutionCall) (prepared : WorkflowExecution)
    (makeNew : Bool)
    (hstart : startExecution host db id workflow request = .ok (.proceed prepared makeNew)) :
    ∃ loaded resolved,
      resolveRequest host db id loaded { Workflow := loaded } request =
        .ok (.proceed resolved makeNew) ∧
      prepareExecution host loaded resolved makeNew = .ok prepared := by
  unfold startExecution at hstart
  simp only at hstart
  cases hloaded : (if workflow.ID = "" ∨ workflow.ID ≠ id then getWorkflow db id
      else some workflow) with
  | none => simp [hloaded] at hstart
  | some loaded =>
    simp only [hloaded] at hstart
    cases hvalid : loaded.IsValid with
    | false => simp [hvalid] at hstart
    | true =>
      simp only [hvalid, Bool.true_eq_false, if_false] at hstart
      cases hres : resolveRequest host db id loaded { Workflow := loaded } request with
      | error fault => simp [hres] at hstart
      | ok resolved =>
        cases resolved with
        | returned ret db1 => simp [hres] at hstart
        | proceed resolved flag =>
          simp only [hres] at hstart
          cases hprep : prepareExecution host loaded resolved flag with
          | error ret => simp [hprep] at hstart
          | ok final =>
            simp only [hprep, Except.ok.injEq, Resolved.proceed.injEq] at hstart
            obtain ⟨h1, h2⟩ := hstart
            subst h1 h2
            exact ⟨loaded, resolved, hres, hprep⟩

theorem resolveRequest_proceed (host : Host) (db : Datastore) (id : String)
    (workflow : Workflow) (workflowExecution resolved : WorkflowExecution)
    (request : ExecutionCall) (makeNew : Bool)
    (hres : resolveRequest host db id workflow workflowExecution request =
      .ok (.proceed resolved makeNew)) :
    (request.Method = "POST" ∧ makeNew = true) ∨
      (request.Method ≠ "POST" ∧
        resolveGet host db workflowExecution request = .ok (resolved, makeNew)) := by
  unfold resolveRequest at hres
  by_cases hpost : request.Method = "POST"
  · left
    simp only [hpost, if_true] at hres
    cases hp : resolvePost host workflow workflowExecution request with
    | error ret => simp [hp] at hres
    | ok result =>
      simp only [hp, Except.ok.injEq, Resolved.proceed.injEq] at hres
      exact ⟨hpost, hres.2.symm⟩
  · right
    simp only [hpost, if_false] at hres
    cases hc : (if request.answer = some "false" then request.reference_execution
        else none) with
    | some reference =>
      simp only [hc] at hres
      cases hcancel : cancelExecution host db id request "false" reference with
      | error fault => simp [hcancel] at hres
      | ok pair => simp [hcancel] at hres
    | none =>
      simp only [hc] at hres
      cases hget : resolveGet host db workflowExecution request with
      | error ret => simp [hget] at hres
      | ok pair =>
        obtain ⟨result, flag⟩ := pair
        simp only [hget, Except.ok.injEq, Resolved.proceed.injEq] at hres
        obtain ⟨h1, h2⟩ := hres
        subst h1 h2
        exact ⟨hpost, rfl⟩

theorem resolveGet_reference (host : Host) (db : Datastore)
    (workflowExecution resolved old : WorkflowExecution) (request : ExecutionCall)
    (makeNew : Bool) (reference : String)
    (href : request.reference_execution = some reference)
    (hold : getWorkflowExecution db reference = some old)
    (hid : 0 < old.ExecutionId.length)
    (hget : resolveGet host db workflowExecution request = .ok (resolved, makeNew)) :
    makeNew = false ∧ resolved.ExecutionId = old.ExecutionId ∧
      resolved.Authorization = old.Authorization ∧ resolved.Status = old.Status := by
  unfold resolveGet at hget
  have hne : ¬ old.ExecutionId.length = 0 := by omega
  simp only [href, hold, hne, decide_False, Bool.false_eq_true, if_false, Except.ok.injEq,
    Prod.mk.injEq] at hget
  obtain ⟨h1, h2⟩ := hget
  subst h1
  refine ⟨h2.symm, ?_, ?_, ?_⟩ <;> cases request.start <;> rfl

theorem resolveGet_new (host : Host) (db : Datastore)
    (workflowExecution resolved : WorkflowExecution) (request : ExecutionCall)
    (makeNew : Bool)
    (href : request.reference_execution = none)
    (hid : workflowExecution.ExecutionId = "")
    (hget : resolveGet host db workflowExecution request = .ok (resolved, makeNew)) :
    makeNew = true := by
  unfold resolveGet at hget
  simp only [href, hid, Except.ok.injEq, Prod.mk.injEq] at hget
  exact hget.2.symm

theorem prepareExecution_ok (host : Host) (workflow : Workflow)
    (workflowExecution prepared : WorkflowExecution) (makeNew : Bool)
    (hprep : prepareExecution host workflow workflowExecution makeNew = .ok prepared) :
    prepared.ExecutionId = workflowExecution.ExecutionId ∧
      (makeNew = true →
        prepared.Status = "EXECUTING" ∧ prepared.Authorization = host.authorization) ∧
      (makeNew = false →
        prepared.Status = workflowExecution.Status ∧
          prepared.Authorization = workflowExecution.Authorization) := by
  unfold prepareExecution at hprep
  by_cases hlen : byteLen workflowExecution.ExecutionId ≠ 36
  · simp [hlen] at hprep
  · simp only [hlen, if_false, Except.ok.injEq] at hprep
    subst hprep
    cases makeNew <;> simp only [Bool.false_eq_true, if_true, if_false] <;>
      refine ⟨?_, ?_, ?_⟩ <;> (try split_ifs) <;> simp

/-- What a planning that returns a planned execution has written: the
execution under its ExecutionId, and one request at the end of the queue of
each environment. -/
theorem handleExecution_store (fuel : Nat) (host : Host) (db db' : Datastore) (id : String)
    (workflow : Workflow) (request : ExecutionCall) (ret : ExecutionReturn)
    (hrun : handleExecution fuel host db id workflow request = .ok (ret, db'))
    (hplanned : ret.planned) :
    db'.workflowexecution ret.execution.ExecutionId = some ret.execution ∧
      (∀ name, name ≠ ret.execution.ExecutionId →
        db'.workflowexecution name = db.workflowexecution name) ∧
      ∀ name, db'.workflowqueue name =
        if name ∈ environmentsOf ret.execution.Workflow.Actions then
          some { Data :=
            (match db.workflowqueue name with
             | some wrapper => wrapper.Data
             | none => []) ++
              [requestOf ret.execution (environmentsOf ret.execution.Workflow.Actions)] }
        else db.workflowqueue name := by
  obtain ⟨prepared, makeNew, childNodes, plan, db1, _, _, _, _, hret, hset, hdb⟩ :=
    handleExecution_planned fuel host db db' id workflow request ret hrun hplanned
  obtain ⟨_, hget, hrest, hqueue⟩ := setWorkflowExecution_inv db db1 _ hset
  obtain ⟨hq, he⟩ := enqueueAll_spec (plannedExecution prepared plan) db1
  subst hret hdb
  refine ⟨?_, ?_, ?_⟩
  · rw [he]; exact hget
  · intro name hname
    rw [he]; exact hrest name hname
  · intro name
    rw [hq name, hqueue]

/-! ## C14: reachability pruning -/

/-- C14. For every planning that returns a planned execution, the execution is
stored under its ExecutionId and, with `childNodes` the list that
`findChildNodes` returns for its Start (which holds Start itself): when
StartFromTop is false its Results is the list, in action order, of the workflow
Actions whose ID is not in `childNodes`, each as a result with Status SKIPPED
and Result "Skipped because it's not under the startnode"; when StartFromTop is
true its Results is empty. -/
theorem reachability_pruning (fuel : Nat) (host : Host) (db db' : Datastore) (id : String)
    (workflow : Workflow) (request : ExecutionCall) (ret : ExecutionReturn)
    (hrun : handleExecution fuel host db id workflow request = .ok (ret, db'))
    (hplanned : ret.planned) :
    db'.workflowexecution ret.execution.ExecutionId = some ret.execution ∧
      ∃ childNodes,
        findChildNodes fuel ret.execution ret.execution.Start = some childNodes ∧
        ret.execution.Start ∈ childNodes ∧
        (ret.execution.Workflow.Configuration.StartFromTop = false →
          ret.execution.Results =
            (ret.execution.Workflow.Actions.filter fun action =>
              decide (action.ID ∉ childNodes)).map fun action =>
                { Action := action
                  ExecutionId := ret.execution.ExecutionId
                  Authorization := ret.execution.Authorization
                  Result := "Skipped because it's not under the startnode"
                  StartedAt := 0
                  CompletedAt := 0
                  Status := "SKIPPED" }) ∧
        (ret.execution.Workflow.Configuration.StartFromTop = true →
          ret.execution.Results = []) := by
  refine ⟨(handleExecution_store fuel host db db' id workflow request ret hrun hplanned).1, ?_⟩
  obtain ⟨prepared, makeNew, childNodes, plan, db1, _, hchildren, hloop, _, hret, _, _⟩ :=
    handleExecution_planned fuel host db db' id workflow request ret hrun hplanned
  obtain ⟨_, _, hactions, hresults⟩ := planActions_ok db prepared childNodes _ _ plan hloop
  have hself := findChildNodes_mem_self fuel prepared prepared.Start childNodes hchildren
  subst hret
  refine ⟨childNodes, ?_, hself, ?_, ?_⟩
  · rw [← hchildren]
    exact findChildNodes_branches fuel _ _ _ rfl
  · intro htop
    have htop' : prepared.Workflow.Configuration.StartFromTop = false := htop
    show plan.defaultResults = _
    rw [hresults]
    show _ = ((plan.newActions.filter fun action => decide (action.ID ∉ childNodes)).map _)
    rw [hactions]
    simp only [List.nil_append, List.filter_map, List.map_map]
    have hfilter : (prepared.Workflow.Actions.filter
        ((fun action => decide (action.ID ∉ childNodes)) ∘ plannedAction db)) =
        prepared.Workflow.Actions.filter fun action =>
          decide (prepared.Workflow.Configuration.StartFromTop = false ∧
            action.ID ∉ childNodes ∧ action.ID ≠ prepared.Start) := by
      apply List.filter_congr
      intro action _
      simp only [Function.comp, (plannedAction_ID db action).1, htop', true_and]
      by_cases hin : action.ID ∈ childNodes
      · simp [hin]
      · have hne : action.ID ≠ prepared.Start := fun h => hin (h ▸ hself)
        simp [hin, hne]
    rw [hfilter]
    rfl
  · intro htop
    have htop' : prepared.Workflow.Configuration.StartFromTop = true := htop
    show plan.defaultResults = _
    rw [hresults]
    simp [htop']

/-- Witness for C14: `plannedWorkflow` run from B seeds A and D as SKIPPED. -/
theorem reachability_pruning_witness :
    rerunOutcome.2.workflowexecution rerunOutcome.1.execution.ExecutionId =
        some rerunOutcome.1.execution ∧
      ∃ childNodes,
        findChildNodes 4 rerunOutcome.1.execution "B" = some childNodes ∧
        "B" ∈ childNodes ∧
        (rerunOutcome.1.execution.Results.map fun result =>
          (result.Action.ID, result.Status)) = [("A", "SKIPPED"), ("D", "SKIPPED")] := by
  obtain ⟨hstored, childNodes, hchildren, hself, hfalse, _⟩ :=
    reachability_pruning 4 sampleHost emptyStore rerunOutcome.2 sampleWorkflowId plannedWorkflow
      rerunCall rerunOutcome.1 (by rfl) (by unfold ExecutionReturn.planned; decide)
  exact ⟨hstored, childNodes, hchildren, hself, by decide⟩

/-! ## C16: authentication values at plan time -/

theorem findAuth_some (allAuths : List AppAuthenticationStorage) (authenticationId : String)
    (hknown : (findAuth allAuths authenticationId).Id.length ≠ 0) :
    findAuth allAuths authenticationId ∈ allAuths ∧
      (findAuth allAuths authenticationId).Id = authenticationId ∧
      allAuths.find? (fun auth => decide (auth.Id = authenticationId)) =
        some (findAuth allAuths authenticationId) := by
  unfold findAuth at hknown ⊢
  cases hfind : allAuths.find? (fun auth => decide (auth.Id = authenticationId)) with
  | none =>
    rw [hfind] at hknown
    exact absurd rfl hknown
  | some auth =>
    refine ⟨List.mem_of_find?_eq_some hfind, ?_, rfl⟩
    simpa using List.find?_some hfind

theorem findAuth_none (allAuths : List AppAuthenticationStorage) (authenticationId : String)
    (hunknown : ∀ auth ∈ allAuths, auth.Id ≠ authenticationId) :
    (findAuth allAuths authenticationId).Id.length = 0 := by
  unfold findAuth
  have hfind : allAuths.find? (fun auth => decide (auth.Id = authenticationId)) = none := by
    rw [List.find?_eq_none]
    intro auth hmem
    simpa using hunknown auth hmem
  rw [hfind]
  rfl

/-- A planning that meets an action whose AuthenticationId is not stored
faults or returns an error, and writes nothing. -/
theorem planExecution_unknown_auth (fuel : Nat) (host : Host) (db : Datastore)
    (workflowExecution : WorkflowExecution) (action : Action)
    (hmem : action ∈ workflowExecution.Workflow.Actions)
    (hauth : 0 < action.AuthenticationId.length)
    (hunknown : ∀ auth ∈ getAllWorkflowAppAuth db, auth.Id ≠ action.AuthenticationId) :
    planExecution fuel host db workflowExecution = .error .outOfFuel ∨
      ∃ ret, planExecution fuel host db workflowExecution = .ok (ret, db) ∧
        ret.err ≠ none := by
  unfold planExecution
  cases hchildren : findChildNodes fuel workflowExecution workflowExecution.Start with
  | none => exact Or.inl rfl
  | some childNodes =>
    right
    obtain ⟨ret, hloop⟩ := planActions_unknown_auth db workflowExecution childNodes
      workflowExecution.Workflow.Actions {} action hmem hauth
      (findAuth_none _ _ hunknown)
    obtain ⟨reason, err, hret⟩ := planActions_error _ _ _ _ _ ret hloop
    refine ⟨ret, by simp only [hloop], ?_⟩
    rw [hret]
    simp [failWith]

/-- A planning that meets an action whose AuthenticationId is not stored
returns an error and writes nothing, as soon as `findChildNodes` returns. -/
theorem planExecution_unknown_auth_returns (fuel : Nat) (host : Host) (db : Datastore)
    (workflowExecution : WorkflowExecution) (action : Action) (childNodes : List String)
    (hmem : action ∈ workflowExecution.Workflow.Actions)
    (hauth : 0 < action.AuthenticationId.length)
    (hunknown : ∀ auth ∈ getAllWorkflowAppAuth db, auth.Id ≠ action.AuthenticationId)
    (hchildren : findChildNodes fuel workflowExecution workflowExecution.Start =
      some childNodes) :
    ∃ reason err, planExecution fuel host db workflowExecution =
      .ok (failWith reason err, db) := by
  unfold planExecution
  obtain ⟨ret, hloop⟩ := planActions_unknown_auth db workflowExecution childNodes
    workflowExecution.Workflow.Actions {} action hmem hauth
    (findAuth_none _ _ hunknown)
  obtain ⟨reason, err, hret⟩ := planActions_error _ _ _ _ _ ret hloop
  exact ⟨reason, err, by simp only [hchildren, hloop, hret]⟩

/-- Counterexample to C16 as stated: the only action of `loopAuthWorkflow` has
the AuthenticationId "auth9", the datastore holds no authentication at all, and
the execution is planned from A, which has a branch to itself. Then
`findChildNodes`, called before the loop over the actions, never returns, and
for no fuel does `handleExecution` return an error or anything else. -/
theorem unknown_auth_never_returns :
    ((proceeding (startExecution sampleHost emptyStore sampleWorkflowId loopAuthWorkflow
        {})).1.Workflow.Actions.map fun action => (action.ID, action.AuthenticationId)) =
        [("A", "auth9")] ∧
      getAllWorkflowAppAuth emptyStore = [] ∧
      ¬ ∃ fuel ret db', handleExecution fuel sampleHost emptyStore sampleWorkflowId
          loopAuthWorkflow {} = .ok (ret, db') := by
  refine ⟨by decide, by decide, ?_⟩
  rintro ⟨fuel, ret, db', hrun⟩
  have hstart : startExecution sampleHost emptyStore sampleWorkflowId loopAuthWorkflow {} =
      .ok (.proceed (proceeding (startExecution sampleHost emptyStore sampleWorkflowId
        loopAuthWorkflow {})).1 true) := by rfl
  have hchildren : findChildNodes fuel (proceeding (startExecution sampleHost emptyStore
      sampleWorkflowId loopAuthWorkflow {})).1 "A" = none :=
    findChildNodes_self_loop _ (sampleBranch "A" "A") (by decide) rfl fuel
  have hstartnode : (proceeding (startExecution sampleHost emptyStore
      sampleWorkflowId loopAuthWorkflow {})).1.Start = "A" := by decide
  unfold handleExecution at hrun
  rw [hstart] at hrun
  simp only [planExecution, hstartnode, hchildren] at hrun
  cases hrun

/-- C16 (amended). Let `prepared` be the execution that `handleExecution`
plans. When the planning returns a planned execution, its Actions are the
Actions of `prepared`, in order, where an Action with a non-empty
AuthenticationId has become the same Action with the same parameters in the
same order, each parameter taking the Value of the first field of the first
stored authentication with that Id whose Key is the Name of the parameter, and
staying as it was when there is no such field; an Action without
AuthenticationId is unchanged. When an Action of `prepared` has a non-empty
AuthenticationId that no stored authentication carries, then for every fuel
`handleExecution` either returns an error and leaves the datastore as it was,
or `findChildNodes` on Start does not return; and it does return an error, with
the empty execution and the datastore as it was, as soon as the fuel is enough
for `findChildNodes` on Start to return. -/
theorem auth_injection (fuel : Nat) (host : Host) (db : Datastore) (id : String)
    (workflow : Workflow) (request : ExecutionCall) (prepared : WorkflowExecution)
    (makeNew : Bool)
    (hstart : startExecution host db id workflow request = .ok (.proceed prepared makeNew)) :
    (∀ ret db', handleExecution fuel host db id workflow request = .ok (ret, db') →
      ret.planned →
      ∃ planned : Action → Action,
        ret.execution.Workflow.Actions = prepared.Workflow.Actions.map planned ∧
        ∀ action ∈ prepared.Workflow.Actions,
          (action.AuthenticationId.length = 0 → planned action = action) ∧
          (0 < action.AuthenticationId.length →
            ∃ auth ∈ getAllWorkflowAppAuth db,
              (getAllWorkflowAppAuth db).find?
                (fun stored => decide (stored.Id = action.AuthenticationId)) = some auth ∧
              planned action =
                { action with
                  Parameters := action.Parameters.map fun param =>
                    match auth.Fields.find? (fun field => decide (param.Name = field.Key)) with
                    | some field => { param with Value := field.Value }
                    | none => param })) ∧
    (∀ action ∈ prepared.Workflow.Actions, 0 < action.AuthenticationId.length →
      (∀ auth ∈ getAllWorkflowAppAuth db, auth.Id ≠ action.AuthenticationId) →
      (∀ fuel1,
        (findChildNodes fuel1 prepared prepared.Start = none ∧
          handleExecution fuel1 host db id workflow request = .error .outOfFuel) ∨
        ∃ reason err, handleExecution fuel1 host db id workflow request =
          .ok (failWith reason err, db)) ∧
      ∀ fuel0 childNodes, findChildNodes fuel0 prepared prepared.Start = some childNodes →
        fuel0 ≤ fuel →
        ∃ reason err, handleExecution fuel host db id workflow request =
          .ok ({ execution := {}, reason := reason, err := some err }, db)) := by
  have hrun : ∀ fuel1, handleExecution fuel1 host db id workflow request =
      planExecution fuel1 host db prepared := by
    intro fuel1
    unfold handleExecution
    rw [hstart]
  constructor
  · intro ret db' hret hplanned
    obtain ⟨prepared', makeNew', childNodes, plan, db1, hstart', _, hloop, _, hret, _, _⟩ :=
      handleExecution_planned fuel host db db' id workflow request ret hret hplanned
    rw [hstart] at hstart'
    simp only [Except.ok.injEq, Resolved.proceed.injEq] at hstart'
    obtain ⟨hp, _⟩ := hstart'
    subst hp
    obtain ⟨hall, _, hactions, _⟩ := planActions_ok db prepared childNodes _ _ plan hloop
    subst hret
    refine ⟨plannedAction db, by simpa using hactions, ?_⟩
    intro action hmem
    constructor
    · intro hnone
      unfold plannedAction
      rw [if_neg (by omega)]
    · intro hauth
      obtain ⟨hin, _, hfind⟩ := findAuth_some (getAllWorkflowAppAuth db) action.AuthenticationId
        ((hall action hmem).2 hauth)
      refine ⟨_, hin, hfind, ?_⟩
      unfold plannedAction
      rw [if_pos hauth]
      rfl
  · intro action hmem hauth hunknown
    constructor
    · intro fuel1
      rw [hrun fuel1]
      cases hchildren : findChildNodes fuel1 prepared prepared.Start with
      | none =>
        left
        exact ⟨rfl, by simp only [planExecution, hchildren]⟩
      | some childNodes =>
        right
        exact planExecution_unknown_auth_returns fuel1 host db prepared action childNodes
          hmem hauth hunknown hchildren
    · intro fuel0 childNodes hchildren hfuel
      rw [hrun fuel]
      exact planExecution_unknown_auth_returns fuel host db prepared action childNodes
        hmem hauth hunknown
        (findChildNodes_fuel_mono fuel0 fuel prepared prepared.Start childNodes hfuel hchildren)

/-- Witness for C16 (amended): with the authentication "auth1" stored, the
parameter apikey of A takes the stored value, the parameter url and the action
B stay as they were; on the empty datastore the same request returns an error
and the datastore stays empty. -/
theorem auth_injection_witness :
    (∃ planned : Action → Action,
      authOutcome.1.execution.Workflow.Actions =
        (proceeding (startExecution sampleHost authStore sampleWorkflowId authWorkflow
          {})).1.Workflow.Actions.map planned ∧
      (authOutcome.1.execution.Workflow.Actions.map fun action =>
        action.Parameters.map fun param => (param.Name, param.Value)) =
        [[("url", "u"), ("apikey", "secret")], []]) ∧
    ∃ reason err, handleExecution 3 sampleHost emptyStore sampleWorkflowId authWorkflow {} =
      .ok ({ execution := {}, reason := reason, err := some err }, emptyStore) := by
  obtain ⟨planned, hactions, _⟩ :=
    (auth_injection 4 sampleHost authStore sampleWorkflowId authWorkflow {}
      (proceeding (startExecution sampleHost authStore sampleWorkflowId authWorkflow {})).1
      (proceeding (startExecution sampleHost authStore sampleWorkflowId authWorkflow {})).2
      (by rfl)).1
      authOutcome.1 authOutcome.2 (by rfl) (by unfold ExecutionReturn.planned; decide)
  exact ⟨⟨planned, hactions, by decide⟩,
    ((auth_injection 3 sampleHost emptyStore sampleWorkflowId authWorkflow {}
      (proceeding (startExecution sampleHost emptyStore sampleWorkflowId authWorkflow {})).1
      (proceeding (startExecution sampleHost emptyStore sampleWorkflowId authWorkflow {})).2
      (by rfl)).2
      { onpremAction "A" with
        AuthenticationId := "auth1"
        Parameters := [{ Name := "url", Value := "u" }, { Name := "apikey", Value := "old" }] }
      (by decide) (by decide) (by decide)).2 2 ["A", "B"] (by decide) (by decide)⟩

/-! ## C17: environments and queues -/

/-- C17. For every planning that returns a planned execution, the list
`environments` of lines 2424-2449 has no duplicates, does not hold "cloud", and
holds exactly the Environment values of the Actions that are not "cloud"; the
queue of each of them is afterwards the stored queue (the empty one when none
is stored) with one request at its end that carries the ExecutionId, the
Workflow.ID and the Authorization of the execution; every other queue is as
it was. -/
theorem environments_receive_one_request (fuel : Nat) (host : Host) (db db' : Datastore)
    (id : String) (workflow : Workflow) (request : ExecutionCall) (ret : ExecutionReturn)
    (hrun : handleExecution fuel host db id workflow request = .ok (ret, db'))
    (hplanned : ret.planned) :
    (environmentsOf ret.execution.Workflow.Actions).Nodup ∧
      cloudname ∉ environmentsOf ret.execution.Workflow.Actions ∧
      (∀ environment, environment ∈ environmentsOf ret.execution.Workflow.Actions ↔
        environment ≠ "cloud" ∧
          ∃ action ∈ ret.execution.Workflow.Actions, action.Environment = environment) ∧
      ∀ name, db'.workflowqueue name =
        if name ∈ environmentsOf ret.execution.Workflow.Actions then
          some { Data :=
            (match db.workflowqueue name with
             | some wrapper => wrapper.Data
             | none => []) ++
              [{ ExecutionId := ret.execution.ExecutionId
                 WorkflowId := ret.execution.Workflow.ID
                 Authorization := ret.execution.Authorization
                 Environments := environmentsOf ret.execution.Workflow.Actions }] }
        else db.workflowqueue name := by
  obtain ⟨hnodup, hcloud, hmem⟩ := environmentsOf_spec ret.execution.Workflow.Actions
  exact ⟨hnodup, hcloud, hmem,
    (handleExecution_store fuel host db db' id workflow request ret hrun hplanned).2.2⟩

/-- Witness for C17: `mixedWorkflow` on `queueStore`. The request goes behind
x, y, z on the queue "onprem", a queue "dmz" is created, and there is no queue
"cloud". -/
theorem environments_receive_one_request_witness :
    (environmentsOf mixedOutcome.1.execution.Workflow.Actions).Nodup ∧
      environmentsOf mixedOutcome.1.execution.Workflow.Actions = ["onprem", "dmz"] ∧
      queuedIds mixedOutcome.2 "onprem" = some ["x", "y", "z", sampleSessionToken] ∧
      queuedIds mixedOutcome.2 "dmz" = some [sampleSessionToken] ∧
      queuedIds mixedOutcome.2 "cloud" = none := by
  obtain ⟨hnodup, _⟩ :=
    environments_receive_one_request 5 sampleHost queueStore mixedOutcome.2 sampleWorkflowId
      mixedWorkflow {} mixedOutcome.1 (by rfl) (by unfold ExecutionReturn.planned; decide)
  exact ⟨hnodup, by decide, by decide, by decide, by decide⟩

/-! ## C18 and C19: identity and Status of the committed execution -/

/-- The execution planned for a request that names a stored reference
execution. -/
theorem startExecution_continuation (host : Host) (db : Datastore) (id : String)
    (workflow : Workflow) (request : ExecutionCall) (reference : String)
    (old prepared : WorkflowExecution) (makeNew : Bool)
    (hmethod : request.Method ≠ "POST")
    (href : request.reference_execution = some reference)
    (hold : getWorkflowExecution db reference = some old)
    (hid : 0 < old.ExecutionId.length)
    (hstart : startExecution host db id workflow request = .ok (.proceed prepared makeNew)) :
    prepared.ExecutionId = old.ExecutionId ∧ prepared.Authorization = old.Authorization ∧
      prepared.Status = old.Status := by
  obtain ⟨loaded, resolved, hres, hprep⟩ :=
    startExecution_proceed host db id workflow request prepared makeNew hstart
  rcases resolveRequest_proceed host db id loaded _ resolved request makeNew hres with
    ⟨hpost, _⟩ | ⟨_, hget⟩
  · exact absurd hpost hmethod
  · obtain ⟨hflag, h1, h2, h3⟩ :=
      resolveGet_reference host db _ resolved old request makeNew reference href hold hid hget
    obtain ⟨p1, _, p3⟩ := prepareExecution_ok host loaded resolved prepared makeNew hprep
    obtain ⟨p4, p5⟩ := p3 hflag
    exact ⟨by rw [p1, h1], by rw [p5, h2], by rw [p4, h3]⟩

/-- The execution planned for a POST request or for a request without
reference execution. -/
theorem startExecution_fresh (host : Host) (db : Datastore) (id : String)
    (workflow : Workflow) (request : ExecutionCall) (prepared : WorkflowExecution)
    (makeNew : Bool)
    (hfresh : request.Method = "POST" ∨ request.reference_execution = none)
    (hstart : startExecution host db id workflow request = .ok (.proceed prepared makeNew)) :
    prepared.Status = "EXECUTING" ∧ prepared.Authorization = host.authorization := by
  obtain ⟨loaded, resolved, hres, hprep⟩ :=
    startExecution_proceed host db id workflow request prepared makeNew hstart
  have hflag : makeNew = true := by
    rcases resolveRequest_proceed host db id loaded _ resolved request makeNew hres with
      ⟨_, hflag⟩ | ⟨hmethod, hget⟩
    · exact hflag
    · rcases hfresh with hpost | href
      · exact absurd hpost hmethod
      · exact resolveGet_new host db _ resolved request makeNew href rfl hget
  exact (prepareExecution_ok host loaded resolved prepared makeNew hprep).2.1 hflag

/-- C18. For every request that is not a POST and names a stored reference
execution (stored executions have a non-empty ExecutionId), the execution that
a planning returns has the ExecutionId and the Authorization of the reference
execution and is stored under that ExecutionId. -/
theorem continuation_keeps_identity (fuel : Nat) (host : Host) (db db' : Datastore)
    (id : String) (workflow : Workflow) (request : ExecutionCall) (reference : String)
    (old : WorkflowExecution) (ret : ExecutionReturn)
    (hmethod : request.Method ≠ "POST")
    (href : request.reference_execution = some reference)
    (hold : getWorkflowExecution db reference = some old)
    (hid : 0 < old.ExecutionId.length)
    (hrun : handleExecution fuel host db id workflow request = .ok (ret, db'))
    (hplanned : ret.planned) :
    ret.execution.ExecutionId = old.ExecutionId ∧
      ret.execution.Authorization = old.Authorization ∧
      db'.workflowexecution old.ExecutionId = some ret.execution := by
  obtain ⟨prepared, makeNew, childNodes, plan, db1, hstart, _, _, _, hret, _, _⟩ :=
    handleExecution_planned fuel host db db' id workflow request ret hrun hplanned
  obtain ⟨h1, h2, _⟩ := startExecution_continuation host db id workflow request reference old
    prepared makeNew hmethod href hold hid hstart
  have hstored :=
    (handleExecution_store fuel host db db' id workflow request ret hrun hplanned).1
  have hkey : ret.execution.ExecutionId = old.ExecutionId := by rw [hret]; exact h1
  refine ⟨hkey, by rw [hret]; exact h2, ?_⟩
  rw [← hkey]
  exact hstored

/-- Witness for C18: `continueCall` on the store that holds `pausedRun`. -/
theorem continuation_keeps_identity_witness :
    resumeOutcome.1.execution.ExecutionId = sampleExecutionId ∧
      resumeOutcome.1.execution.Authorization = "key" ∧
      resumeOutcome.2.workflowexecution sampleExecutionId = some resumeOutcome.1.execution :=
  continuation_keeps_identity 4 sampleHost (executionStore pausedRun) resumeOutcome.2
    sampleWorkflowId plannedWorkflow continueCall sampleExecutionId pausedRun resumeOutcome.1
    (by decide) (by rfl) (by rfl) (by decide) (by rfl)
    (by unfold ExecutionReturn.planned; decide)

/-- Counterexample to C19 as stated: the continuation of the FINISHED run
`finishedRun` at C is committed under its ExecutionId with Status FINISHED, and
its request is put on the queue "onprem". -/
theorem continuation_committed_finished :
    ∃ ret db', handleExecution 4 sampleHost (executionStore finishedRun) sampleWorkflowId
        plannedWorkflow continueCall = .ok (ret, db') ∧
      ret.err = none ∧
      db'.workflowexecution sampleExecutionId = some ret.execution ∧
      ret.execution.Status = "FINISHED" ∧
      queuedIds db' "onprem" = some [sampleExecutionId] :=
  ⟨continueOutcome.1, continueOutcome.2, by rfl, by decide, by rfl, by decide, by decide⟩

/-- C19 (amended). The execution that a planning returns is stored under its
ExecutionId. Its Status is EXECUTING when the request is a POST or names no
reference execution; when a request other than a POST names a stored reference
execution, its Status is the Status of the reference execution. -/
theorem committed_status (fuel : Nat) (host : Host) (db db' : Datastore)
    (id : String) (workflow : Workflow) (request : ExecutionCall) (ret : ExecutionReturn)
    (hrun : handleExecution fuel host db id workflow request = .ok (ret, db'))
    (hplanned : ret.planned) :
    db'.workflowexecution ret.execution.ExecutionId = some ret.execution ∧
      ((request.Method = "POST" ∨ request.reference_execution = none) →
        ret.execution.Status = "EXECUTING") ∧
      (∀ reference old, request.Method ≠ "POST" →
        request.reference_execution = some reference →
        getWorkflowExecution db reference = some old → 0 < old.ExecutionId.length →
        ret.execution.Status = old.Status) := by
  obtain ⟨prepared, makeNew, childNodes, plan, db1, hstart, _, _, _, hret, _, _⟩ :=
    handleExecution_planned fuel host db db' id workflow request ret hrun hplanned
  refine ⟨(handleExecution_store fuel host db db' id workflow request ret hrun hplanned).1,
    ?_, ?_⟩
  · intro hfresh
    rw [hret]
    exact (startExecution_fresh host db id workflow request prepared makeNew hfresh hstart).1
  · intro reference old hmethod href hold hid
    rw [hret]
    exact (startExecution_continuation host db id workflow request reference old prepared
      makeNew hmethod href hold hid hstart).2.2

/-- Witness for C19 (amended): the execution for `postCall` is stored with
Status EXECUTING. -/
theorem committed_status_witness :
    postOutcome.2.workflowexecution postOutcome.1.execution.ExecutionId =
        some postOutcome.1.execution ∧
      postOutcome.1.execution.Status = "EXECUTING" := by
  obtain ⟨hstored, hfresh, _⟩ :=
    committed_status 4 sampleHost emptyStore postOutcome.2 sampleWorkflowId plannedWorkflow
      postCall postOutcome.1 (by rfl) (by unfold ExecutionReturn.planned; decide)
  exact ⟨hstored, hfresh (Or.inl rfl)⟩

/-! ## C15: a start node that is not an action -/

/-- The planning of an execution whose Start is not the ID of an action: a
fault in `findChildNodes`, or an error without any write. -/
theorem planExecution_missing_start (fuel : Nat) (host : Host) (db : Datastore)
    (workflowExecution : WorkflowExecution)
    (hmissing : ∀ action ∈ workflowExecution.Workflow.Actions,
      action.ID ≠ workflowExecution.Start) :
    (findChildNodes fuel workflowExecution workflowExecution.Start = none ∧
        planExecution fuel host db workflowExecution = .error .outOfFuel) ∨
      ∃ reason err, planExecution fuel host db workflowExecution =
        .ok (failWith reason err, db) := by
  unfold planExecution
  cases hchildren : findChildNodes fuel workflowExecution workflowExecution.Start with
  | none => exact Or.inl ⟨rfl, rfl⟩
  | some childNodes =>
    right
    cases hloop : planActions db workflowExecution childNodes
        workflowExecution.Workflow.Actions {} with
    | error early =>
      obtain ⟨reason, err, hearly⟩ := planActions_error _ _ _ _ _ early hloop
      exact ⟨reason, err, by simp only [hloop, hearly]⟩
    | ok plan =>
      have hfound : plan.startFound = false := by
        rw [(planActions_ok db workflowExecution childNodes _ _ plan hloop).2.1]
        simp only [Bool.false_or]
        rw [Bool.eq_false_iff]
        intro hany
        obtain ⟨action, hmem, heq⟩ := List.any_eq_true.mp hany
        exact hmissing action hmem (by simpa using heq)
      refine ⟨"Workflow action " ++ workflowExecution.Start ++ " doesn't exist in workflow",
        "Workflow start node " ++ workflowExecution.Start ++ " doesn't exist. Exiting!", ?_⟩
      simp only [hloop, commitPlan, hfound, if_true]

/-- Counterexample to C15 as stated: the GET request with `start=T` for
`strayWorkflow` is planned with Start T, which is not the ID of its action A;
with the branch from T to T `findChildNodes` never returns, and for no fuel does
`handleExecution` return anything. -/
theorem stray_start_never_returns :
    preparedStart sampleHost emptyStore sampleWorkflowId strayWorkflow { start := some "T" } =
        some ("T", ["A"]) ∧
      ¬ ∃ fuel ret db', handleExecution fuel sampleHost emptyStore sampleWorkflowId
          strayWorkflow { start := some "T" } = .ok (ret, db') := by
  refine ⟨by decide, ?_⟩
  rintro ⟨fuel, ret, db', hrun⟩
  have hstart : startExecution sampleHost emptyStore sampleWorkflowId strayWorkflow
      { start := some "T" } =
      .ok (.proceed (proceeding (startExecution sampleHost emptyStore sampleWorkflowId
        strayWorkflow { start := some "T" })).1 true) := by rfl
  have hchildren : findChildNodes fuel (proceeding (startExecution sampleHost emptyStore
      sampleWorkflowId strayWorkflow { start := some "T" })).1 "T" = none :=
    findChildNodes_self_loop _ (sampleBranch "T" "T") (by decide) rfl fuel
  have hstartnode : (proceeding (startExecution sampleHost emptyStore
      sampleWorkflowId strayWorkflow { start := some "T" })).1.Start = "T" := by decide
  unfold handleExecution at hrun
  rw [hstart] at hrun
  simp only [planExecution, hstartnode, hchildren] at hrun
  cases hrun

/-- C15 (amended). When `handleExecution` plans an execution `prepared` whose
Start is not the ID of any of its workflow's Actions, then for every fuel it
either returns an error and leaves the datastore as it was, or
`findChildNodes` on Start does not return; and it does return an error, with
the empty execution and the datastore as it was, as soon as the fuel is enough
for `findChildNodes` on Start to return. -/
theorem missing_start_is_an_error (fuel0 fuel : Nat) (host : Host) (db : Datastore)
    (id : String) (workflow : Workflow) (request : ExecutionCall)
    (prepared : WorkflowExecution) (makeNew : Bool) (childNodes : List String)
    (hstart : startExecution host db id workflow request = .ok (.proceed prepared makeNew))
    (hmissing : ∀ action ∈ prepared.Workflow.Actions, action.ID ≠ prepared.Start)
    (hchildren : findChildNodes fuel0 prepared prepared.Start = some childNodes)
    (hfuel : fuel0 ≤ fuel) :
    (∀ fuel1,
      (findChildNodes fuel1 prepared prepared.Start = none ∧
        handleExecution fuel1 host db id workflow request = .error .outOfFuel) ∨
      ∃ reason err, handleExecution fuel1 host db id workflow request =
        .ok (failWith reason err, db)) ∧
    ∃ reason err, handleExecution fuel host db id workflow request =
      .ok ({ execution := {}, reason := reason, err := some err }, db) := by
  have hrun : ∀ fuel1, handleExecution fuel1 host db id workflow request =
      planExecution fuel1 host db prepared := by
    intro fuel1
    unfold handleExecution
    rw [hstart]
  constructor
  · intro fuel1
    rw [hrun fuel1]
    exact planExecution_missing_start fuel1 host db prepared hmissing
  · rw [hrun fuel]
    rcases planExecution_missing_start fuel host db prepared hmissing with
      ⟨hnone, _⟩ | ⟨reason, err, hfail⟩
    · rw [findChildNodes_fuel_mono fuel0 fuel prepared prepared.Start childNodes hfuel
        hchildren] at hnone
      cases hnone
    · exact ⟨reason, err, hfail⟩

/-- Witness for C15 (amended): the GET request with `start=Z` for
`plannedWorkflow`, which has no action and no branch Z. -/
theorem missing_start_is_an_error_witness :
    ∃ reason err, handleExecution 1 sampleHost emptyStore sampleWorkflowId plannedWorkflow
        { start := some "Z" } =
      .ok ({ execution := {}, reason := reason, err := some err }, emptyStore) :=
  (missing_start_is_an_error 1 1 sampleHost emptyStore sampleWorkflowId plannedWorkflow
    { start := some "Z" }
    (proceeding (startExecution sampleHost emptyStore sampleWorkflowId plannedWorkflow
      { start := some "Z" })).1 true ["Z"] (by rfl) (by decide) (by decide) (le_refl 1)).2

/-! ## C12: the happy path -/

/-- A posting for an action without result is appended. -/
theorem mergeResult_new (workflowExecution : WorkflowExecution) (actionResult : ActionResult)
    (hnew : ∀ result ∈ workflowExecution.Results,
      result.Action.ID ≠ actionResult.Action.ID) :
    mergeResult workflowExecution actionResult =
      { workflowExecution with Results := workflowExecution.Results ++ [actionResult] } := by
  have hfind := (findResult_none actionResult.Action.ID workflowExecution.Results).mpr hnew
  unfold mergeResult
  simp only [hfind]
  split_ifs <;> rfl

/-- The loop of the termination check over results that are neither EXECUTING
nor SKIPPED leaves `finished` alone and ends with the Result of the last one. -/
theorem finishLoop_plain (branches : List Branch) (results before : List ActionResult)
    (last : ActionResult) (finished : Bool) (lastResult : String)
    (hplain : ∀ result ∈ before ++ [last],
      result.Status ≠ "EXECUTING" ∧ result.Status ≠ "SKIPPED") :
    finishLoop branches results (before ++ [last]) (finished, lastResult) =
      (finished, last.Result) := by
  induction before generalizing lastResult with
  | nil =>
    obtain ⟨h1, h2⟩ := hplain last (by simp)
    simp [finishLoop, h1, h2]
  | cons result rest ih =>
    obtain ⟨h1, h2⟩ := hplain result (by simp)
    rw [List.cons_append, finishLoop]
    simp only [h1, h2, if_false]
    exact ih result.Result (fun r hr => hplain r (by simp at hr ⊢; tauto))

theorem extraInputs_zero (results : List ActionResult)
    (hinput : ∀ result ∈ results, result.Action.Name ≠ "User Input") :
    extraInputs results = 0 := by
  unfold extraInputs
  rw [List.countP_eq_zero]
  intro result hmem
  simp [hinput result hmem]

/-- One SUCCESS posting for an action without result, to an EXECUTING
execution whose results are all SUCCESS. -/
theorem handleWorkflowQueue_success (fuel : Nat) (now : Int) (db : Datastore)
    (workflowExecution : WorkflowExecution) (actionResult : ActionResult)
    (hstatus : workflowExecution.Status = "EXECUTING")
    (hid : 0 < workflowExecution.ExecutionId.length)
    (hstored : db.workflowexecution workflowExecution.ExecutionId = some workflowExecution)
    (hnew : ∀ result ∈ workflowExecution.Results,
      result.Action.ID ≠ actionResult.Action.ID)
    (hdone : ∀ result ∈ workflowExecution.Results, result.Status = "SUCCESS")
    (hinput : ∀ result ∈ workflowExecution.Results ++ [actionResult],
      result.Action.Name ≠ "User Input")
    (hsuccess : actionResult.Status = "SUCCESS")
    (hauth : actionResult.Authorization = workflowExecution.Authorization)
    (hkey : toLower actionResult.ExecutionId = workflowExecution.ExecutionId) :
    ∃ db1 updated,
      handleWorkflowQueue fuel now db actionResult = .replied ⟨200, .ok⟩ db1 ∧
      db1.workflowexecution workflowExecution.ExecutionId = some updated ∧
      updated.ExecutionId = workflowExecution.ExecutionId ∧
      updated.Authorization = workflowExecution.Authorization ∧
      updated.Workflow = workflowExecution.Workflow ∧
      updated.Results = workflowExecution.Results ++ [actionResult] ∧
      (workflowExecution.Results.length + 1 ≠ workflowExecution.Workflow.Actions.length →
        updated.Status = "EXECUTING") ∧
      (workflowExecution.Results.length + 1 = workflowExecution.Workflow.Actions.length →
        updated.Status = "FINISHED" ∧ updated.Result = actionResult.Result) := by
  have hget : getWorkflowExecution db actionResult.ExecutionId = some workflowExecution := by
    unfold getWorkflowExecution
    rw [hkey]
    exact hstored
  have hgate : sinkGate workflowExecution actionResult = none :=
    (sinkGate_none workflowExecution actionResult).mpr
      ⟨hauth.symm, by rw [hstatus]; decide, by rw [hstatus]; simp⟩
  have hblock : failureBlock fuel workflowExecution actionResult = some workflowExecution :=
    failureBlock_pass fuel workflowExecution actionResult (by rw [hsuccess]; decide)
  have hmerge := mergeResult_new workflowExecution actionResult hnew
  have hplain : ∀ result ∈ workflowExecution.Results ++ [actionResult],
      result.Status = "SUCCESS" := by
    intro result hmem
    rcases List.mem_append.mp hmem with h | h
    · exact hdone result h
    · rw [List.mem_singleton.mp h]; exact hsuccess
  have hclean : cleanupSkipped
      { workflowExecution with Results := workflowExecution.Results ++ [actionResult] } =
      some { workflowExecution with Results := workflowExecution.Results ++ [actionResult] } :=
    cleanupSkipped_no_skipped _ (fun result hmem => by rw [hplain result hmem]; decide)
  have hprocess : processResult fuel now workflowExecution actionResult =
      .ok (terminationCheck now
        { workflowExecution with Results := workflowExecution.Results ++ [actionResult] }
        actionResult) := by
    simp only [processResult, hblock, hmerge, hclean]
  have hfixed := terminationCheck_fixed now
    { workflowExecution with Results := workflowExecution.Results ++ [actionResult] }
    actionResult
  obtain ⟨f1, f2, f3, f4, _⟩ := hfixed
  obtain ⟨db1, hset, hstored1, _⟩ := setWorkflowExecution_some db
    (terminationCheck now
      { workflowExecution with Results := workflowExecution.Results ++ [actionResult] }
      actionResult) (by rw [f1]; exact hid)
  rw [f1] at hstored1
  refine ⟨db1, _, ?_, hstored1, f1, f2, f3, f4, ?_, ?_⟩
  · rw [handleWorkflowQueue_stored fuel now db actionResult workflowExecution hget]
    simp only [hgate, hprocess, hset]
  · intro hlen
    rw [terminationCheck_not_completes]
    · exact hstatus
    · rintro ⟨hcount, _⟩
      apply hlen
      simpa [extraInputs_zero _ hinput] using hcount
  · intro hlen
    have hloop := finishLoop_plain workflowExecution.Workflow.Branches
      (workflowExecution.Results ++ [actionResult]) workflowExecution.Results actionResult
      true "" (fun result hmem => by rw [hplain result hmem]; decide)
    rw [terminationCheck_completes]
    · exact ⟨rfl, by show (finishLoop _ _ _ _).2 = _; rw [hloop]⟩
    · constructor
      · simpa [extraInputs_zero _ hinput] using hlen
      · show (finishLoop _ _ _ _).1 = true
        rw [hloop]

/-- The happy path from an execution that already holds some results. -/
theorem runPostings_success (rest : List (Nat × Int × ActionResult)) :
    ∀ (db : Datastore) (workflowExecution : WorkflowExecution),
      workflowExecution.Status = "EXECUTING" →
      0 < workflowExecution.ExecutionId.length →
      db.workflowexecution workflowExecution.ExecutionId = some workflowExecution →
      workflowExecution.Workflow.Actions.length =
        workflowExecution.Results.length + rest.length →
      ((workflowExecution.Results ++ rest.map fun posting => posting.2.2).map
        fun result => result.Action.ID).Nodup →
      (∀ result ∈ workflowExecution.Results ++ rest.map fun posting => posting.2.2,
        result.Action.Name ≠ "User Input") →
      (∀ result ∈ workflowExecution.Results, result.Status = "SUCCESS") →
      (∀ posting ∈ rest, posting.2.2.Status = "SUCCESS" ∧
        posting.2.2.Authorization = workflowExecution.Authorization ∧
        toLower posting.2.2.ExecutionId = workflowExecution.ExecutionId) →
      (∀ k, k < rest.length → ∃ after,
        (runPostings db (rest.take k)).workflowexecution workflowExecution.ExecutionId =
          some after ∧
        after.Status = "EXECUTING" ∧
        after.Results =
          workflowExecution.Results ++ (rest.take k).map fun posting => posting.2.2) ∧
      (rest ≠ [] → ∃ final,
        (runPostings db rest).workflowexecution workflowExecution.ExecutionId = some final ∧
        final.Status = "FINISHED" ∧
        final.Results = workflowExecution.Results ++ rest.map (fun posting => posting.2.2) ∧
        rest.getLast?.map (fun posting => posting.2.2.Result) = some final.Result) := by
  induction rest with
  | nil =>
    intro db workflowExecution _ _ _ _ _ _ _ _
    exact ⟨fun k hk => absurd hk (by simp), fun h => absurd rfl h⟩
  | cons posting rest ih =>
    intro db workflowExecution hstatus hid hstored hlen hnodup hinput hdone hpostings
    obtain ⟨hsuccess, hauth, hkey⟩ := hpostings posting (by simp)
    have hnew : ∀ result ∈ workflowExecution.Results,
        result.Action.ID ≠ posting.2.2.Action.ID := by
      intro result hmem heq
      rw [List.map_append, List.map_cons, List.nodup_append] at hnodup
      exact hnodup.2.2 (List.mem_map_of_mem (fun result => result.Action.ID) hmem)
        (by rw [heq]; simp)
    obtain ⟨db1, updated, hrun, hstored1, u1, u2, u3, u4, u5, u6⟩ :=
      handleWorkflowQueue_success posting.1 posting.2.1 db workflowExecution posting.2.2
        hstatus hid hstored hnew hdone
        (fun result hmem => hinput result (by simp at hmem ⊢; tauto))
        hsuccess hauth hkey
    have hfold : ∀ later, runPostings db (posting :: later) = runPostings db1 later := by
      intro later
      simp only [runPostings, List.foldl_cons, hrun, Outcome.store]
    have hstart : ∃ after, (runPostings db ((posting :: rest).take 0)).workflowexecution
          workflowExecution.ExecutionId = some after ∧
        after.Status = "EXECUTING" ∧
        after.Results = workflowExecution.Results ++
          ((posting :: rest).take 0).map fun posting => posting.2.2 :=
      ⟨workflowExecution, hstored, hstatus, by simp⟩
    cases rest with
    | nil =>
      constructor
      · intro k hk
        have hk0 : k = 0 := by simpa using hk
        subst hk0
        exact hstart
      · intro _
        obtain ⟨hfinished, hresult⟩ := u6 (by simpa using hlen.symm)
        exact ⟨updated, by rw [hfold]; exact hstored1, hfinished, by simpa using u4,
          by simp [hresult]⟩
    | cons next rest =>
      have hexecuting : updated.Status = "EXECUTING" :=
        u5 (by simp only [List.length_cons] at hlen; omega)
      obtain ⟨hsteps, hfinal⟩ := ih db1 updated hexecuting (by rw [u1]; exact hid)
        (by rw [u1]; exact hstored1)
        (by rw [u3, u4, hlen]; simp only [List.length_append, List.length_cons,
          List.length_nil]; omega)
        (by rw [u4]; simpa using hnodup)
        (by rw [u4]; intro result hmem; exact hinput result (by simp at hmem ⊢; tauto))
        (by
          rw [u4]
          intro result hmem
          rcases List.mem_append.mp hmem with h | h
          · exact hdone result h
          · rw [List.mem_singleton.mp h]; exact hsuccess)
        (by
          intro later hmem
          rw [u1, u2]
          exact hpostings later (List.mem_cons_of_mem _ hmem))
      rw [u1, u4] at hsteps hfinal
      constructor
      · intro k hk
        cases k with
        | zero => exact hstart
        | succ k =>
          obtain ⟨after, h1, h2, h3⟩ := hsteps k (by simpa using hk)
          refine ⟨after, ?_, h2, ?_⟩
          · rw [List.take_succ_cons, hfold]; exact h1
          · rw [h3]; simp
      · intro _
        obtain ⟨final, h1, h2, h3, h4⟩ := hfinal (by simp)
        refine ⟨final, by rw [hfold]; exact h1, h2, by rw [h3]; simp, ?_⟩
        rw [← h4]
        simp [List.getLast?_cons_cons]

/-- C12. For every workflow with at least one action, actions of pairwise
distinct IDs and none of them named "User Input", and an EXECUTING execution
with empty Results kept under its non-empty ExecutionId: when the sink handles
SUCCESS postings that carry the actions of the workflow, each once, in any
order, with the Authorization of the execution and its ExecutionId, then after
the first k postings, for every k below the number of actions, the stored
Status is EXECUTING and Results holds these k postings; after all of them the
stored Status is FINISHED, Results holds the postings in the order of arrival,
as many as there are actions, and Result is the Result of the last posting. -/
theorem happy_path (db : Datastore) (workflowExecution : WorkflowExecution)
    (postings : List (Nat × Int × ActionResult))
    (hactions : 0 < workflowExecution.Workflow.Actions.length)
    (hdistinct : (workflowExecution.Workflow.Actions.map fun action => action.ID).Nodup)
    (hinput : ∀ action ∈ workflowExecution.Workflow.Actions, action.Name ≠ "User Input")
    (hstatus : workflowExecution.Status = "EXECUTING")
    (hempty : workflowExecution.Results = [])
    (hid : 0 < workflowExecution.ExecutionId.length)
    (hstored : db.workflowexecution workflowExecution.ExecutionId = some workflowExecution)
    (hperm : (postings.map fun posting => posting.2.2.Action).Perm
      workflowExecution.Workflow.Actions)
    (hpostings : ∀ posting ∈ postings, posting.2.2.Status = "SUCCESS" ∧
      posting.2.2.Authorization = workflowExecution.Authorization ∧
      toLower posting.2.2.ExecutionId = workflowExecution.ExecutionId) :
    (∀ k, k < workflowExecution.Workflow.Actions.length → ∃ after,
      (runPostings db (postings.take k)).workflowexecution workflowExecution.ExecutionId =
        some after ∧
      after.Status = "EXECUTING" ∧
      after.Results = (postings.take k).map fun posting => posting.2.2) ∧
    ∃ final,
      (runPostings db postings).workflowexecution workflowExecution.ExecutionId =
        some final ∧
      final.Status = "FINISHED" ∧
      final.Results = postings.map (fun posting => posting.2.2) ∧
      final.Results.length = workflowExecution.Workflow.Actions.length ∧
      postings.getLast?.map (fun posting => posting.2.2.Result) = some final.Result := by
  have hlen : postings.length = workflowExecution.Workflow.Actions.length := by
    simpa using hperm.length_eq
  have hids : (postings.map fun posting => posting.2.2.Action.ID).Nodup := by
    have hmapped := (hperm.map fun action : Action => action.ID).nodup_iff.mpr hdistinct
    simpa [List.map_map, Function.comp] using hmapped
  have hnames : ∀ posting ∈ postings, posting.2.2.Action.Name ≠ "User Input" := by
    intro posting hmem
    exact hinput _ (hperm.mem_iff.mp
      (List.mem_map_of_mem (fun posting : Nat × Int × ActionResult => posting.2.2.Action) hmem))
  obtain ⟨hsteps, hfinal⟩ := runPostings_success postings db workflowExecution hstatus hid
    hstored (by rw [hempty, hlen]; simp)
    (by rw [hempty]; simpa [List.map_map, Function.comp] using hids)
    (by
      rw [hempty]
      intro result hmem
      simp only [List.nil_append, List.mem_map] at hmem
      obtain ⟨posting, hposting, rfl⟩ := hmem
      exact hnames posting hposting)
    (by rw [hempty]; simp) hpostings
  rw [hempty] at hsteps hfinal
  simp only [List.nil_append] at hsteps hfinal
  constructor
  · intro k hk
    exact hsteps k (by rw [hlen]; exact hk)
  · obtain ⟨final, h1, h2, h3, h4⟩ := hfinal (by
      intro hnil
      rw [hnil] at hlen
      simp at hlen
      omega)
    exact ⟨final, h1, h2, h3, by rw [h3, List.length_map, hlen], h4⟩

/-- Witness for C12: A, B, C posted in order to `freshRun`. -/
theorem happy_path_witness :
    (∀ k, k < 3 → ∃ after,
      (runPostings (sampleStore freshRun) (successPostings.take k)).workflowexecution "e1" =
        some after ∧
      after.Status = "EXECUTING" ∧
      after.Results = (successPostings.take k).map fun posting => posting.2.2) ∧
    ∃ final,
      (runPostings (sampleStore freshRun) successPostings).workflowexecution "e1" =
        some final ∧
      final.Status = "FINISHED" ∧
      final.Results = successPostings.map (fun posting => posting.2.2) ∧
      final.Results.length = 3 ∧
      some "c" = some final.Result :=
  happy_path (sampleStore freshRun) freshRun successPostings (by decide) (by decide)
    (by decide) (by decide) (by decide) (by decide) (by rfl) (List.Perm.refl _)
    (by decide)

/-! ## C11: skipped results at completion -/

/-- C11, the code on the failing input: `forkRun` takes the posting F:FAILURE
twice and then Q:SUCCESS. The sink stores Status FINISHED with the results
X:SKIPPED, X:SKIPPED, F:FAILURE, Q:SUCCESS, although M, the parent of X, has
no result at all. -/
theorem finished_with_unsettled_parent :
    storedEntries (runPostings (sampleStore forkRun)
        [(3, 1, samplePosting "F" "FAILURE" "f"), (3, 2, samplePosting "F" "FAILURE" "f"),
          (3, 3, samplePosting "Q" "SUCCESS" "q")]) =
      some ("FINISHED",
        [("X", "SKIPPED"), ("X", "SKIPPED"), ("F", "FAILURE"), ("Q", "SUCCESS")]) ∧
    sampleBranch "M" "X" ∈ forkWorkflow.Branches ∧
    sampleAction "M" ∈ forkWorkflow.Actions := by
  decide

/-! ## C24: the execution variable bound by an action -/

theorem findResult_find? (id : String) (results : List ActionResult) :
    results.find? (fun result => decide (result.Action.ID = id)) =
      (findResult id results).map fun outerindex => (results.get? outerindex).getD {} := by
  induction results with
  | nil => rfl
  | cons item rest ih =>
    unfold findResult
    by_cases hid : item.Action.ID = id
    · simp [hid]
    · rw [List.find?_cons_of_neg _ (by simpa using hid), ih, if_neg hid]
      cases findResult id rest <;> simp

theorem convertExecuting_Action (status : String) (result : ActionResult) :
    (convertExecuting status result).Action = result.Action := by
  unfold convertExecuting
  split_ifs <;> rfl

theorem skippedResults_not_posted (workflowExecution : WorkflowExecution)
    (actionResult : ActionResult) (childNodes : List String) :
    ∀ result ∈ skippedResults workflowExecution actionResult childNodes,
      result.Action.ID ≠ actionResult.Action.ID := by
  intro result hmem
  unfold skippedResults at hmem
  obtain ⟨nodeId, _, hresult⟩ := List.mem_filterMap.mp hmem
  have hid := (skippedResult_some workflowExecution actionResult childNodes nodeId result
    hresult).1
  rw [hid]
  intro hposted
  simp [skippedResult, hposted] at hresult

/-- The first entry for the posted Action.ID after the failure block carries the
Action of the first such entry before it. -/
theorem failureBlock_find? (fuel : Nat) (workflowExecution failed : WorkflowExecution)
    (actionResult : ActionResult)
    (hfailed : failureBlock fuel workflowExecution actionResult = some failed) :
    (failed.Results.find? fun result =>
        decide (result.Action.ID = actionResult.Action.ID)).map (fun result => result.Action) =
      (workflowExecution.Results.find? fun result =>
        decide (result.Action.ID = actionResult.Action.ID)).map fun result => result.Action := by
  have hconverted : ∀ status,
      ((workflowExecution.Results.map (convertExecuting status)).find? fun result =>
        decide (result.Action.ID = actionResult.Action.ID)).map (fun result => result.Action) =
      (workflowExecution.Results.find? fun result =>
        decide (result.Action.ID = actionResult.Action.ID)).map fun result => result.Action := by
    intro status
    rw [List.find?_map]
    have hsame : ((fun result : ActionResult =>
        decide (result.Action.ID = actionResult.Action.ID)) ∘ convertExecuting status) =
        fun result => decide (result.Action.ID = actionResult.Action.ID) := by
      funext result
      simp [Function.comp, convertExecuting_Action]
    rw [hsame]
    cases workflowExecution.Results.find? fun result =>
        decide (result.Action.ID = actionResult.Action.ID) with
    | none => rfl
    | some stored => simp [convertExecuting_Action]
  unfold failureBlock at hfailed
  split_ifs at hfailed with hstatus hexit
  · cases hfailed
    exact hconverted actionResult.Status
  · cases hchildren : findChildNodes fuel workflowExecution actionResult.Action.ID with
    | none => simp [hchildren] at hfailed
    | some childNodes =>
      simp only [hchildren, Option.map_some', Option.some.injEq] at hfailed
      subst hfailed
      have hskipped : (skippedResults workflowExecution actionResult childNodes).find?
          (fun result => decide (result.Action.ID = actionResult.Action.ID)) = none := by
        rw [List.find?_eq_none]
        intro result hmem
        simpa using skippedResults_not_posted workflowExecution actionResult childNodes
          result hmem
      show ((skippedResults workflowExecution actionResult childNodes ++
        workflowExecution.Results.map (convertExecuting actionResult.Status)).find? _).map _ = _
      rw [List.find?_append, hskipped, Option.none_or]
      exact hconverted actionResult.Status
  · cases hfailed
    rfl

/-- The execution variables after the processing of a posting. -/
theorem processResult_ExecutionVariables (fuel : Nat) (now : Int)
    (workflowExecution updated : WorkflowExecution) (actionResult : ActionResult)
    (hupdated : processResult fuel now workflowExecution actionResult = .ok updated) :
    updated.ExecutionVariables =
      match (workflowExecution.Results.find? fun result =>
        decide (result.Action.ID = actionResult.Action.ID)).map fun result => result.Action with
      | some action =>
        if 0 < action.ExecutionVariable.Name.length then
          setExecutionVariable action.ExecutionVariable.Name actionResult.Result
            workflowExecution.ExecutionVariables
        else workflowExecution.ExecutionVariables
      | none => workflowExecution.ExecutionVariables := by
  obtain ⟨failed, cleaned, hfailed, hcleaned, rfl⟩ :=
    processResult_ok fuel now workflowExecution updated actionResult hupdated
  have h1 := (failureBlock_fixed fuel workflowExecution failed actionResult hfailed).2.2.2.1
  have h3 := (cleanupSkipped_fixed _ cleaned hcleaned).2.2.2.2.2.2.2
  have h4 := (terminationCheck_fixed now cleaned actionResult).2.2.2.2
  rw [h4, h3, mergeResult_ExecutionVariables, ← failureBlock_find? fuel workflowExecution failed
    actionResult hfailed, findResult_find?, h1]
  cases findResult actionResult.Action.ID failed.Results <;> rfl

theorem setExecutionVariable_split (name value : String) (before after : List Variable)
    (execvar : Variable) (hbefore : ∀ other ∈ before, other.Name ≠ name)
    (hname : execvar.Name = name) :
    setExecutionVariable name value (before ++ execvar :: after) =
      before ++ { execvar with Value := value } :: after := by
  induction before with
  | nil => simp [setExecutionVariable, hname]
  | cons other rest ih =>
    have hother : other.Name ≠ name := hbefore other (by simp)
    have hrest := ih (fun o ho => hbefore o (by simp [ho]))
    simp only [List.cons_append, setExecutionVariable, hother, if_false]
    exact congrArg (List.cons other) hrest

theorem setExecutionVariable_absent (name value : String) (execvars : List Variable)
    (habsent : ∀ execvar ∈ execvars, execvar.Name ≠ name) :
    setExecutionVariable name value execvars = execvars := by
  induction execvars with
  | nil => rfl
  | cons execvar rest ih =>
    have hhead : execvar.Name ≠ name := habsent execvar (by simp)
    simp only [setExecutionVariable, hhead, if_false]
    rw [ih (fun o ho => habsent o (by simp [ho]))]

/-- A posting that the sink answers with 200 has been processed and stored. -/
theorem handleWorkflowQueue_committed (fuel : Nat) (now : Int) (db db' : Datastore)
    (actionResult : ActionResult) (workflowExecution : WorkflowExecution)
    (hstored : getWorkflowExecution db actionResult.ExecutionId = some workflowExecution)
    (hrun : handleWorkflowQueue fuel now db actionResult = .replied ⟨200, .ok⟩ db') :
    ∃ updated, processResult fuel now workflowExecution actionResult = .ok updated ∧
      setWorkflowExecution db updated = some db' := by
  rw [handleWorkflowQueue_stored fuel now db actionResult workflowExecution hstored] at hrun
  cases hgate : sinkGate workflowExecution actionResult with
  | some resp =>
    simp only [hgate, Outcome.replied.injEq] at hrun
    obtain ⟨hresp, _⟩ := hrun
    subst hresp
    unfold sinkGate at hgate
    split_ifs at hgate <;> cases hgate
  | none =>
    simp only [hgate] at hrun
    cases hprocess : processResult fuel now workflowExecution actionResult with
    | error fault => simp [hprocess] at hrun
    | ok updated =>
      simp only [hprocess] at hrun
      cases hset : setWorkflowExecution db updated with
      | none => simp [hset] at hrun
      | some db1 =>
        simp only [hset, Outcome.replied.injEq] at hrun
        exact ⟨updated, rfl, by rw [hset, hrun.2]⟩

/-- Counterexample to C24 as stated: the action of the posting B:SUCCESS with
Result "b" binds "v", an execution variable of `bindingRun`, whose Results hold
no entry for B. The sink answers 200 and stores the execution with "v" still
empty. -/
theorem first_posting_leaves_variable :
    bindingPosting.Action.ExecutionVariable.Name = "v" ∧ bindingPosting.Result = "b" ∧
      (bindingRun.ExecutionVariables.map fun execvar => execvar.Name) = ["v"] ∧
      ∃ db', handleWorkflowQueue 0 0 (sampleStore bindingRun) bindingPosting =
          .replied ⟨200, .ok⟩ db' ∧
        storedVariables db' = some [("v", "")] :=
  ⟨by decide, by decide, by decide,
    (handleWorkflowQueue 0 0 (sampleStore bindingRun) bindingPosting).store
      (sampleStore bindingRun), by rfl, by decide⟩

/-- C24 (amended). Take a posting that the sink answers with 200, for a stored
execution. When Results held no entry for the posted Action.ID, the committed
execution has the ExecutionVariables it had. When Results held one, let
`stored` be the first: if the Action of `stored` declares no binding
(empty ExecutionVariable.Name) the ExecutionVariables are as they were;
otherwise the first execution variable with that Name has the posted Result as
its Value in the committed execution and every other variable is as it was,
and nothing changes when no variable has that Name. -/
theorem bound_variable_written_on_update (fuel : Nat) (now : Int) (db db' : Datastore)
    (actionResult : ActionResult) (workflowExecution : WorkflowExecution)
    (hstored : getWorkflowExecution db actionResult.ExecutionId = some workflowExecution)
    (hrun : handleWorkflowQueue fuel now db actionResult = .replied ⟨200, .ok⟩ db') :
    ∃ updated, db'.workflowexecution workflowExecution.ExecutionId = some updated ∧
      ((∀ result ∈ workflowExecution.Results,
          result.Action.ID ≠ actionResult.Action.ID) →
        updated.ExecutionVariables = workflowExecution.ExecutionVariables) ∧
      ∀ before stored after, workflowExecution.Results = before ++ stored :: after →
        (∀ result ∈ before, result.Action.ID ≠ actionResult.Action.ID) →
        stored.Action.ID = actionResult.Action.ID →
        (stored.Action.ExecutionVariable.Name.length = 0 →
          updated.ExecutionVariables = workflowExecution.ExecutionVariables) ∧
        (0 < stored.Action.ExecutionVariable.Name.length →
          (∀ first execvar rest,
            workflowExecution.ExecutionVariables = first ++ execvar :: rest →
            (∀ other ∈ first, other.Name ≠ stored.Action.ExecutionVariable.Name) →
            execvar.Name = stored.Action.ExecutionVariable.Name →
            updated.ExecutionVariables =
              first ++ { execvar with Value := actionResult.Result } :: rest) ∧
          ((∀ execvar ∈ workflowExecution.ExecutionVariables,
              execvar.Name ≠ stored.Action.ExecutionVariable.Name) →
            updated.ExecutionVariables = workflowExecution.ExecutionVariables)) := by
  obtain ⟨updated, hprocess, hset⟩ :=
    handleWorkflowQueue_committed fuel now db db' actionResult workflowExecution hstored hrun
  obtain ⟨_, hget, _, _⟩ := setWorkflowExecution_inv db db' updated hset
  have hkey := (processResult_fixed fuel now workflowExecution updated actionResult hprocess).1
  have hvars := processResult_ExecutionVariables fuel now workflowExecution updated
    actionResult hprocess
  refine ⟨updated, by rw [← hkey]; exact hget, ?_, ?_⟩
  · intro hnew
    have hfind : (workflowExecution.Results.find? fun result =>
        decide (result.Action.ID = actionResult.Action.ID)) = none := by
      rw [List.find?_eq_none]
      intro result hmem
      simpa using hnew result hmem
    rw [hvars, hfind]
    rfl
  · intro before stored after hsplit hbefore hid
    have hfind : (workflowExecution.Results.find? fun result =>
        decide (result.Action.ID = actionResult.Action.ID)) = some stored := by
      have hnone : (before.find? fun result =>
          decide (result.Action.ID = actionResult.Action.ID)) = none := by
        rw [List.find?_eq_none]
        intro result hmem
        simpa using hbefore result hmem
      rw [hsplit, List.find?_append, hnone, Option.none_or,
        List.find?_cons_of_pos _ (by simpa using hid)]
    rw [hfind] at hvars
    simp only [Option.map_some'] at hvars
    constructor
    · intro hnone
      rw [hvars, if_neg (by omega)]
    · intro hbound
      rw [if_pos hbound] at hvars
      constructor
      · intro first execvar rest hvarsplit hfirst hname
        rw [hvars, hvarsplit]
        exact setExecutionVariable_split _ _ first rest execvar hfirst hname
      · intro habsent
        rw [hvars]
        exact setExecutionVariable_absent _ _ _ habsent

/-- Witness for C24 (amended): in `boundRun` the entry for B is there, and the
posting B:SUCCESS with Result "b" writes "b" into "v". -/
theorem bound_variable_written_on_update_witness :
    ∃ updated,
      ((handleWorkflowQueue 0 0 (sampleStore boundRun) bindingPosting).store
        (sampleStore boundRun)).workflowexecution "e1" = some updated ∧
      updated.ExecutionVariables = [{ Name := "v", Value := "b" }] := by
  obtain ⟨updated, hupdated, _, hsplit⟩ :=
    bound_variable_written_on_update 0 0 (sampleStore boundRun)
      ((handleWorkflowQueue 0 0 (sampleStore boundRun) bindingPosting).store
        (sampleStore boundRun))
      bindingPosting boundRun (by rfl) (by rfl)
  exact ⟨updated, hupdated,
    ((hsplit [samplePosting "A" "SUCCESS" "a"]
      { bindingPosting with Status := "EXECUTING", Result := "" } [] rfl (by decide) rfl).2
      (by decide)).1 [] { Name := "v" } [] rfl (by simp) rfl⟩

/-! ## C25 and C30: the cleanup of skipped results -/

/-- C25, the code on two failing inputs. `fanRun` takes the postings F:FAILURE
(which skips X and Y), Q:SUCCESS and M:SUCCESS: the cleanup removes X but not
Y, which stays SKIPPED although its parent M has succeeded. In
`skippedJoinRun` the posting B:SUCCESS makes the cleanup remove X and, with
the second branch into X, the entry of A, which is no skipped entry at all. -/
theorem cleanup_misses_and_overshoots :
    storedEntries (runPostings (sampleStore fanRun)
        [(4, 1, samplePosting "F" "FAILURE" "f"), (4, 2, samplePosting "Q" "SUCCESS" "q"),
          (4, 3, samplePosting "M" "SUCCESS" "m")]) =
      some ("EXECUTING",
        [("Y", "SKIPPED"), ("F", "FAILURE"), ("Q", "SUCCESS"), ("M", "SUCCESS")]) ∧
    sampleBranch "M" "Y" ∈ fanWorkflow.Branches ∧
    processedEntries (processResult 0 0 skippedJoinRun (samplePosting "B" "SUCCESS" "b")) =
      some [("B", "SUCCESS")] := by
  decide

/-- C30, the code on the failing input: in `joinRun` the parents A and B of X
have succeeded, and the posting X:SKIPPED is appended as the third result. The
branch from A deletes it, the branch from B then evaluates `Results[3:]` on
two results, and the processing ends in the panic "slice bounds out of
range". -/
theorem cleanup_panics_on_join :
    sinkGate joinRun (samplePosting "X" "SKIPPED" "") = none ∧
      faultOf (processResult 0 0 joinRun (samplePosting "X" "SKIPPED" "")) =
        some .sliceBounds := by
  decide

/-! ## C26 and C27: what an abort does to the results and to Result -/

/-- The abort route for a stored execution that is not terminal, called by its
owner or an admin: the reply and what is stored. -/
theorem abortExecution_commits (now : Int) (db : Datastore) (user : User)
    (fileId executionId : String) (workflowExecution : WorkflowExecution)
    (hfile : byteLen fileId = 36) (hexecution : byteLen executionId = 36)
    (hstored : getWorkflowExecution db executionId = some workflowExecution)
    (hid : 0 < workflowExecution.ExecutionId.length)
    (hcaller : user.Id = workflowExecution.Workflow.Owner ∨ user.Role = "admin")
    (hopen : ¬ terminalStatus workflowExecution.Status) :
    ∃ db', abortExecution now db (some user)
        ["", "api", "v1", "workflows", fileId, "executions", executionId, "abort"] =
        .replied ⟨200, .ok⟩ db' ∧
      db'.workflowexecution workflowExecution.ExecutionId = some
        { workflowExecution with
          CompletedAt := now
          Status := "ABORTED"
          Results := workflowExecution.Results.map (convertExecuting "ABORTED")
          Result :=
            if workflowExecution.Result.length = 0 then
              lastNonEmptyResult (workflowExecution.Results.map (convertExecuting "ABORTED"))
            else workflowExecution.Result } := by
  have hcaller' : ¬ (user.Id ≠ workflowExecution.Workflow.Owner ∧ user.Role ≠ "admin") := by
    rintro ⟨h1, h2⟩
    rcases hcaller with h | h
    · exact h1 h
    · exact h2 h
  have hcond : ¬ (workflowExecution.Status = "ABORTED" ∨ workflowExecution.Status = "FAILURE" ∨
      workflowExecution.Status = "FINISHED") := by
    rintro (h | h | h)
    · exact hopen (Or.inr (Or.inl h))
    · exact hopen (Or.inr (Or.inr h))
    · exact hopen (Or.inl h)
  obtain ⟨db', hset, hget, _⟩ := setWorkflowExecution_some db
    { workflowExecution with
      CompletedAt := now
      Status := "ABORTED"
      Results := workflowExecution.Results.map (convertExecuting "ABORTED")
      Result :=
        if workflowExecution.Result.length = 0 then
          lastNonEmptyResult (workflowExecution.Results.map (convertExecuting "ABORTED"))
        else workflowExecution.Result } hid
  refine ⟨db', ?_, hget⟩
  simp [abortExecution, hfile, hexecution, hstored, hcaller', hcond, hset]

theorem convertExecuting_eq (status : String) :
    convertExecuting status = fun result =>
      if result.Status = "EXECUTING" then
        { result with Status := status, Result := "Aborted because of an unknown error" }
      else result := by
  funext result
  rfl

/-! ### The cleanup when there is nothing to remove -/

theorem cleanupBranches_idle (resultIndex : Nat) (result : ActionResult)
    (live : List ActionResult) (branches : List Branch)
    (hidle : ∀ branch ∈ branches, branch.DestinationID = result.Action.ID →
      liveParent live branch = false) :
    cleanupBranches resultIndex result branches { live := live, stale := [] } =
      some { live := live, stale := [] } := by
  induction branches with
  | nil => rfl
  | cons branch rest ih =>
    unfold cleanupBranches
    have hhead : ¬ (branch.DestinationID = result.Action.ID ∧
        liveParent live branch = true) := by
      rintro ⟨hdest, hlive⟩
      rw [hidle branch (by simp) hdest] at hlive
      cases hlive
    rw [if_neg hhead]
    exact ih fun other hother => hidle other (by simp [hother])

theorem cleanupLoop_idle (branches : List Branch) (live : List ActionResult)
    (hidle : nothingToRemove branches live) (remaining resultIndex : Nat) :
    cleanupLoop branches remaining resultIndex { live := live, stale := [] } =
      some { live := live, stale := [] } := by
  induction remaining generalizing resultIndex with
  | zero => rfl
  | succ remaining ih =>
    unfold cleanupLoop
    cases hcell : (live ++ ([] : List ActionResult)).get? resultIndex with
    | none => simp [hcell]
    | some result =>
      have hmem : result ∈ live := by
        have := List.get?_mem hcell
        simpa using this
      by_cases hskipped : result.Status = "SKIPPED"
      · have hbranches := cleanupBranches_idle resultIndex result live branches
          fun branch hbranch hdest =>
            (liveParent_false live branch).mpr (hidle result hmem hskipped branch hbranch hdest)
        simp only [hcell, hskipped, ne_eq, not_true_eq_false, if_false, hbranches]
        exact ih (resultIndex + 1)
      · simp only [hcell, hskipped, ne_eq, not_false_eq_true, if_true]
        exact ih (resultIndex + 1)

/-- The cleanup leaves an execution alone when no SKIPPED result has a parent
with a result that is neither SKIPPED nor FAILURE. -/
theorem cleanupSkipped_idle (workflowExecution : WorkflowExecution)
    (hidle : nothingToRemove workflowExecution.Workflow.Branches workflowExecution.Results) :
    cleanupSkipped workflowExecution = some workflowExecution := by
  unfold cleanupSkipped
  rw [cleanupLoop_idle _ _ hidle]
  rfl

/-- The results after the failure block for an ABORTED or FAILURE posting: the
synthetic SKIPPED results, then the prior results with the running ones
converted. -/
theorem failureBlock_Results (fuel : Nat) (workflowExecution : WorkflowExecution)
    (actionResult : ActionResult) (childNodes : List String)
    (hstatus : actionResult.Status = "ABORTED" ∨ actionResult.Status = "FAILURE")
    (hchildren : workflowExecution.Workflow.Configuration.ExitOnError = false →
      findChildNodes fuel workflowExecution actionResult.Action.ID = some childNodes) :
    ∃ failed, failureBlock fuel workflowExecution actionResult = some failed ∧
      failed.Results =
        (if workflowExecution.Workflow.Configuration.ExitOnError = true then []
          else skippedResults workflowExecution actionResult childNodes) ++
          workflowExecution.Results.map (convertExecuting actionResult.Status) := by
  by_cases hexit : workflowExecution.Workflow.Configuration.ExitOnError = true
  · exact ⟨_, failureBlock_exit fuel workflowExecution actionResult hstatus hexit,
      by simp [hexit]⟩
  · have hfalse : workflowExecution.Workflow.Configuration.ExitOnError = false := by
      simpa using hexit
    exact ⟨_, failureBlock_continue fuel workflowExecution actionResult childNodes hfalse
      hstatus (hchildren hfalse), by simp [hfalse]⟩

/-- A posting that passes the gate, gets through the failure block and leaves
the cleanup nothing to remove is committed with the merged results. -/
theorem handleWorkflowQueue_idle (fuel : Nat) (now : Int) (db : Datastore)
    (workflowExecution failed : WorkflowExecution) (actionResult : ActionResult)
    (hloaded : getWorkflowExecution db actionResult.ExecutionId = some workflowExecution)
    (hgate : sinkGate workflowExecution actionResult = none)
    (hkey : 0 < workflowExecution.ExecutionId.length)
    (hfailed : failureBlock fuel workflowExecution actionResult = some failed)
    (hidle : nothingToRemove workflowExecution.Workflow.Branches
      (mergeResult failed actionResult).Results) :
    ∃ db' updated, handleWorkflowQueue fuel now db actionResult = .replied ⟨200, .ok⟩ db' ∧
      db'.workflowexecution workflowExecution.ExecutionId = some updated ∧
      updated.Results = (mergeResult failed actionResult).Results := by
  have hworkflow : (mergeResult failed actionResult).Workflow = workflowExecution.Workflow := by
    rw [(mergeResult_fixed failed actionResult).2.2.1,
      (failureBlock_fixed fuel workflowExecution failed actionResult hfailed).2.2.1]
  have hcleaned : cleanupSkipped (mergeResult failed actionResult) =
      some (mergeResult failed actionResult) :=
    cleanupSkipped_idle _ (by rw [hworkflow]; exact hidle)
  have hprocess : processResult fuel now workflowExecution actionResult =
      .ok (terminationCheck now (mergeResult failed actionResult) actionResult) := by
    simp only [processResult, hfailed, hcleaned]
  have hid : (terminationCheck now (mergeResult failed actionResult) actionResult).ExecutionId =
      workflowExecution.ExecutionId :=
    (processResult_fixed fuel now workflowExecution _ actionResult hprocess).1
  obtain ⟨db', hset, hget, _⟩ := setWorkflowExecution_some db
    (terminationCheck now (mergeResult failed actionResult) actionResult) (by rw [hid]; exact hkey)
  refine ⟨db', _, ?_, by rw [← hid]; exact hget,
    (terminationCheck_fixed now (mergeResult failed actionResult) actionResult).2.2.2.1⟩
  rw [handleWorkflowQueue_stored fuel now db actionResult workflowExecution hloaded]
  simp only [hgate, hprocess, hset]

/-- The synthetic results of the failure block are SKIPPED and none of them
belongs to the posted action. -/
theorem synthetic_results (workflowExecution : WorkflowExecution) (actionResult : ActionResult)
    (childNodes : List String) :
    ∀ result ∈ (if workflowExecution.Workflow.Configuration.ExitOnError = true then []
        else skippedResults workflowExecution actionResult childNodes),
      result.Status = "SKIPPED" ∧ result.Action.ID ≠ actionResult.Action.ID := by
  intro result hmem
  split_ifs at hmem with hexit
  · cases hmem
  · refine ⟨?_, skippedResults_not_posted workflowExecution actionResult childNodes result hmem⟩
    obtain ⟨nodeId, _, hresult⟩ := List.mem_filterMap.mp hmem
    exact (skippedResult_some workflowExecution actionResult childNodes nodeId result
      hresult).2.2.1

/-- The results after the merge of an ABORTED or FAILURE posting for an action
without prior result. -/
theorem mergeResult_failed_new (workflowExecution failed : WorkflowExecution)
    (actionResult : ActionResult) (skipped : List ActionResult)
    (hresults : failed.Results =
      skipped ++ workflowExecution.Results.map (convertExecuting actionResult.Status))
    (hskipped : ∀ result ∈ skipped, result.Action.ID ≠ actionResult.Action.ID)
    (hnew : ∀ prior ∈ workflowExecution.Results, prior.Action.ID ≠ actionResult.Action.ID) :
    (mergeResult failed actionResult).Results =
      skipped ++ workflowExecution.Results.map (convertExecuting actionResult.Status) ++
        [actionResult] := by
  have hnone : ∀ result ∈ failed.Results, result.Action.ID ≠ actionResult.Action.ID := by
    intro result hmem
    rw [hresults] at hmem
    rcases List.mem_append.mp hmem with h | h
    · exact hskipped result h
    · obtain ⟨prior, hprior, rfl⟩ := List.mem_map.mp h
      rw [convertExecuting_Action]
      exact hnew prior hprior
  rw [mergeResult_new failed actionResult hnone, hresults]

/-- The results after the merge of an ABORTED or FAILURE posting for an action
that has a prior result. -/
theorem mergeResult_failed_old (workflowExecution failed : WorkflowExecution)
    (actionResult : ActionResult) (skipped before after : List ActionResult)
    (prior : ActionResult)
    (hresults : failed.Results =
      skipped ++ workflowExecution.Results.map (convertExecuting actionResult.Status))
    (hskipped : ∀ result ∈ skipped, result.Action.ID ≠ actionResult.Action.ID)
    (hsplit : workflowExecution.Results = before ++ prior :: after)
    (hbefore : ∀ earlier ∈ before, earlier.Action.ID ≠ actionResult.Action.ID)
    (hprior : prior.Action.ID = actionResult.Action.ID) :
    (mergeResult failed actionResult).Results =
      skipped ++ before.map (convertExecuting actionResult.Status) ++
        actionResult :: after.map (convertExecuting actionResult.Status) := by
  have hshape : failed.Results =
      (skipped ++ before.map (convertExecuting actionResult.Status)) ++
        convertExecuting actionResult.Status prior ::
          after.map (convertExecuting actionResult.Status) := by
    rw [hresults, hsplit]
    simp
  have hfront : ∀ result ∈ skipped ++ before.map (convertExecuting actionResult.Status),
      result.Action.ID ≠ actionResult.Action.ID := by
    intro result hmem
    rcases List.mem_append.mp hmem with h | h
    · exact hskipped result h
    · obtain ⟨earlier, hearlier, rfl⟩ := List.mem_map.mp h
      rw [convertExecuting_Action]
      exact hbefore earlier hearlier
  rw [mergeResult_Results, hshape,
    findResult_at_split actionResult.Action.ID _ _ _ hfront
      (by rw [convertExecuting_Action]; exact hprior)]
  exact set_at_split _ _ _ _

/-- C26 (amended). The sink: a posting with Status ABORTED or FAILURE that
passes the gate, for a stored execution with a non-empty ExecutionId, where
`findChildNodes` returns when ExitOnError is false, and where the cleanup has
nothing to remove from the merged results, is answered with 200 and the Results
committed are: the synthetic SKIPPED results (none with ExitOnError), followed
by the prior results in their order, where the first prior result with the
posted Action.ID is replaced by the posting itself (the posting is appended at
the end when there is none), every other prior result with Status EXECUTING has
taken the posted Status and the Result "Aborted because of an unknown error",
and every other prior result is as it was. `abortExecution`: when it aborts a
stored execution (abort route, caller owner or admin, Status not terminal), the
Results it stores are the prior results in their order, where a result with
Status EXECUTING has taken the Status ABORTED and the same Result and every
other result is as it was. -/
theorem running_results_are_converted (fuel : Nat) (now : Int) (db : Datastore) (user : User)
    (fileId executionId : String) (workflowExecution stored : WorkflowExecution)
    (actionResult : ActionResult) (childNodes : List String) (skipped : List ActionResult)
    (hstatus : actionResult.Status = "ABORTED" ∨ actionResult.Status = "FAILURE")
    (hloaded : getWorkflowExecution db actionResult.ExecutionId = some workflowExecution)
    (hgate : sinkGate workflowExecution actionResult = none)
    (hkey : 0 < workflowExecution.ExecutionId.length)
    (hchildren : workflowExecution.Workflow.Configuration.ExitOnError = false →
      findChildNodes fuel workflowExecution actionResult.Action.ID = some childNodes)
    (hskipped : skipped =
      if workflowExecution.Workflow.Configuration.ExitOnError = true then []
      else skippedResults workflowExecution actionResult childNodes)
    (hfile : byteLen fileId = 36) (hexecution : byteLen executionId = 36)
    (hstored : getWorkflowExecution db executionId = some stored)
    (hid : 0 < stored.ExecutionId.length)
    (hcaller : user.Id = stored.Workflow.Owner ∨ user.Role = "admin")
    (hopen : ¬ terminalStatus stored.Status) :
    (∀ result ∈ skipped, result.Status = "SKIPPED") ∧
    ((∀ prior ∈ workflowExecution.Results, prior.Action.ID ≠ actionResult.Action.ID) →
      nothingToRemove workflowExecution.Workflow.Branches
        (skipped ++ workflowExecution.Results.map (fun result =>
          if result.Status = "EXECUTING" then
            { result with
              Status := actionResult.Status
              Result := "Aborted because of an unknown error" }
          else result) ++ [actionResult]) →
      ∃ db' updated, handleWorkflowQueue fuel now db actionResult = .replied ⟨200, .ok⟩ db' ∧
        db'.workflowexecution workflowExecution.ExecutionId = some updated ∧
        updated.Results = skipped ++ workflowExecution.Results.map (fun result =>
          if result.Status = "EXECUTING" then
            { result with
              Status := actionResult.Status
              Result := "Aborted because of an unknown error" }
          else result) ++ [actionResult]) ∧
    (∀ before prior after, workflowExecution.Results = before ++ prior :: after →
      (∀ earlier ∈ before, earlier.Action.ID ≠ actionResult.Action.ID) →
      prior.Action.ID = actionResult.Action.ID →
      nothingToRemove workflowExecution.Workflow.Branches
        (skipped ++ before.map (fun result =>
          if result.Status = "EXECUTING" then
            { result with
              Status := actionResult.Status
              Result := "Aborted because of an unknown error" }
          else result) ++ actionResult :: after.map (fun result =>
          if result.Status = "EXECUTING" then
            { result with
              Status := actionResult.Status
              Result := "Aborted because of an unknown error" }
          else result)) →
      ∃ db' updated, handleWorkflowQueue fuel now db actionResult = .replied ⟨200, .ok⟩ db' ∧
        db'.workflowexecution workflowExecution.ExecutionId = some updated ∧
        updated.Results = skipped ++ before.map (fun result =>
          if result.Status = "EXECUTING" then
            { result with
              Status := actionResult.Status
              Result := "Aborted because of an unknown error" }
          else result) ++ actionResult :: after.map (fun result =>
          if result.Status = "EXECUTING" then
            { result with
              Status := actionResult.Status
              Result := "Aborted because of an unknown error" }
          else result)) ∧
    ∃ db' aborted, abortExecution now db (some user)
        ["", "api", "v1", "workflows", fileId, "executions", executionId, "abort"] =
        .replied ⟨200, .ok⟩ db' ∧
      db'.workflowexecution stored.ExecutionId = some aborted ∧
      aborted.Results = stored.Results.map fun result =>
        if result.Status = "EXECUTING" then
          { result with Status := "ABORTED", Result := "Aborted because of an unknown error" }
        else result := by
  obtain ⟨failed, hfailed, hresults⟩ := failureBlock_Results fuel workflowExecution
    actionResult childNodes hstatus hchildren
  rw [← hskipped] at hresults
  have hsynthetic := synthetic_results workflowExecution actionResult childNodes
  rw [← hskipped] at hsynthetic
  refine ⟨fun result hmem => (hsynthetic result hmem).1, ?_, ?_, ?_⟩
  · intro hnew hidle
    have hmerged := mergeResult_failed_new workflowExecution failed actionResult skipped
      hresults (fun result hmem => (hsynthetic result hmem).2) hnew
    rw [convertExecuting_eq] at hmerged
    obtain ⟨db', updated, hrun, hget, hupdated⟩ := handleWorkflowQueue_idle fuel now db
      workflowExecution failed actionResult hloaded hgate hkey hfailed
      (by rw [hmerged]; exact hidle)
    exact ⟨db', updated, hrun, hget, by rw [hupdated, hmerged]⟩
  · intro before prior after hsplit hbefore hprior hidle
    have hmerged := mergeResult_failed_old workflowExecution failed actionResult skipped
      before after prior hresults (fun result hmem => (hsynthetic result hmem).2) hsplit
      hbefore hprior
    rw [convertExecuting_eq] at hmerged
    obtain ⟨db', updated, hrun, hget, hupdated⟩ := handleWorkflowQueue_idle fuel now db
      workflowExecution failed actionResult hloaded hgate hkey hfailed
      (by rw [hmerged]; exact hidle)
    exact ⟨db', updated, hrun, hget, by rw [hupdated, hmerged]⟩
  · obtain ⟨db', hrun, hget⟩ := abortExecution_commits now db user fileId executionId stored
      hfile hexecution hstored hid hcaller hopen
    exact ⟨db', _, hrun, hget, by rw [convertExecuting_eq]⟩

/-- Counterexample to C26 as stated: in `runningRun` the results of B and D are
EXECUTING, and the sink handles the posting B:FAILURE with the Result "x". The
prior result of D is rewritten to FAILURE with the Result "Aborted because of
an unknown error"; the prior result of B, which was EXECUTING as well, is
replaced by the posting and carries the Result "x"; and the synthetic result
C:SKIPPED stands in front of the prior results. -/
theorem posted_entry_is_replaced :
    (runningRun.Results.map fun result => (result.Action.ID, result.Status, result.Result)) =
        [("A", "SUCCESS", "a"), ("B", "EXECUTING", ""), ("D", "EXECUTING", "")] ∧
      storedTriples (runPostings (sampleStore runningRun)
          [(3, 9, samplePosting "B" "FAILURE" "x")]) =
        some [("C", "SKIPPED", "Skipped because of previous node"), ("A", "SUCCESS", "a"),
          ("B", "FAILURE", "x"), ("D", "FAILURE", "Aborted because of an unknown error")] := by
  decide

/-- Witness for C26 (amended): the posting B:FAILURE for `runningRun`, in which
B and D are EXECUTING, and the abort of `abortableRun` by alice. -/
theorem running_results_are_converted_witness :
    (∃ db' updated, handleWorkflowQueue 3 9 runningStore (samplePosting "B" "FAILURE" "x") =
        .replied ⟨200, .ok⟩ db' ∧
      db'.workflowexecution "e1" = some updated ∧
      (updated.Results.map fun result => (result.Action.ID, result.Status, result.Result)) =
        [("C", "SKIPPED", "Skipped because of previous node"), ("A", "SUCCESS", "a"),
          ("B", "FAILURE", "x"), ("D", "FAILURE", "Aborted because of an unknown error")]) ∧
      ∃ db' aborted, abortExecution 9 runningStore (some { Id := "alice" })
          abortLocation = .replied ⟨200, .ok⟩ db' ∧
        db'.workflowexecution sampleExecutionId = some aborted ∧
        (aborted.Results.map fun result => (result.Action.ID, result.Status, result.Result)) =
          [("A", "SUCCESS", "a"), ("B", "ABORTED", "Aborted because of an unknown error")] := by
  obtain ⟨_, _, hold, db2, aborted, hrun2, hget2, hresults2⟩ :=
    running_results_are_converted 3 9 runningStore { Id := "alice" }
      sampleWorkflowId sampleExecutionId runningRun abortableRun
      (samplePosting "B" "FAILURE" "x") ["B", "C"]
      (skippedResults runningRun (samplePosting "B" "FAILURE" "x") ["B", "C"])
      (Or.inr rfl) (by rfl) (by decide) (by decide) (fun _ => by decide) (by rfl)
      (by decide) (by decide) (by rfl) (by decide) (Or.inl rfl)
      (by unfold terminalStatus; decide)
  obtain ⟨db1, updated, hrun1, hget1, hresults1⟩ :=
    hold [samplePosting "A" "SUCCESS" "a"] (samplePosting "B" "EXECUTING" "")
      [samplePosting "D" "EXECUTING" ""] rfl (by decide) rfl
      (by unfold nothingToRemove; decide)
  exact ⟨⟨db1, updated, hrun1, hget1, by rw [hresults1]; decide⟩,
    db2, aborted, hrun2, hget2, by rw [hresults2]; decide⟩

theorem lastNonEmpty_foldl_empty (results : List ActionResult) (lastResult : String)
    (hempty : ∀ result ∈ results, result.Result.length = 0) :
    results.foldl (fun lastResult result =>
      if 0 < result.Result.length then result.Result else lastResult) lastResult =
      lastResult := by
  induction results generalizing lastResult with
  | nil => rfl
  | cons result rest ih =>
    have hhead : ¬ 0 < result.Result.length := by
      have := hempty result (by simp)
      omega
    rw [List.foldl_cons, if_neg hhead]
    exact ih lastResult (fun r hr => hempty r (by simp [hr]))

/-- The variable `lastResult` after the loop: the Result of the last entry
whose Result is not empty. -/
theorem lastNonEmptyResult_split (before after : List ActionResult) (last : ActionResult)
    (hlast : 0 < last.Result.length)
    (hafter : ∀ result ∈ after, result.Result.length = 0) :
    lastNonEmptyResult (before ++ last :: after) = last.Result := by
  unfold lastNonEmptyResult
  rw [List.foldl_append, List.foldl_cons, if_pos hlast]
  exact lastNonEmpty_foldl_empty after last.Result hafter

theorem lastNonEmptyResult_empty (results : List ActionResult)
    (hempty : ∀ result ∈ results, result.Result.length = 0) :
    lastNonEmptyResult results = "" :=
  lastNonEmpty_foldl_empty results "" hempty

/-- Counterexample to C27 as stated: `reportedRun` has the Result "early" when
alice aborts it. The abort succeeds, the last non-empty Result among the
stored results is "Aborted because of an unknown error", and the stored Result
is still "early". -/
theorem abort_keeps_earlier_result :
    ∃ db', abortExecution 9 (executionStore reportedRun) (some { Id := "alice" })
        abortLocation = .replied ⟨200, .ok⟩ db' ∧
      storedOutcome db' = some ("early",
        [("SUCCESS", "a"), ("ABORTED", "Aborted because of an unknown error")]) :=
  ⟨(abortExecution 9 (executionStore reportedRun) (some { Id := "alice" })
      abortLocation).store (executionStore reportedRun), by rfl, by decide⟩

/-- C27 (amended). After a successful `abortExecution` (abort route, caller
owner or admin, Status not terminal) the stored execution keeps the Result it
had when that was not empty. When it was empty, the stored Result is the
Result of the last of the stored results whose Result is not empty, and the
empty string when every stored result has an empty Result. -/
theorem abort_sets_empty_result (now : Int) (db : Datastore) (user : User)
    (fileId executionId : String) (workflowExecution : WorkflowExecution)
    (hfile : byteLen fileId = 36) (hexecution : byteLen executionId = 36)
    (hstored : getWorkflowExecution db executionId = some workflowExecution)
    (hid : 0 < workflowExecution.ExecutionId.length)
    (hcaller : user.Id = workflowExecution.Workflow.Owner ∨ user.Role = "admin")
    (hopen : ¬ terminalStatus workflowExecution.Status) :
    ∃ db' aborted, abortExecution now db (some user)
        ["", "api", "v1", "workflows", fileId, "executions", executionId, "abort"] =
        .replied ⟨200, .ok⟩ db' ∧
      db'.workflowexecution workflowExecution.ExecutionId = some aborted ∧
      (0 < workflowExecution.Result.length → aborted.Result = workflowExecution.Result) ∧
      (workflowExecution.Result.length = 0 →
        (∀ before last after, aborted.Results = before ++ last :: after →
          0 < last.Result.length → (∀ result ∈ after, result.Result.length = 0) →
          aborted.Result = last.Result) ∧
        ((∀ result ∈ aborted.Results, result.Result.length = 0) → aborted.Result = "")) := by
  obtain ⟨db', hrun, hget⟩ := abortExecution_commits now db user fileId executionId
    workflowExecution hfile hexecution hstored hid hcaller hopen
  refine ⟨db', _, hrun, hget, ?_, ?_⟩
  · intro hset
    show (if workflowExecution.Result.length = 0 then _ else _) = _
    rw [if_neg (by omega)]
  · intro hunset
    constructor
    · intro before last after hsplit hlast hafter
      show (if workflowExecution.Result.length = 0 then _ else _) = _
      rw [if_pos hunset]
      have hsplit' : workflowExecution.Results.map (convertExecuting "ABORTED") =
          before ++ last :: after := hsplit
      rw [hsplit']
      exact lastNonEmptyResult_split before after last hlast hafter
    · intro hempty
      show (if workflowExecution.Result.length = 0 then _ else _) = _
      rw [if_pos hunset]
      exact lastNonEmptyResult_empty _ hempty

/-- Witness for C27 (amended): `abortableRun` has no Result; after the abort it
has the Result of B, the last stored result with a Result. -/
theorem abort_sets_empty_result_witness :
    ∃ db', abortExecution 9 (executionStore abortableRun) (some { Id := "alice" })
        abortLocation = .replied ⟨200, .ok⟩ db' ∧
      storedOutcome db' = some ("Aborted because of an unknown error",
        [("SUCCESS", "a"), ("ABORTED", "Aborted because of an unknown error")]) := by
  obtain ⟨db', aborted, hrun, hget, _, hunset⟩ :=
    abort_sets_empty_result 9 (executionStore abortableRun) { Id := "alice" }
      sampleWorkflowId sampleExecutionId abortableRun (by decide) (by decide) (by rfl)
      (by decide) (Or.inl rfl) (by unfold terminalStatus; decide)
  refine ⟨(abortExecution 9 (executionStore abortableRun) (some { Id := "alice" })
    abortLocation).store (executionStore abortableRun), by rfl, by decide⟩

/-! ## C28 and C29: what findChildNodes returns, and when -/

theorem appendMissing_extends (acc nodes : List String) :
    ∃ more, appendMissing acc nodes = acc ++ more := by
  unfold appendMissing
  induction nodes generalizing acc with
  | nil => exact ⟨[], by simp⟩
  | cons node nodes ih =>
    rw [List.foldl_cons]
    by_cases hin : node ∈ acc
    · simp only [hin, if_true]
      exact ih acc
    · simp only [hin, if_false]
      obtain ⟨more, hmore⟩ := ih (acc ++ [node])
      exact ⟨node :: more, by rw [hmore]; simp⟩

/-- The loop of `findChildNodes` over the branches, when it ends: what it has
collected, and that every recursive call has returned. -/
theorem findChildNodes_loop (fuel : Nat) (workflowExecution : WorkflowExecution)
    (nodeId : String) (branches : List Branch) :
    ∀ (init allChildren : List String),
      branches.foldlM (fun allChildren branch =>
        if branch.SourceID = nodeId then
          (findChildNodes fuel workflowExecution branch.DestinationID).map
            (fun childNodes => appendMissing (allChildren ++ [branch.DestinationID]) childNodes)
        else some allChildren) init = some allChildren →
      (∃ rest, allChildren = init ++ rest) ∧
      (∀ x, x ∈ allChildren ↔ x ∈ init ∨ ∃ branch ∈ branches, branch.SourceID = nodeId ∧
        (x = branch.DestinationID ∨ ∃ below,
          findChildNodes fuel workflowExecution branch.DestinationID = some below ∧
            x ∈ below)) ∧
      ∀ branch ∈ branches, branch.SourceID = nodeId →
        ∃ below, findChildNodes fuel workflowExecution branch.DestinationID = some below := by
  induction branches with
  | nil =>
    intro init allChildren hfold
    have heq : init = allChildren := by simpa using hfold
    subst heq
    exact ⟨⟨[], by simp⟩, by simp, by simp⟩
  | cons branch rest ih =>
    intro init allChildren hfold
    rw [List.foldlM_cons] at hfold
    by_cases hsource : branch.SourceID = nodeId
    · simp only [hsource, if_true] at hfold
      cases hbelow : findChildNodes fuel workflowExecution branch.DestinationID with
      | none => simp [hbelow] at hfold
      | some below =>
        simp only [hbelow, Option.map_some', Option.some_bind, Option.bind_eq_bind] at hfold
        obtain ⟨⟨tail, htail⟩, hmem, hcalls⟩ := ih _ allChildren hfold
        refine ⟨?_, ?_, ?_⟩
        · have hfront := appendMissing_extends (init ++ [branch.DestinationID]) below
          obtain ⟨more, hmore⟩ := hfront
          exact ⟨branch.DestinationID :: more ++ tail, by rw [htail, hmore]; simp⟩
        · intro x
          rw [hmem, mem_appendMissing]
          simp only [List.mem_append, List.mem_cons, List.not_mem_nil, or_false,
            exists_eq_or_imp]
          constructor
          · rintro (((h | h) | h) | h)
            · exact Or.inl h
            · exact Or.inr (Or.inl ⟨hsource, Or.inl h⟩)
            · exact Or.inr (Or.inl ⟨hsource, Or.inr ⟨below, hbelow, h⟩⟩)
            · exact Or.inr (Or.inr h)
          · rintro (h | ⟨_, (h | ⟨other, hother, h⟩)⟩ | h)
            · exact Or.inl (Or.inl (Or.inl h))
            · exact Or.inl (Or.inl (Or.inr h))
            · rw [hbelow] at hother
              cases hother
              exact Or.inl (Or.inr h)
            · exact Or.inr h
        · intro other hother hs
          rcases List.mem_cons.mp hother with h | h
          · rw [h]; exact ⟨below, hbelow⟩
          · exact hcalls other h hs
    · simp only [hsource, if_false, Option.some_bind, Option.bind_eq_bind] at hfold
      obtain ⟨hfront, hmem, hcalls⟩ := ih init allChildren hfold
      refine ⟨hfront, ?_, ?_⟩
      · intro x
        rw [hmem]
        simp only [List.mem_cons, exists_eq_or_imp, hsource, false_and, false_or]
      · intro other hother hs
        rcases List.mem_cons.mp hother with h | h
        · rw [h] at hs; exact absurd hs hsource
        · exact hcalls other h hs

/-- One level of `findChildNodes`: the list starts with the node, holds the
node, the end of each branch that leaves it and what the recursive calls
return, and nothing else; and every recursive call has returned. -/
theorem findChildNodes_level (fuel : Nat) (workflowExecution : WorkflowExecution)
    (nodeId : String) (childNodes : List String)
    (hchildren : findChildNodes (fuel + 1) workflowExecution nodeId = some childNodes) :
    childNodes.head? = some nodeId ∧
      (∀ x, x ∈ childNodes ↔ x = nodeId ∨
        ∃ branch ∈ workflowExecution.Workflow.Branches, branch.SourceID = nodeId ∧
          (x = branch.DestinationID ∨ ∃ below,
            findChildNodes fuel workflowExecution branch.DestinationID = some below ∧
              x ∈ below)) ∧
      ∀ branch ∈ workflowExecution.Workflow.Branches, branch.SourceID = nodeId →
        ∃ below, findChildNodes fuel workflowExecution branch.DestinationID = some below := by
  unfold findChildNodes at hchildren
  obtain ⟨allChildren, hfold, rfl⟩ := Option.map_eq_some'.mp hchildren
  obtain ⟨⟨rest, hrest⟩, hmem, hcalls⟩ := findChildNodes_loop fuel workflowExecution nodeId
    workflowExecution.Workflow.Branches [nodeId] allChildren hfold
  refine ⟨?_, ?_, hcalls⟩
  · rw [hrest]
    obtain ⟨more, hmore⟩ := appendMissing_extends [nodeId] rest
    have hfirst : appendMissing [] ([nodeId] ++ rest) = appendMissing [nodeId] rest := by
      simp [appendMissing]
    rw [hfirst, hmore]
    rfl
  · intro x
    rw [mem_appendMissing, hmem]
    simp

/-- Whatever `findChildNodes` returns holds exactly the nodes that can be
reached from the node. -/
theorem findChildNodes_reachable (fuel : Nat) (workflowExecution : WorkflowExecution) :
    ∀ (nodeId : String) (childNodes : List String),
      findChildNodes fuel workflowExecution nodeId = some childNodes →
      ∀ x, x ∈ childNodes ↔ reachable workflowExecution.Workflow.Branches nodeId x := by
  induction fuel with
  | zero =>
    intro nodeId childNodes hchildren
    simp [findChildNodes] at hchildren
  | succ fuel ih =>
    intro nodeId childNodes hchildren x
    obtain ⟨_, hmem, hcalls⟩ := findChildNodes_level fuel workflowExecution nodeId childNodes
      hchildren
    rw [hmem]
    constructor
    · rintro (h | ⟨branch, hbranch, hsource, (h | ⟨below, hbelow, h⟩)⟩)
      · rw [h]
        exact Relation.ReflTransGen.refl
      · rw [h]
        exact Relation.ReflTransGen.single ⟨branch, hbranch, hsource, rfl⟩
      · exact Relation.ReflTransGen.head ⟨branch, hbranch, hsource, rfl⟩
          ((ih branch.DestinationID below hbelow x).mp h)
    · intro hreach
      rcases Relation.ReflTransGen.cases_head hreach with h | ⟨middle, hstep, hrest⟩
      · exact Or.inl h.symm
      · obtain ⟨branch, hbranch, hsource, hdestination⟩ := hstep
        obtain ⟨below, hbelow⟩ := hcalls branch hbranch hsource
        right
        refine ⟨branch, hbranch, hsource, Or.inr ⟨below, hbelow, ?_⟩⟩
        rw [ih branch.DestinationID below hbelow x, hdestination]
        exact hrest

/-- The loop of `findChildNodes` ends when every recursive call returns. -/
theorem findChildNodes_loop_returns (fuel : Nat) (workflowExecution : WorkflowExecution)
    (nodeId : String) (branches : List Branch)
    (hcalls : ∀ branch ∈ branches, branch.SourceID = nodeId →
      ∃ below, findChildNodes fuel workflowExecution branch.DestinationID = some below) :
    ∀ init : List String, ∃ allChildren,
      branches.foldlM (fun allChildren branch =>
        if branch.SourceID = nodeId then
          (findChildNodes fuel workflowExecution branch.DestinationID).map
            (fun childNodes => appendMissing (allChildren ++ [branch.DestinationID]) childNodes)
        else some allChildren) init = some allChildren := by
  induction branches with
  | nil => exact fun init => ⟨init, rfl⟩
  | cons branch rest ih =>
    intro init
    rw [List.foldlM_cons]
    have hrest := ih (fun other hother hs => hcalls other (List.mem_cons_of_mem _ hother) hs)
    by_cases hsource : branch.SourceID = nodeId
    · obtain ⟨below, hbelow⟩ := hcalls branch (by simp) hsource
      simp only [hsource, if_true, hbelow, Option.map_some', Option.some_bind,
        Option.bind_eq_bind]
      exact hrest _
    · simp only [hsource, if_false, Option.some_bind, Option.bind_eq_bind]
      exact hrest init

theorem findChildNodes_returns_of_calls (fuel : Nat) (workflowExecution : WorkflowExecution)
    (nodeId : String)
    (hcalls : ∀ branch ∈ workflowExecution.Workflow.Branches, branch.SourceID = nodeId →
      ∃ below, findChildNodes fuel workflowExecution branch.DestinationID = some below) :
    ∃ childNodes, findChildNodes (fuel + 1) workflowExecution nodeId = some childNodes := by
  obtain ⟨allChildren, hfold⟩ := findChildNodes_loop_returns fuel workflowExecution nodeId
    workflowExecution.Workflow.Branches hcalls [nodeId]
  refine ⟨appendMissing [] allChildren, ?_⟩
  unfold findChildNodes
  rw [hfold]
  rfl

/-- Without a cycle below the node, the recursion is no deeper than the number
of branches: `seen` are distinct nodes above `nodeId`. -/
theorem findChildNodes_returns_below (workflowExecution : WorkflowExecution) (root : String)
    (hfree : cycleFree workflowExecution.Workflow.Branches root) (fuel : Nat) :
    ∀ (nodeId : String) (seen : List String), seen.Nodup →
      (∀ node ∈ seen,
        Relation.TransGen (branchStep workflowExecution.Workflow.Branches) node nodeId) →
      reachable workflowExecution.Workflow.Branches root nodeId →
      workflowExecution.Workflow.Branches.length ≤ seen.length + fuel →
      ∃ childNodes, findChildNodes (fuel + 1) workflowExecution nodeId = some childNodes := by
  induction fuel with
  | zero =>
    intro nodeId seen hnodup habove hreach hlen
    apply findChildNodes_returns_of_calls
    intro branch hbranch hsource
    exfalso
    have hfresh : nodeId ∉ seen := fun hin => hfree nodeId hreach (habove nodeId hin)
    have hsub : (nodeId :: seen) ⊆
        workflowExecution.Workflow.Branches.map fun branch => branch.SourceID := by
      intro node hnode
      rcases List.mem_cons.mp hnode with h | h
      · rw [h]
        exact List.mem_map.mpr ⟨branch, hbranch, hsource⟩
      · obtain ⟨middle, ⟨first, hfirst, hs, _⟩, _⟩ :=
          Relation.TransGen.head'_iff.mp (habove node h)
        exact List.mem_map.mpr ⟨first, hfirst, hs⟩
    have hle := (List.Nodup.subperm (List.nodup_cons.mpr ⟨hfresh, hnodup⟩) hsub).length_le
    simp only [List.length_cons, List.length_map] at hle
    omega
  | succ fuel ih =>
    intro nodeId seen hnodup habove hreach hlen
    apply findChildNodes_returns_of_calls
    intro branch hbranch hsource
    have hfresh : nodeId ∉ seen := fun hin => hfree nodeId hreach (habove nodeId hin)
    have hstep : branchStep workflowExecution.Workflow.Branches nodeId branch.DestinationID :=
      ⟨branch, hbranch, hsource, rfl⟩
    apply ih branch.DestinationID (nodeId :: seen) (List.nodup_cons.mpr ⟨hfresh, hnodup⟩)
    · intro node hnode
      rcases List.mem_cons.mp hnode with h | h
      · rw [h]
        exact Relation.TransGen.single hstep
      · exact Relation.TransGen.tail (habove node h) hstep
    · exact Relation.ReflTransGen.tail hreach hstep
    · simp only [List.length_cons]
      omega

/-- On a cycle `findChildNodes` returns for no fuel. -/
theorem findChildNodes_on_cycle (workflowExecution : WorkflowExecution) (fuel : Nat) :
    ∀ nodeId,
      Relation.TransGen (branchStep workflowExecution.Workflow.Branches) nodeId nodeId →
      findChildNodes fuel workflowExecution nodeId = none := by
  induction fuel with
  | zero => exact fun _ _ => rfl
  | succ fuel ih =>
    intro nodeId hcycle
    cases hchildren : findChildNodes (fuel + 1) workflowExecution nodeId with
    | none => rfl
    | some childNodes =>
      exfalso
      obtain ⟨middle, ⟨branch, hbranch, hsource, hdestination⟩, hback⟩ :=
        Relation.TransGen.head'_iff.mp hcycle
      obtain ⟨below, hbelow⟩ :=
        (findChildNodes_level fuel workflowExecution nodeId childNodes hchildren).2.2
          branch hbranch hsource
      have hmiddle : Relation.TransGen (branchStep workflowExecution.Workflow.Branches)
          middle middle :=
        Relation.TransGen.tail'_iff.mpr ⟨nodeId, hback, ⟨branch, hbranch, hsource, hdestination⟩⟩
      rw [hdestination, ih middle hmiddle] at hbelow
      cases hbelow

/-- When `findChildNodes` returns for a node, it returns with the same fuel for
every node that can be reached from it. -/
theorem findChildNodes_returns_along (workflowExecution : WorkflowExecution) (fuel : Nat)
    (nodeId target : String) (childNodes : List String)
    (hchildren : findChildNodes fuel workflowExecution nodeId = some childNodes)
    (hreach : reachable workflowExecution.Workflow.Branches nodeId target) :
    ∃ below, findChildNodes fuel workflowExecution target = some below := by
  induction hreach with
  | refl => exact ⟨childNodes, hchildren⟩
  | tail _ hstep ih =>
    obtain ⟨above, habove⟩ := ih
    obtain ⟨branch, hbranch, hsource, hdestination⟩ := hstep
    cases fuel with
    | zero => simp [findChildNodes] at habove
    | succ fuel =>
      obtain ⟨below, hbelow⟩ :=
        (findChildNodes_level fuel workflowExecution _ above habove).2.2 branch hbranch hsource
      rw [hdestination] at hbelow
      exact ⟨below, findChildNodes_fuel_succ fuel workflowExecution _ below hbelow⟩

/-- Branches that all lead to a node of higher rank have no cycle. -/
theorem cycleFree_of_rank (branches : List Branch) (rank : String → Nat)
    (hrank : ∀ branch ∈ branches, rank branch.SourceID < rank branch.DestinationID)
    (nodeId : String) : cycleFree branches nodeId := by
  intro node _ hcycle
  have hlt : ∀ a b, Relation.TransGen (branchStep branches) a b → rank a < rank b := by
    intro a b hab
    induction hab with
    | single hstep =>
      obtain ⟨branch, hbranch, hs, hd⟩ := hstep
      rw [← hs, ← hd]
      exact hrank branch hbranch
    | tail _ hstep ih =>
      obtain ⟨branch, hbranch, hs, hd⟩ := hstep
      rw [← hd]
      exact lt_trans (hs ▸ ih) (hrank branch hbranch)
  exact lt_irrefl _ (hlt node node hcycle)

/-- C28. For every execution and node such that no node reachable from it
lies on a cycle of branches, `findChildNodes` returns (a recursion depth of
the number of branches plus one is enough, and whatever depth it is given it
returns the same list): a list without duplicates whose first element is the
node itself and whose members are exactly the nodes reachable from it by
following branches from SourceID to DestinationID. -/
theorem findChildNodes_descendants (workflowExecution : WorkflowExecution) (nodeId : String)
    (hfree : cycleFree workflowExecution.Workflow.Branches nodeId) :
    ∃ childNodes,
      findChildNodes (workflowExecution.Workflow.Branches.length + 1) workflowExecution
        nodeId = some childNodes ∧
      (∀ fuel found, findChildNodes fuel workflowExecution nodeId = some found →
        found = childNodes) ∧
      childNodes.Nodup ∧ childNodes.head? = some nodeId ∧
      ∀ x, x ∈ childNodes ↔ reachable workflowExecution.Workflow.Branches nodeId x := by
  obtain ⟨childNodes, hchildren⟩ := findChildNodes_returns_below workflowExecution nodeId hfree
    workflowExecution.Workflow.Branches.length nodeId [] List.nodup_nil (by simp)
    Relation.ReflTransGen.refl (by simp)
  refine ⟨childNodes, hchildren, ?_, findChildNodes_nodup _ _ _ _ hchildren,
    (findChildNodes_level _ _ _ _ hchildren).1,
    findChildNodes_reachable _ workflowExecution nodeId childNodes hchildren⟩
  intro fuel found hfound
  have h1 := findChildNodes_fuel_mono fuel
    (max fuel (workflowExecution.Workflow.Branches.length + 1)) workflowExecution nodeId found
    (le_max_left _ _) hfound
  have h2 := findChildNodes_fuel_mono (workflowExecution.Workflow.Branches.length + 1)
    (max fuel (workflowExecution.Workflow.Branches.length + 1)) workflowExecution nodeId
    childNodes (le_max_right _ _) hchildren
  rw [h1] at h2
  exact Option.some.inj h2

/-- Witness for C28: in `spareRun` (A → B → C, and D apart) the nodes below A
are A, B, C. -/
theorem findChildNodes_descendants_witness :
    ∃ childNodes, findChildNodes 3 spareRun "A" = some childNodes ∧
      childNodes = ["A", "B", "C"] ∧
      ∀ x, x ∈ childNodes ↔ reachable spareRun.Workflow.Branches "A" x := by
  obtain ⟨childNodes, hchildren, _, _, _, hmem⟩ := findChildNodes_descendants spareRun "A"
    (cycleFree_of_rank _ chainRank (by decide) "A")
  have hvalue : findChildNodes 3 spareRun "A" = some ["A", "B", "C"] := by decide
  have hsame : childNodes = ["A", "B", "C"] := by
    have h : findChildNodes 3 spareRun "A" = some childNodes := hchildren
    rw [hvalue] at h
    exact (Option.some.inj h).symm
  exact ⟨childNodes, hchildren, hsame, hmem⟩

/-- C29. `findChildNodes` returns for a node when no node reachable from it
lies on a cycle of branches: a recursion depth of the number of branches plus
one is enough, and more depth gives the same list. It has no visited set: when
some node reachable from the node lies on a cycle, it returns for no depth; so
it is with a branch from the node to itself. -/
theorem findChildNodes_returns_iff_cycle_free (workflowExecution : WorkflowExecution)
    (nodeId : String) :
    (cycleFree workflowExecution.Workflow.Branches nodeId →
      ∃ childNodes, ∀ fuel, workflowExecution.Workflow.Branches.length + 1 ≤ fuel →
        findChildNodes fuel workflowExecution nodeId = some childNodes) ∧
    (∀ node, reachable workflowExecution.Workflow.Branches nodeId node →
      Relation.TransGen (branchStep workflowExecution.Workflow.Branches) node node →
      ∀ fuel, findChildNodes fuel workflowExecution nodeId = none) ∧
    (∀ branch ∈ workflowExecution.Workflow.Branches, branch.SourceID = nodeId →
      branch.DestinationID = nodeId →
      ∀ fuel, findChildNodes fuel workflowExecution nodeId = none) := by
  have hcycle : ∀ node, reachable workflowExecution.Workflow.Branches nodeId node →
      Relation.TransGen (branchStep workflowExecution.Workflow.Branches) node node →
      ∀ fuel, findChildNodes fuel workflowExecution nodeId = none := by
    intro node hreach hloop fuel
    cases hchildren : findChildNodes fuel workflowExecution nodeId with
    | none => rfl
    | some childNodes =>
      obtain ⟨below, hbelow⟩ := findChildNodes_returns_along workflowExecution fuel nodeId node
        childNodes hchildren hreach
      rw [findChildNodes_on_cycle workflowExecution fuel node hloop] at hbelow
      cases hbelow
  refine ⟨?_, hcycle, ?_⟩
  · intro hfree
    obtain ⟨childNodes, hchildren⟩ := findChildNodes_returns_below workflowExecution nodeId
      hfree workflowExecution.Workflow.Branches.length nodeId [] List.nodup_nil (by simp)
      Relation.ReflTransGen.refl (by simp)
    exact ⟨childNodes, fun fuel hfuel =>
      findChildNodes_fuel_mono _ fuel workflowExecution nodeId childNodes hfuel hchildren⟩
  · intro branch hbranch hsource hdestination
    exact hcycle nodeId Relation.ReflTransGen.refl
      (Relation.TransGen.single ⟨branch, hbranch, hsource, hdestination⟩)

/-! ## C21: polling a queue -/

/-- Counterexample to C21 as stated: no wrapper is stored for "onprem" in the
empty datastore, and the poll with `Org-Id: onprem` is answered with 401 and a
failure body, not with an empty list. -/
theorem poll_without_wrapper_is_rejected :
    getWorkflowQueue emptyStore "onprem" = none ∧
      handleGetWorkflowqueue emptyStore "onprem" =
        .replied ⟨401, .failure "datastore: no such entity"⟩ emptyStore :=
  ⟨rfl, rfl⟩

/-- C21 (amended). A poll without the header `Org-Id` is answered with 401 and a
failure body. With the header, the poll is answered with 200 and the whole
stored wrapper of that environment when there is one (its list is empty when
the wrapper holds no entry), and with 401 and a failure body when none is
stored. The datastore is as it was in every case. -/
theorem queue_poll (db : Datastore) (orgId : String) :
    (orgId.length = 0 → ∃ reason,
      handleGetWorkflowqueue db orgId = .replied ⟨401, .failure reason⟩ db) ∧
    (0 < orgId.length →
      (∀ executionRequests, getWorkflowQueue db orgId = some executionRequests →
        handleGetWorkflowqueue db orgId = .replied ⟨200, .queue executionRequests⟩ db) ∧
      (getWorkflowQueue db orgId = none → ∃ reason,
        handleGetWorkflowqueue db orgId = .replied ⟨401, .failure reason⟩ db)) := by
  constructor
  · intro hempty
    exact ⟨"Specify the org-id header.", by simp [handleGetWorkflowqueue, hempty]⟩
  · intro hid
    have hne : ¬ orgId.length = 0 := by omega
    constructor
    · intro executionRequests hstored
      simp [handleGetWorkflowqueue, hne, hstored]
    · intro hnone
      exact ⟨"datastore: no such entity", by simp [handleGetWorkflowqueue, hne, hnone]⟩

/-! ## C22: the frequency of a schedule -/

theorem Split_length_pos (sep : Char) (cs : List Char) (hlen : 1 < (Split sep cs).length) :
    cs ≠ [] := by
  intro hnil
  rw [hnil] at hlen
  simp [Split] at hlen

theorem Atoi_some (s : String) (value : Int) (hvalue : Atoi s = some value) :
    decimalValue s = some value ∧ -(2 ^ 63 : Int) ≤ value ∧ value < 2 ^ 63 := by
  unfold Atoi at hvalue
  cases hdecimal : decimalValue s with
  | none => simp [hdecimal] at hvalue
  | some parsed =>
    simp only [hdecimal] at hvalue
    split_ifs at hvalue with hrange
    cases hvalue
    exact ⟨rfl, hrange⟩

/-- The decisions of `createSchedule`, one after the other. -/
theorem createSchedule_cases (now : Int) (runError : Option String) (state : Schedules)
    (scheduleId workflowId name startNode frequency body : String) :
    createSchedule now runError state scheduleId workflowId name startNode frequency body =
      if 5 < (Split '*' frequency.data).length then
        (some "cronJob isn't formatted correctly", state)
      else
        match Atoi frequency with
        | none => (some "strconv.Atoi: invalid syntax", state)
        | some newfrequency =>
          if newfrequency < 1 then (some "Frequency has to be more than 0", state)
          else
            match runError with
            | some err => (some err, state)
            | none =>
              (none, setSchedule
                (registerJob state scheduleId
                  { seconds := newfrequency, workflowId := workflowId,
                    bodyWrapper := bodyWrapperOf startNode body })
                { Id := scheduleId
                  WorkflowId := workflowId
                  StartNode := startNode
                  Argument := body
                  WrappedArgument := bodyWrapperOf startNode body
                  Seconds := newfrequency
                  CreationTime := now
                  LastModificationtime := now
                  LastRuntime := now }) := by
  unfold createSchedule
  by_cases hcron : 5 < (Split '*' frequency.data).length
  · have hdata : frequency.data ≠ [] := Split_length_pos '*' frequency.data (by omega)
    have hlen : 0 < frequency.length := by
      rw [String.length]
      exact List.length_pos.mpr hdata
    simp only [hcron, if_true, hlen]
  · simp only [hcron, if_false]
    cases hparse : Atoi frequency with
    | none => rfl
    | some newfrequency =>
      simp only [Option.map_some']
      have hempty : ¬ 0 < "".length := by decide
      rw [if_neg hempty]

/-- C22. `createSchedule` returns an error, with the jobs and the stored
schedules as they were, for every frequency that splits at "*" into more than
five fragments, for every frequency that is no decimal integer, and for every
frequency that is a decimal integer below 1; every error leaves the jobs and
the stored schedules as they were. When it returns no error, the frequency is
a decimal integer of at least 1, the schedule stored under the schedule id has
that integer as its Seconds, and the job kept under the schedule id has that
interval. -/
theorem createSchedule_frequency (now : Int) (runError : Option String) (state : Schedules)
    (scheduleId workflowId name startNode frequency body : String) :
    (5 < (Split '*' frequency.data).length → ∃ err,
      createSchedule now runError state scheduleId workflowId name startNode frequency body =
        (some err, state)) ∧
    (decimalValue frequency = none → ∃ err,
      createSchedule now runError state scheduleId workflowId name startNode frequency body =
        (some err, state)) ∧
    (∀ value, decimalValue frequency = some value → value < 1 → ∃ err,
      createSchedule now runError state scheduleId workflowId name startNode frequency body =
        (some err, state)) ∧
    (∀ err after,
      createSchedule now runError state scheduleId workflowId name startNode frequency body =
        (some err, after) → after = state) ∧
    (∀ after,
      createSchedule now runError state scheduleId workflowId name startNode frequency body =
        (none, after) →
      ∃ value, decimalValue frequency = some value ∧ 1 ≤ value ∧
        (after.schedules scheduleId).map (fun schedule => schedule.Seconds) = some value ∧
        (after.scheduledJobs scheduleId).map (fun job => job.seconds) = some value) := by
  rw [createSchedule_cases]
  by_cases hcron : 5 < (Split '*' frequency.data).length
  · simp only [hcron, if_true]
    refine ⟨fun _ => ⟨_, rfl⟩, fun _ => ⟨_, rfl⟩, fun _ _ _ => ⟨_, rfl⟩, ?_, ?_⟩
    · intro err after hrun
      exact (Prod.mk.inj hrun).2.symm
    · intro after hrun
      cases (Prod.mk.inj hrun).1
  · simp only [hcron, if_false]
    cases hparse : Atoi frequency with
    | none =>
      simp only []
      refine ⟨fun h => absurd h (by simp), fun _ => ⟨_, rfl⟩, fun _ _ _ => ⟨_, rfl⟩, ?_, ?_⟩
      · intro err after hrun
        exact (Prod.mk.inj hrun).2.symm
      · intro after hrun
        cases (Prod.mk.inj hrun).1
    | some newfrequency =>
      obtain ⟨hdecimal, _, _⟩ := Atoi_some frequency newfrequency hparse
      simp only []
      by_cases hlow : newfrequency < 1
      · simp only [hlow, if_true]
        refine ⟨fun h => absurd h (by simp), fun _ => ⟨_, rfl⟩, fun _ _ _ => ⟨_, rfl⟩, ?_, ?_⟩
        · intro err after hrun
          exact (Prod.mk.inj hrun).2.symm
        · intro after hrun
          cases (Prod.mk.inj hrun).1
      · simp only [hlow, if_false]
        refine ⟨fun h => absurd h (by simp), ?_, ?_, ?_, ?_⟩
        · intro hnone
          rw [hdecimal] at hnone
          cases hnone
        · intro value hvalue hbelow
          rw [hdecimal] at hvalue
          cases hvalue
          exact absurd hbelow hlow
        · intro err after hrun
          cases runError with
          | none => cases (Prod.mk.inj hrun).1
          | some failure => exact (Prod.mk.inj hrun).2.symm
        · intro after hrun
          cases runError with
          | some failure => cases (Prod.mk.inj hrun).1
          | none =>
            have hafter := (Prod.mk.inj hrun).2
            subst hafter
            exact ⟨newfrequency, hdecimal, by omega, by simp [setSchedule],
              by simp [setSchedule, registerJob]⟩

/-- Witness for C22: the frequency "60" is accepted and stored as 60 seconds;
"*/15 * * * *", "soon" and "0" are refused. -/
theorem createSchedule_frequency_witness :
    ((createSchedule 5 none {} "s1" "w1" "hourly" "A" "60" "arg").1 = none ∧
      (((createSchedule 5 none {} "s1" "w1" "hourly" "A" "60" "arg").2.schedules "s1").map
        fun schedule => schedule.Seconds) = some 60) ∧
    (createSchedule 5 none {} "s1" "w1" "hourly" "A" "*/15 * * * *" "arg").1 =
      some "cronJob isn't formatted correctly" ∧
    (createSchedule 5 none {} "s1" "w1" "hourly" "A" "soon" "arg").1 =
      some "strconv.Atoi: invalid syntax" ∧
    (createSchedule 5 none {} "s1" "w1" "hourly" "A" "0" "arg").1 =
      some "Frequency has to be more than 0" := by
  refine ⟨⟨by decide, ?_⟩, by decide, by decide, by decide⟩
  obtain ⟨value, hvalue, _, hseconds, _⟩ :=
    (createSchedule_frequency 5 none {} "s1" "w1" "hourly" "A" "60" "arg").2.2.2.2
      (createSchedule 5 none {} "s1" "w1" "hourly" "A" "60" "arg").2 (by rfl)
  have h60 : decimalValue "60" = some 60 := by decide
  rw [h60] at hvalue
  cases hvalue
  exact hseconds

/-! ## C23: requests without credentials -/

/-- C23. When `handleApiAuthentication` fails, `executeWorkflow`,
`abortExecution`, `scheduleWorkflow`, `stopSchedule` and
`getWorkflowExecutions` answer 401 with a failure body; so do
`handleGetWorkflowqueue` and `handleGetWorkflowqueueConfirm` when the header
`Org-Id` is absent, and `handleWorkflowQueue` and `handleGetStreamResults`
when the body does not decode into an ActionResult. In each case the
datastore, the jobs and the stored schedules are as they were. -/
theorem handlers_require_credentials (fuel : Nat) (now : Int) (host : Host)
    (db : Datastore) (state : Schedules) (runError : Option String)
    (recent : String → Option (List WorkflowExecution)) (location : List String)
    (request : ExecutionCall) (scheduleCall : ScheduleCall)
    (remove : Option ExecutionRequestWrapper) (err : String) :
    executeWorkflow fuel host db none location request = .replied ⟨401, .failure ""⟩ db ∧
      abortExecution now db none location = .replied ⟨401, .failure ""⟩ db ∧
      scheduleWorkflow now runError db state none location scheduleCall =
        .replied ⟨401, .failure ""⟩ db state ∧
      stopSchedule db state none location = .replied ⟨401, .failure ""⟩ db state ∧
      getWorkflowExecutions db recent none location = .replied ⟨401, .failure ""⟩ db ∧
      handleGetWorkflowqueue db "" =
        .replied ⟨401, .failure "Specify the org-id header."⟩ db ∧
      handleGetWorkflowqueueConfirm db { OrgId := "", remove := remove } =
        .replied ⟨401, .failure "Specify the org-id header."⟩ db ∧
      handleWorkflowQueueBody fuel now db (.error err) = .replied ⟨401, .failure err⟩ db ∧
      handleGetStreamResultsBody db (.error err) = .replied ⟨401, .failure err⟩ db :=
  ⟨rfl, rfl, rfl, rfl, rfl, rfl, rfl, rfl, rfl⟩

end Shuffle
